import Mathlib

/-!
# Verification development for `infra/gohttp` (resilient HTTP client)

Shallow embedding of the retry policy, the backoff strategies, the header
merge, the payload encoder and the attempt loop of `httpClient.DoReq`, and of
the code around the client: the instructions and configurations of package
`domain`, the adapter `configurationlmo`, the use case and the error mapping
of the controller.

Conventions of the embedding:

* Go `int` / `time.Duration` are `Int`; where the source computes with them
  the 64-bit wrap-around is written out with `wrapInt64`.
* A Go `error` value is a `GoError`; a nil error is `none`.
* A run-time panic of the Go code is `Except.error p` with `p : Panic`.
* Everything the outside world decides during one `DoReq` call (what the
  transport answers on the i-th send, what `ctx.Err()` reports at each place
  the code reads it, whether `ctx.Done()` fires before the backoff timer)
  is an explicit oracle in `World`.
-/

namespace Gohttp

/-! ## Machine integers -/

/-- Go `time.Duration`: a signed 64-bit count of nanoseconds. -/
abbrev Duration := Int

/-- Two's complement wrap-around of a mathematical integer to `int64` (Go
`int` on a 64-bit platform). -/
def wrapInt64 (z : Int) : Int := (z + 2 ^ 63) % 2 ^ 64 - 2 ^ 63

/-- The constant `time.Second`. -/
def Second : Duration := 1000000000

/-! ## Errors and panics -/

/-- The two values `ctx.Err()` can report once a context is done. -/
inductive CtxError where
  | canceled
  | deadlineExceeded
  deriving DecidableEq, Repr

/-- The text of `context.Canceled` / `context.DeadlineExceeded`. -/
def CtxError.Error : CtxError → String
  | .canceled => "context canceled"
  | .deadlineExceeded => "context deadline exceeded"

/-- A non-nil Go `error` value, by dynamic type.

* `urlError text unknownAuthority` is a `*url.Error` whose `Error()` is `text`;
  `unknownAuthority` says whether its `Err` field is an
  `x509.UnknownAuthorityError`.
* `context e` is the error returned by `ctx.Err()`.
* `other text` is any other error value (`errors.New`, `fmt.Errorf`, ...)
  whose `Error()` is `text`. -/
inductive GoError where
  | urlError (text : String) (unknownAuthority : Bool)
  | context (e : CtxError)
  | other (text : String)
  deriving DecidableEq, Repr

/-- The method `Error()` of an error value. -/
def GoError.Error : GoError → String
  | .urlError text _ => text
  | .context e => e.Error
  | .other text => text

/-- Run-time panics the embedded code can raise. -/
inductive Panic where
  | nilDereference
  | indexOutOfRange
  | nilMapAssignment
  deriving DecidableEq, Repr

deriving instance DecidableEq for Except

/-! ## HTTP data -/

/-- Go `http.Header`, a `map[string][]string`, as an association list; the
order of the list is the order in which a `range` over the map visits it. -/
abbrev Header := List (String × List String)

/-- The fields of `*http.Response` that the client reads. `Body` is the full
content of the body stream and `BodyErr` the error (if any) with which the
stream ends instead of `io.EOF`; the stream reports it by a read of its own,
after it has delivered the last byte. -/
structure Response where
  Status : String
  StatusCode : Int
  Header : Header
  Body : List UInt8
  BodyErr : Option GoError
  deriving DecidableEq, Repr

/-! ## Regular expressions of `client_core.go` -/

/-- The class `\d` of Go regexps: the ASCII digits. -/
def isDigit (c : Char) : Bool := decide ('0' ≤ c) && decide (c ≤ '9')

/-- Whether `p` is an initial segment of `s`. -/
def startsWith : List Char → List Char → Bool
  | [], _ => true
  | _ :: _, [] => false
  | a :: p, b :: s => a == b && startsWith p s

/-- Whether `p` occurs somewhere in `s` as a contiguous block. -/
def containsSub (p : List Char) : List Char → Bool
  | [] => startsWith p []
  | c :: s => startsWith p (c :: s) || containsSub p s

/-- Regexp "stopped after \d+ redirects\z": the text ends with
"stopped after ", one or more digits, " redirects". Read from the end of the
text: the digit run in front of " redirects" is delimited by the blank that
ends "stopped after ", so it is matched greedily. -/
def redirectsErrorRe (s : String) : Bool :=
  let r := s.toList.reverse
  let tail := " redirects".toList.reverse
  let head := "stopped after ".toList.reverse
  if startsWith tail r then
    let r1 := r.drop tail.length
    let digits := r1.takeWhile isDigit
    !digits.isEmpty && startsWith head (r1.dropWhile isDigit)
  else false

/-- Regexp "unsupported protocol scheme": a plain substring match. -/
def schemeErrorRe (s : String) : Bool :=
  containsSub "unsupported protocol scheme".toList s.toList

/-- Regexp "certificate is not trusted": a plain substring match. -/
def notTrustedErrorRe (s : String) : Bool :=
  containsSub "certificate is not trusted".toList s.toList

/-! ## Retry policy -/

/-- Function `baseRetryPolicy(resp, err)`. A nil `resp` together with a nil
`err` dereferences the nil response and panics. -/
def baseRetryPolicy (resp : Option Response) (err : Option GoError) :
    Except Panic (Bool × Option GoError) :=
  match err with
  | some e =>
    match e with
    | .urlError text unknownAuthority =>
      if redirectsErrorRe text then .ok (false, some e)
      else if schemeErrorRe text then .ok (false, some e)
      else if notTrustedErrorRe text then .ok (false, some e)
      else if unknownAuthority then .ok (false, some e)
      else .ok (true, none)
    | _ => .ok (true, none)
  | none =>
    match resp with
    | none => .error .nilDereference
    | some r =>
      if r.StatusCode = 429 then .ok (true, none)
      else if r.StatusCode = 0 ∨ (r.StatusCode ≥ 500 ∧ r.StatusCode ≠ 501) then
        .ok (true, some (.other ("unexpected HTTP status " ++ r.Status)))
      else .ok (false, none)

/-- Function `DefaultRetryPolicy(ctx, resp, err)`; `ctxErr` is what
`ctx.Err()` returns when the policy reads it. -/
def DefaultRetryPolicy (ctxErr : Option CtxError) (resp : Option Response)
    (err : Option GoError) : Except Panic (Bool × Option GoError) :=
  match ctxErr with
  | some e => .ok (false, some (.context e))
  | none =>
    match baseRetryPolicy resp err with
    | .error p => .error p
    | .ok (shouldRetry, _) => .ok (shouldRetry, none)

/-! ## Backoff -/

/-- Function `strconv.ParseUint(s, 10, 64)` without its range check: the value
of a non-empty run of ASCII digits, `none` on a syntax error. -/
def parseDigits (s : List Char) : Option Nat :=
  if s.isEmpty || !s.all isDigit then none
  else some (s.foldl (fun acc c => 10 * acc + (c.toNat - '0'.toNat)) 0)

/-- Function `strconv.ParseInt(s, 10, 64)`: `none` when it returns a non-nil
error (syntax error, or a value outside the `int64` range). -/
def ParseInt (s : String) : Option Int :=
  match s.toList with
  | [] => none
  | c :: rest =>
    let neg := c == '-'
    let digits := if c == '+' || c == '-' then rest else c :: rest
    match parseDigits digits with
    | none => none
    | some un =>
      if !neg && decide (un ≥ 2 ^ 63) then none
      else if neg && decide (un > 2 ^ 63) then none
      else some (if neg then -(un : Int) else (un : Int))

/-- The value of `float64(a)` for a natural number `a`: the nearest number
with a 53-bit significand, ties to even. -/
def roundNat53 (a : Nat) : Nat :=
  if a < 2 ^ 53 then a
  else
    let e := Nat.log2 a - 52
    let q := a / 2 ^ e
    let r := a % 2 ^ e
    let half := 2 ^ (e - 1)
    let q1 := if r > half ∨ (r = half ∧ q % 2 = 1) then q + 1 else q
    q1 * 2 ^ e

/-- The value of the conversion `float64(z)` of an `int64`. -/
def float64OfInt (z : Int) : Int :=
  if z < 0 then -((roundNat53 z.natAbs : Nat) : Int) else ((roundNat53 z.natAbs : Nat) : Int)

/-- The exponential part of `DefaultBackoff`:

    mult := math.Pow(2, float64(attemptNum)) * float64(min)
    sleep := time.Duration(mult)
    if float64(sleep) != mult || sleep > max { sleep = max }

Every float64 in it is an integer multiple of a power of two and is computed
exactly, so the model computes with `Int`:
* `attemptNum >= 1024`: the power is `+Inf`, `mult` is infinite or NaN and
  differs from every `float64(sleep)`;
* `0 <= attemptNum < 1024`: `mult = float64(min) * 2^attemptNum`; outside
  the `int64` range (or infinite) the conversion cannot round-trip;
* `-1074 <= attemptNum < 0`: `mult = float64(min) / 2^(-attemptNum)`, which
  round-trips exactly when it is an integer;
* `attemptNum < -1074`: the power underflows to zero. -/
def exponentialSleep (min max : Duration) (attemptNum : Int) : Duration :=
  let f := float64OfInt min
  if attemptNum ≥ 1024 then max
  else if attemptNum ≥ 0 then
    let mult := f * 2 ^ attemptNum.toNat
    if -(2 ^ 63) ≤ mult ∧ mult < 2 ^ 63 then
      if mult > max then max else mult
    else max
  else if attemptNum ≥ -1074 then
    let d : Int := 2 ^ (-attemptNum).toNat
    if f % d = 0 then
      if f / d > max then max else f / d
    else max
  else
    if 0 > max then max else 0

/-- A map index `h[k]` on a header map (no canonicalisation of the key). -/
def Header.lookup (h : Header) (k : String) : Option (List String) :=
  (h.find? (fun p => p.1 == k)).map (fun p => p.2)

/-- Function `DefaultBackoff(min, max, attemptNum, resp)`. Indexing an empty
`Retry-After` value list panics. -/
def DefaultBackoff (min max : Duration) (attemptNum : Int) (resp : Option Response) :
    Except Panic Duration :=
  match resp with
  | some r =>
    if r.StatusCode = 429 ∨ r.StatusCode = 503 then
      match r.Header.lookup "Retry-After" with
      | some [] => .error .indexOutOfRange
      | some (s0 :: _) =>
        match ParseInt s0 with
        | some sleep => .ok (wrapInt64 (Second * sleep))
        | none => .ok (exponentialSleep min max attemptNum)
      | none => .ok (exponentialSleep min max attemptNum)
    else .ok (exponentialSleep min max attemptNum)
  | none => .ok (exponentialSleep min max attemptNum)

/-! ## Header maps -/

/-- Token characters of RFC 7230 (`validHeaderFieldByte`, `httpguts.IsTokenRune`). -/
def isTokenChar (c : Char) : Bool :=
  c.isAlphanum || "!#$%&'*+-.^_`|~".toList.contains c

/-- The rewriting loop of `textproto.canonicalMIMEHeaderKey`: upper case for
the first letter and for a letter after a dash, lower case for the others. -/
def canonicalLetters : Bool → List Char → List Char
  | _, [] => []
  | upper, c :: cs =>
    let c1 := if upper && c.isLower then c.toUpper
      else if !upper && c.isUpper then c.toLower else c
    c1 :: canonicalLetters (c1 == '-') cs

/-- Function `textproto.CanonicalMIMEHeaderKey`: a key holding a byte that is
not a token character is returned unchanged. -/
def CanonicalMIMEHeaderKey (s : String) : String :=
  if s.toList.all isTokenChar then String.mk (canonicalLetters true s.toList) else s

/-- A map assignment `h[k] = v`. -/
def Header.store (h : Header) (k : String) (v : List String) : Header :=
  if h.any (fun p => p.1 == k) then h.map (fun p => if p.1 == k then (k, v) else p)
  else h ++ [(k, v)]

/-- Method `http.Header.Set`. -/
def Header.Set (h : Header) (key value : String) : Header :=
  h.store (CanonicalMIMEHeaderKey key) [value]

/-- Method `http.Header.Add`. -/
def Header.Add (h : Header) (key value : String) : Header :=
  let k := CanonicalMIMEHeaderKey key
  h.store k ((h.lookup k).getD [] ++ [value])

/-- Method `http.Header.Get`. -/
def Header.Get (h : Header) (key : String) : String :=
  match h.lookup (CanonicalMIMEHeaderKey key) with
  | some (v :: _) => v
  | _ => ""

def HeaderContentType : String := "Content-Type"
def HeaderUserAgent : String := "User-Agent"
def HeaderAuth : String := "Authorization"
def ContentTypeJSON : String := "application/json"
def ContentTypeXML : String := "application/xml"

/-! ## Builder and client configuration -/

/-- A logger installed with `SetLogger`, known by its identity. -/
structure Logger where
  id : Nat
  deriving DecidableEq, Repr

/-- The settings of a standard `*http.Client` that this package reads or
writes. -/
structure StdClient where
  Timeout : Duration
  DialTimeout : Duration
  ResponseHeaderTimeout : Duration
  deriving DecidableEq, Repr

/-- Type `CheckRetry`: the policy sees `ctx.Err()`, the response and the
transport error; it answers `(shouldRetry, err)` or panics. -/
abbrev CheckRetry :=
  Option CtxError → Option Response → Option GoError → Except Panic (Bool × Option GoError)

/-- Type `Backoff`: `(min, max, attemptNum, resp)` to the wait, or a panic. -/
abbrev Backoff := Duration → Duration → Int → Option Response → Except Panic Duration

/-- Struct `clientBuilder`; a nil map or pointer is `none`. -/
structure clientBuilder where
  client : Option StdClient
  baseUrl : String
  headers : Option Header
  connectionTimeout : Duration
  responseHeaderTimeOut : Duration
  disableTimeouts : Bool
  caCert : String
  crtKey : String
  caBundle : String
  audience : String
  RetryWaitMin : Duration
  RetryWaitMax : Duration
  RetryMax : Int
  Logger : Option Logger
  Backoff : Backoff
  CheckRetry : CheckRetry

def defaultRetryWaitMin : Duration := 1 * Second
def defaultRetryWaitMax : Duration := 30 * Second
def defaultRetryMax : Int := 1

/-- Function `NewClientBuilder()`; the fields it does not name hold their zero
value. -/
def NewClientBuilder : clientBuilder :=
  { client := none
    baseUrl := ""
    headers := none
    connectionTimeout := 0
    responseHeaderTimeOut := 0
    disableTimeouts := false
    caCert := ""
    crtKey := ""
    caBundle := ""
    audience := ""
    RetryWaitMin := defaultRetryWaitMin
    RetryWaitMax := defaultRetryWaitMax
    RetryMax := defaultRetryMax
    Logger := none
    Backoff := DefaultBackoff
    CheckRetry := DefaultRetryPolicy }

/-- Method `SetRetryWaitMin`. -/
def clientBuilder.SetRetryWaitMin (b : clientBuilder) (arg : Duration) : clientBuilder :=
  { b with RetryWaitMin := arg }

/-- Method `SetRetryWaitMax`. -/
def clientBuilder.SetRetryWaitMax (b : clientBuilder) (arg : Duration) : clientBuilder :=
  { b with RetryWaitMax := arg }

/-- Method `SetRetryMax`. -/
def clientBuilder.SetRetryMax (b : clientBuilder) (arg : Int) : clientBuilder :=
  { b with RetryMax := arg }

/-- Method `SetLogger`; a nil logger is `none`. -/
def clientBuilder.SetLogger (b : clientBuilder) (l : Option Gohttp.Logger) : clientBuilder :=
  { b with Logger := l }

/-- Method `SetHeaders`: every value of every key of `headers` is appended
with `Add` to the builder's map, which is created when it is nil. -/
def clientBuilder.SetHeaders (b : clientBuilder) (headers : Header) : clientBuilder :=
  let start : Header := b.headers.getD []
  { b with headers := some (headers.foldl
      (fun acc kv => kv.2.foldl (fun acc1 dv => Header.Add acc1 kv.1 dv) acc) start) }

/-- Struct `httpClient`: the lazily created standard client and the builder. -/
structure httpClient where
  client : Option StdClient
  b : clientBuilder

/-- Method `Build`. -/
def clientBuilder.Build (b : clientBuilder) : httpClient :=
  { client := none, b := b }

/-- Method `RetryMax` of the client. -/
def httpClient.RetryMax (c : httpClient) : Int :=
  if c.b.RetryMax ≠ 0 then c.b.RetryMax else defaultRetryMax

/-- Method `Logger` of the client. -/
def httpClient.Logger (c : httpClient) : Option Gohttp.Logger := c.b.Logger

/-- One pass of the two loops of `RequestHeaders`: `result.Set(k, v[0])` for
every key with a non-empty value list. -/
def setFirstValues (result : Header) (src : Header) : Header :=
  src.foldl (fun acc kv =>
    match kv.2 with
    | [] => acc
    | v0 :: _ => Header.Set acc kv.1 v0) result

/-- Method `RequestHeaders`: the client's headers first, then the request's. -/
def httpClient.RequestHeaders (c : httpClient) (requestHeaders : Header) : Header :=
  setFirstValues (setFirstValues [] (c.b.headers.getD [])) requestHeaders

/-! ## Requests and payloads -/

/-- How a call that yields `([]byte, error)` ends: with bytes and a nil
error, with an error, or in a panic. -/
inductive PayloadResult where
  | ok (bytes : List UInt8)
  | error (err : GoError)
  | panicked (p : Panic)
  deriving DecidableEq, Repr

/-- What the type assertion `reqBody.(*bytes.Buffer)` finds in a non-nil
interface value: another dynamic type, a nil pointer of type `*bytes.Buffer`,
or a buffer holding bytes. -/
inductive BufferValue where
  | notBuffer
  | nilPointer
  | holds (bytes : List UInt8)
  deriving DecidableEq, Repr

/-- A non-nil request body (`interface{}`), given by what the encoders make
of it, the outcomes of `json.Marshal` and `xml.Marshal` (a custom marshaler
can make them panic), and by what it is as a `*bytes.Buffer`. -/
structure RequestBody where
  json : PayloadResult
  xml : PayloadResult
  buffer : BufferValue
  deriving DecidableEq

/-- Struct `RequestAttributes`; a nil `Body` is `none`, and a nil header map
is the empty one. -/
structure RequestAttributes where
  Method : String
  URL : String
  Headers : Header
  Body : Option RequestBody
  Retry : Bool
  TraceID : String
  deriving DecidableEq

/-- Struct `ResponseAttributes`. -/
structure ResponseAttributes where
  status : String
  statusCode : Int
  headers : Header
  body : List UInt8
  deriving DecidableEq, Repr

/-- Method `RequestPayload(contentType, reqBody)`. In the multipart case the
type assertion succeeds for a nil `*bytes.Buffer` too, and `buf.Bytes()` then
dereferences the nil pointer. -/
def RequestPayload (contentType : String) (reqBody : Option RequestBody) : PayloadResult :=
  match reqBody with
  | none => .ok []
  | some body =>
    if contentType = ContentTypeJSON then body.json
    else if contentType = ContentTypeXML then body.xml
    else if containsSub "multipart/form-data".toList contentType.toList then
      match body.buffer with
      | .notBuffer => .error (.other "some issue")
      | .nilPointer => .panicked .nilDereference
      | .holds bytes => .ok bytes
    else body.json

/-! ## The outside world of one `DoReq` call -/

/-- What the environment decides during one call of `DoReq`. The index is the
loop variable `i` of the attempt loop.

* `urlParse url`: the error of `url.Parse(url)`, if any;
* `roundTrip i`: the `(resp, doErr)` that `c.Client().Do(req)` returns in
  iteration `i`;
* `ctxErrAfterDo i`: the value of `ctx.Err()` read right after that call;
* `ctxErrAtCheck i`: the value of `ctx.Err()` seen by the retry policy;
* `ctxDoneInWait i`: `some e` when `ctx.Done()` is the case that the `select`
  after iteration `i` takes (`e` is `ctx.Err()` then), `none` when the timer
  wins. -/
structure World where
  urlParse : String → Option GoError
  roundTrip : Nat → Option Response × Option GoError
  ctxErrAfterDo : Nat → Option CtxError
  ctxErrAtCheck : Nat → Option CtxError
  ctxDoneInWait : Nat → Option CtxError

/-- Function `validMethod` of `net/http`: a non-empty run of token characters. -/
def validMethod (method : String) : Bool :=
  !method.toList.isEmpty && method.toList.all isTokenChar

/-- Function `http.NewRequestWithContext` for a non-nil context: the method
of the request it builds, or its error. -/
def NewRequestWithContext (w : World) (method url : String) : Except GoError String :=
  let m := if method = "" then "GET" else method
  if !validMethod m then .error (.other ("net/http: invalid method " ++ m.quote))
  else
    match w.urlParse url with
    | some err => .error err
    | none => .ok m

/-- What the logger is asked to print, given by the values the format string
is applied to. The field `url` is the URL string that `DoReq` was called with;
the source prints `req.URL`, the parsed form of that string (with the scheme
in lower case, for instance), so the text printed is a function of this field
and not always the field itself. -/
inductive LogEntry where
  | requestFailed (method url : String)
  | retrying (method url : String) (status : Option Int) (wait : Duration) (remain : Int)
  | badStatus (method url : String) (status : Int) (body : List UInt8)
  deriving DecidableEq, Repr

/-- The observable actions of `DoReq`, in the order in which it performs them. -/
inductive Event where
  | send (i : Nat)
  | wait (attemptNum : Int) (d : Duration)
  | closeIdleConnections
  | log (l : Logger) (e : LogEntry)
  deriving DecidableEq, Repr

/-- How a call ends: with `return resp, err` or with a panic. -/
inductive Outcome where
  | returned (resp : Option ResponseAttributes) (err : Option GoError)
  | panicked (p : Panic)
  deriving DecidableEq, Repr

/-- One call of `DoReq`: what it did and how it ended. -/
structure Run where
  events : List Event
  outcome : Outcome
  deriving DecidableEq, Repr

/-- The number of attempts (calls of `Do`) in a list of events. -/
def sendCount : List Event → Nat
  | [] => 0
  | .send _ :: es => sendCount es + 1
  | _ :: es => sendCount es

/-- The backoff waits in a list of events: the attempt number handed to the
backoff function and the wait it computed, in order. -/
def waitsOf : List Event → List (Int × Duration)
  | [] => []
  | .wait n d :: es => (n, d) :: waitsOf es
  | _ :: es => waitsOf es

/-- The sends and waits of a list of events, in order, without the rest. -/
def sendsAndWaits : List Event → List Event
  | [] => []
  | .send i :: es => .send i :: sendsAndWaits es
  | .wait n d :: es => .wait n d :: sendsAndWaits es
  | _ :: es => sendsAndWaits es

/-! ## The attempt loop of `DoReq` -/

/-- The loop-carried variables `resp`, `doErr`, `checkErr`, `shouldRetry`. -/
structure LoopState where
  resp : Option Response
  doErr : Option GoError
  checkErr : Option GoError
  shouldRetry : Bool
  deriving DecidableEq, Repr

/-- How one iteration of the loop ends. -/
inductive StepEnd where
  | next (st : LoopState)
  | stop (st : LoopState)
  | returned (err : GoError)
  | panicked (p : Panic)
  deriving DecidableEq, Repr

/-- How the loop ends: left by `break` or by its bound, left by a `return nil,
err` inside it, or by a panic. -/
inductive LoopEnd where
  | done (st : LoopState)
  | returned (err : GoError)
  | panicked (p : Panic)
  deriving DecidableEq, Repr

/-- The error `fmt.Errorf("http client.Send: %v", ctx.Err())`. -/
def sendError (e : CtxError) : GoError := .other ("http client.Send: " ++ e.Error)

/-- The `log` events of a list of entries, or nothing without a logger. -/
def logTo (l : Option Logger) (e : LogEntry) : List Event :=
  match l with
  | some lg => [.log lg e]
  | none => []

/-- The log entry of line 77-84: written when `doErr` is non-nil and a logger
is configured. -/
def failLog (c : httpClient) (method url : String) (doErr : Option GoError) : List Event :=
  if doErr.isSome then logTo c.Logger (.requestFailed method url) else []

/-- The log entry of line 98-109: written before each backoff wait when a
logger is configured. -/
def retryLog (c : httpClient) (method url : String) (resp : Option Response)
    (wait : Duration) (remain : Int) : List Event :=
  logTo c.Logger (.retrying method url (resp.map (fun r => r.StatusCode)) wait remain)

/-- The body of the attempt loop for loop variable `i` (lines 64-118 of
`client.go`). -/
def attemptBody (c : httpClient) (w : World) (method url : String) (i : Nat) :
    List Event × StepEnd :=
  let resp := (w.roundTrip i).1
  let doErr := (w.roundTrip i).2
  match w.ctxErrAfterDo i with
  | some e => ([.send i, .closeIdleConnections], .returned (sendError e))
  | none =>
    match c.b.CheckRetry (w.ctxErrAtCheck i) resp doErr with
    | .error p => ([.send i], .panicked p)
    | .ok (shouldRetry, checkErr) =>
      let st : LoopState :=
        { resp := resp, doErr := doErr, checkErr := checkErr, shouldRetry := shouldRetry }
      if !shouldRetry then (.send i :: failLog c method url doErr, .stop st)
      else
        let remain := wrapInt64 (c.RetryMax - (i : Int) - 1)
        if remain ≤ 0 then (.send i :: failLog c method url doErr, .stop st)
        else
          match c.b.Backoff c.b.RetryWaitMin c.b.RetryWaitMax (i : Int) resp with
          | .error p => (.send i :: failLog c method url doErr, .panicked p)
          | .ok wait =>
            match w.ctxDoneInWait i with
            | some e =>
              (.send i :: (failLog c method url doErr ++ retryLog c method url resp wait remain ++
                  [.wait (i : Int) wait, .closeIdleConnections]),
                .returned (sendError e))
            | none =>
              (.send i :: (failLog c method url doErr ++ retryLog c method url resp wait remain ++
                  [.wait (i : Int) wait]),
                .next st)

/-- The loop `for i := 0; i < 3; i++` from loop variable `i` on, with
`fuel = 3 - i` iterations left; `st` holds the loop-carried variables. -/
def attemptLoop (c : httpClient) (w : World) (method url : String) :
    Nat → Nat → LoopState → List Event × LoopEnd
  | 0, _, st => ([], .done st)
  | fuel + 1, i, _ =>
    match attemptBody c w method url i with
    | (ev, .next st1) =>
      ((ev ++ (attemptLoop c w method url fuel (i + 1) st1).1),
        (attemptLoop c w method url fuel (i + 1) st1).2)
    | (ev, .stop st1) => (ev, .done st1)
    | (ev, .returned err) => (ev, .returned err)
    | (ev, .panicked p) => (ev, .panicked p)

/-- The state of the loop-carried variables before the first iteration. -/
def initialState : LoopState :=
  { resp := none, doErr := none, checkErr := none, shouldRetry := false }

/-- The call `io.ReadAll(io.LimitReader(resp.Body, 1024*1024))`: a body of
1 MiB or more is cut at the limit before its end is seen. -/
def readAllLimited (r : Response) : Except GoError (List UInt8) :=
  if r.Body.length < 1024 * 1024 then
    match r.BodyErr with
    | some e => .error e
    | none => .ok r.Body
  else .ok (r.Body.take (1024 * 1024))

/-- The part of `DoReq` after the loop (lines 121-157 of `client.go`); the
deferred `CloseIdleConnections` runs last, also when the nil response is
dereferenced. -/
def afterLoop (c : httpClient) (method url : String) (st : LoopState) : List Event × Outcome :=
  match st.checkErr with
  | some e =>
    ([.closeIdleConnections], .returned none (some (.other ("check retry policy: " ++ e.Error))))
  | none =>
    match st.doErr with
    | some e =>
      ([.closeIdleConnections], .returned none (some (.other ("http client.Do: " ++ e.Error))))
    | none =>
      match st.resp with
      | none => ([.closeIdleConnections], .panicked .nilDereference)
      | some resp =>
        match readAllLimited resp with
        | .error e => ([.closeIdleConnections], .returned none (some e))
        | .ok respBytes =>
          let warnLog := if resp.StatusCode ≥ 299
            then logTo c.Logger (.badStatus method url resp.StatusCode respBytes) else []
          (warnLog ++ [.closeIdleConnections],
            .returned (some { status := resp.Status, statusCode := resp.StatusCode,
                              body := respBytes, headers := resp.Header }) none)

/-- What `DoReq` does with the way its loop ended: a `return` from inside the
loop and a panic are final, otherwise the code after the loop runs. -/
def finishRun (c : httpClient) (method url : String) : List Event × LoopEnd → Run
  | (ev, .returned err) => { events := ev, outcome := .returned none (some err) }
  | (ev, .panicked p) => { events := ev, outcome := .panicked p }
  | (ev, .done st) =>
    { events := ev ++ (afterLoop c method url st).1,
      outcome := (afterLoop c method url st).2 }

/-- Method `DoReq(ctx, httpRequest)`. A panic of `RequestPayload` ends the call
before anything is sent. A request that `NewRequestWithContext` refuses leaves
`req` nil, and the assignment to `req.Header` panics. -/
def httpClient.DoReq (c : httpClient) (w : World) (httpRequest : RequestAttributes) : Run :=
  let fullHeaders := c.RequestHeaders httpRequest.Headers
  match RequestPayload (Header.Get fullHeaders HeaderContentType) httpRequest.Body with
  | .panicked p => { events := [], outcome := .panicked p }
  | .error err => { events := [], outcome := .returned none (some err) }
  | .ok _ =>
    match NewRequestWithContext w httpRequest.Method httpRequest.URL with
    | .error _ => { events := [], outcome := .panicked .nilDereference }
    | .ok method =>
      finishRun c method httpRequest.URL
        (attemptLoop c w method httpRequest.URL 3 0 initialState)

/-- How the end of an iteration that does not continue ends the loop: a
`break` leaves the loop, a `return` or a panic leaves the function. -/
def StepEnd.toLoopEnd : StepEnd → Option LoopEnd
  | .next _ => none
  | .stop st => some (.done st)
  | .returned err => some (.returned err)
  | .panicked p => some (.panicked p)

/-! ## Sample inputs -/

/-- A response with the given status code and status line, no headers and an
empty body. -/
def sampleResponse (code : Int) (status : String) : Response :=
  { Status := status, StatusCode := code, Header := [], Body := [], BodyErr := none }

/-- A world whose context is never cancelled, whose URLs all parse, and whose
transport answers the i-th send with `rt i`. -/
def calmWorld (rt : Nat → Option Response × Option GoError) : World :=
  { urlParse := fun _ => none
    roundTrip := rt
    ctxErrAfterDo := fun _ => none
    ctxErrAtCheck := fun _ => none
    ctxDoneInWait := fun _ => none }

/-- A server that answers every request with 503. -/
def alwaysUnavailable : World :=
  calmWorld (fun _ => (some (sampleResponse 503 "503 Service Unavailable"), none))

/-- A server that answers 503, 503 and then 200. -/
def twoFailuresThenOK : World :=
  calmWorld (fun i =>
    if i < 2 then (some (sampleResponse 503 "503 Service Unavailable"), none)
    else (some (sampleResponse 200 "200 OK"), none))

/-- A server that answers 503 once and then 200. -/
def oneFailureThenOK : World :=
  calmWorld (fun i =>
    if i < 1 then (some (sampleResponse 503 "503 Service Unavailable"), none)
    else (some (sampleResponse 200 "200 OK"), none))

/-- A server that always answers 503, and a context that is cancelled while
the client waits after the first attempt. -/
def cancelledInFirstWait : World :=
  { alwaysUnavailable with
    ctxErrAfterDo := fun i => if i = 0 then none else some .canceled
    ctxErrAtCheck := fun i => if i = 0 then none else some .canceled
    ctxDoneInWait := fun _ => some .canceled }

/-- A server that always answers 503, and a context whose deadline has passed
when the first attempt returns. -/
def expiredAfterFirstSend : World :=
  { alwaysUnavailable with
    ctxErrAfterDo := fun _ => some .deadlineExceeded
    ctxErrAtCheck := fun _ => some .deadlineExceeded
    ctxDoneInWait := fun _ => some .deadlineExceeded }

/-- A GET request without body and without headers of its own. -/
def sampleRequest : RequestAttributes :=
  { Method := "GET", URL := "http://example.test/items", Headers := [], Body := none,
    Retry := false, TraceID := "" }

/-- A caller-supplied retry policy that, unlike `DefaultRetryPolicy`, hands on
the error of `baseRetryPolicy`. -/
def propagatingPolicy : CheckRetry := fun ctxErr resp err =>
  match ctxErr with
  | some e => .ok (false, some (.context e))
  | none => baseRetryPolicy resp err

/-- A builder with the defaults of `NewClientBuilder` and the policy
`propagatingPolicy`. -/
def propagatingBuilder : clientBuilder :=
  { NewClientBuilder with CheckRetry := propagatingPolicy }

/-- A server that always answers 503, and a context that is cancelled between
the check after the first send and the evaluation of the retry policy. -/
def cancelledBeforePolicy : World :=
  { alwaysUnavailable with
    ctxErrAtCheck := fun _ => some .canceled
    ctxErrAfterDo := fun i => if i = 0 then none else some .canceled
    ctxDoneInWait := fun _ => some .canceled }

/-- The default client with the retry limit set to `n`. -/
def defaultClient (n : Int) : httpClient := (NewClientBuilder.SetRetryMax n).Build

/-- The client of `propagatingBuilder` with the retry limit set to `n`. -/
def propagatingClient (n : Int) : httpClient := (propagatingBuilder.SetRetryMax n).Build

/-- A 200 response with the given body and, possibly, an error at the end of
the body stream. -/
def okResponse (body : List UInt8) (bodyErr : Option GoError) : Response :=
  { Status := "200 OK", StatusCode := 200, Header := [], Body := body, BodyErr := bodyErr }

/-- A server that answers every request with `r`. -/
def alwaysAnswers (r : Response) : World := calmWorld (fun _ => (some r, none))

/-- A body of 1 MiB and one byte. -/
def oversizeBody : List UInt8 := List.replicate 1048577 0

/-- The sample request with the method left empty. -/
def emptyMethodRequest : RequestAttributes := { sampleRequest with Method := "" }

/-- The sample request with a method that is not a token. -/
def badMethodRequest : RequestAttributes := { sampleRequest with Method := "BAD METHOD" }

/-- The sample request with the URL left empty. -/
def emptyURLRequest : RequestAttributes := { sampleRequest with URL := "" }

/-- A transport that refuses every request for its URL scheme, as that of
`net/http` does for a URL without scheme. -/
def refusesScheme : World :=
  calmWorld (fun _ => (none, some (.urlError "Get \"\": unsupported protocol scheme \"\"" false)))

/-- The client whose only default header is `A: 1`. -/
def clientWithA : httpClient := (NewClientBuilder.SetHeaders [("A", ["1"])]).Build

/-! ## The lazily created standard client -/

/-- Constant `DefaultResponseHeaderTimeout`. -/
def DefaultResponseHeaderTimeout : Duration := 5 * Second

/-- Constant `DefaultConnectionTimeout`. -/
def DefaultConnectionTimeout : Duration := 2 * Second

/-- Method `ResponseTimeout`. -/
def httpClient.ResponseTimeout (c : httpClient) : Duration :=
  if c.b.responseHeaderTimeOut > 0 then c.b.responseHeaderTimeOut
  else if c.b.disableTimeouts then 0
  else DefaultResponseHeaderTimeout

/-- Method `ConnectionTimeout`. -/
def httpClient.ConnectionTimeout (c : httpClient) : Duration :=
  if c.b.connectionTimeout > 0 then c.b.connectionTimeout
  else if c.b.disableTimeouts then 0
  else DefaultConnectionTimeout

/-- Method `Client`: the client struct after the call, and the handle the call
returns. The function given to `clientOnce.Do` runs on the first call only,
which is the one that finds the field `client` nil. -/
def httpClient.Client (c : httpClient) : httpClient × StdClient :=
  match c.client with
  | some made => (c, made)
  | none =>
    let made : StdClient :=
      match c.b.client with
      | some given => given
      | none =>
        { Timeout := wrapInt64 (c.ConnectionTimeout + c.ResponseTimeout)
          DialTimeout := c.ConnectionTimeout
          ResponseHeaderTimeout := c.ResponseTimeout }
    ({ c with client := some made }, made)

/-! ## Header maps as mutable objects

Go maps are references. To state what `DoReq` writes, the header maps live in
a heap and are named by their address. -/

/-- The address of a header map. -/
abbrev MapRef := Nat

/-- The header maps allocated so far: the map at address `a` is `cells[a]`. -/
structure MapHeap where
  cells : List Header
  deriving DecidableEq, Repr

/-- The content of the map behind a reference; a nil map reads as empty. -/
def MapHeap.read (h : MapHeap) (a : Option MapRef) : Header :=
  match a with
  | none => []
  | some n => h.cells.getD n []

/-- The call `make(http.Header)`: a new empty map at the next free address. -/
def MapHeap.make (h : MapHeap) : MapHeap × MapRef :=
  ({ cells := h.cells ++ [[]] }, h.cells.length)

/-- The call `m.Set(key, value)` on the map at address `a`. -/
def MapHeap.set (h : MapHeap) (a : MapRef) (key value : String) : MapHeap :=
  { cells := h.cells.set a (Header.Set (h.cells.getD a []) key value) }

/-- One `range` loop of `RequestHeaders` on the heap: `result.Set(k, v[0])`
for every entry of the map that was read. -/
def setFirstValuesOnHeap (h : MapHeap) (result : MapRef) (src : Header) : MapHeap :=
  src.foldl (fun acc kv =>
    match kv.2 with
    | [] => acc
    | v0 :: _ => acc.set result kv.1 v0) h

/-- Method `RequestHeaders` on the heap: `dflt` is the reference held in
`c.b.headers`, `req` the caller's `requestHeaders`. It returns the heap after
the call and the reference it returns. -/
def RequestHeadersOnHeap (h : MapHeap) (dflt req : Option MapRef) : MapHeap × MapRef :=
  let made := h.make
  let h1 := setFirstValuesOnHeap made.1 made.2 (made.1.read dflt)
  let h2 := setFirstValuesOnHeap h1 made.2 (h1.read req)
  (h2, made.2)

/-- The memory that a call of `DoReq` can reach through its receiver and its
argument: the heap of header maps, the reference in `c.b.headers`, the other
fields of the struct behind `c.b` (the field `headers` of `settings` is not
used), and the field `c.client`. -/
structure Memory where
  heap : MapHeap
  headersRef : Option MapRef
  settings : clientBuilder
  client : Option StdClient

/-- The client that the pure model sees in a memory. -/
def Memory.view (mem : Memory) : httpClient :=
  { client := mem.client
    b := { mem.settings with headers := mem.headersRef.map (fun a => mem.heap.read (some a)) } }

/-- The memory after `DoReq(ctx, httpRequest)`, where `reqHeaders` is the
reference in `httpRequest.Headers`, together with the reference of the merged
map and the run. The writes of `DoReq` are those of `RequestHeaders`, the
assignment of the merged map to `req.Header` (a field of the new request),
and the assignment to `c.client` by the first `c.Client()`, which the first
iteration of the loop calls. -/
def DoReqOnMemory (mem : Memory) (w : World) (httpRequest : RequestAttributes)
    (reqHeaders : Option MapRef) : Memory × MapRef × Run :=
  let merged := RequestHeadersOnHeap mem.heap mem.headersRef reqHeaders
  let mem1 : Memory := { mem with heap := merged.1 }
  let rq : RequestAttributes := { httpRequest with Headers := mem.heap.read reqHeaders }
  let run := mem.view.DoReq w rq
  match RequestPayload (Header.Get (merged.1.read (some merged.2)) HeaderContentType)
      httpRequest.Body with
  | .panicked _ => (mem1, merged.2, run)
  | .error _ => (mem1, merged.2, run)
  | .ok _ =>
    match NewRequestWithContext w httpRequest.Method httpRequest.URL with
    | .error _ => (mem1, merged.2, run)
    | .ok _ => ({ mem1 with client := some mem.view.Client.2 }, merged.2, run)

/-- A memory with two header maps, the defaults `{A: 1}` at address 0 and a
caller's map `{B: 2}` at address 1, the settings of `NewClientBuilder` and no
standard client yet. -/
def sampleMemory : Memory :=
  { heap := { cells := [[("A", ["1"])], [("B", ["2"])]] }
    headersRef := some 0
    settings := NewClientBuilder
    client := none }

/-! ## Package `domain`

Go string types (`Country`, `InstructionType`, ...) are `String`; a `switch`
over their constants is a chain of equality tests in the order of the cases.
An `int8`/`int16` field is an `Int`; the code only stores constants in them. -/

namespace Domain

/-- Type `uuid.UUID`, by its canonical text. -/
abbrev UUID := String

/-- The zero value `uuid.Nil`. -/
def UUID.Nil : UUID := "00000000-0000-0000-0000-000000000000"

/-- Variable `ErrUnsupportedCountry`. -/
def ErrUnsupportedCountry : GoError := .other "unsupported country"

/-- Variable `ErrUnsupportedInstructionType`. -/
def ErrUnsupportedInstructionType : GoError := .other "unsupported instruction type"

/-- Variable `ErrUnsupportedInstructionTarget`. -/
def ErrUnsupportedInstructionTarget : GoError := .other "unsupported instruction target"

/-- Variable `ErrUnsupportedStepName`. -/
def ErrUnsupportedStepName : GoError := .other "unsupported step type according to name"

/-- Type `Country`. -/
abbrev Country := String

def CountryES : Country := "ES"
def CountryIT : Country := "IT"
def CountryFR : Country := "FR"
def CountryPT : Country := "PT"

/-- Method `Country.Validate`. -/
def Country.Validate (m : Country) : Option GoError :=
  if m = CountryES ∨ m = CountryIT ∨ m = CountryFR ∨ m = CountryPT then none
  else some ErrUnsupportedCountry

/-- Type `Model`. -/
abbrev Model := String

def ModelWarehouse : Model := "WAREHOUSE"
def ModelStore : Model := "STORE"

/-- Type `DeliveryType`. -/
abbrev DeliveryType := String

def DeliveryTypeDirect : DeliveryType := "DIRECT"
def DeliveryTypeReverse : DeliveryType := "REVERSE"

/-- Type `InstructionTarget`. -/
abbrev InstructionTarget := String

def TargetCustomer : InstructionTarget := "customer"
def TargetWarehouse : InstructionTarget := "warehouse"
def TargetStore : InstructionTarget := "store"
def TargetThirdParty : InstructionTarget := "thirdParty"
def TargetSafePlace : InstructionTarget := "safePlace"
def TargetHousehold : InstructionTarget := "household"

/-- Method `InstructionTarget.IsActionTargetValid`. -/
def InstructionTarget.IsActionTargetValid (c : InstructionTarget) : Option GoError :=
  if c = TargetCustomer ∨ c = TargetWarehouse ∨ c = TargetStore ∨ c = TargetSafePlace ∨
      c = TargetThirdParty ∨ c = TargetHousehold then none
  else some ErrUnsupportedInstructionTarget

/-- Method `InstructionTarget.Priority`. -/
def InstructionTarget.Priority (c : InstructionTarget) : Int :=
  if c = TargetCustomer then 1
  else if c = TargetThirdParty then 2
  else if c = TargetSafePlace then 3
  else if c = TargetHousehold then 4
  else if c = TargetWarehouse then 5
  else if c = TargetStore then 6
  else 0

/-- Type `InstructionType`. -/
abbrev InstructionType := String

def DeliveryCustomerInstructionType : InstructionType := "DELIVERY_CUSTOMER"
def DeliveryHouseHoldInstructionType : InstructionType := "DELIVERY_HOUSEHOLD"
def Delivery3rdPartyInstructionType : InstructionType := "DELIVERY_3RD_PARTY"
def DeliveryCustomerFailedInstructionType : InstructionType := "FAILED_DELIVERY_CUSTOMER"
def DeliveryWHFailedInstructionType : InstructionType := "FAILED_DELIVERY_WH"
def PickupWHInstructionType : InstructionType := "PICKUP_WH"
def PickupWHFailedInstructionType : InstructionType := "FAILED_PICKUP_WH"
def PickupCustomerInstructionType : InstructionType := "PICKUP_CUSTOMER"
def PickupCustomerFailedInstructionType : InstructionType := "FAILED_PICKUP_CUSTOMER"

/-- Method `InstructionType.Validate`. -/
def InstructionType.Validate (i : InstructionType) : Option GoError :=
  if i = DeliveryCustomerInstructionType ∨ i = DeliveryHouseHoldInstructionType ∨
      i = Delivery3rdPartyInstructionType ∨ i = DeliveryCustomerFailedInstructionType ∨
      i = DeliveryWHFailedInstructionType ∨ i = PickupWHInstructionType ∨
      i = PickupWHFailedInstructionType ∨ i = PickupCustomerInstructionType ∨
      i = PickupCustomerFailedInstructionType then none
  else some ErrUnsupportedInstructionType

/-- Method `InstructionType.Target`. -/
def InstructionType.Target (i : InstructionType) : InstructionTarget :=
  if i = DeliveryCustomerInstructionType then TargetCustomer
  else if i = DeliveryHouseHoldInstructionType then TargetHousehold
  else if i = Delivery3rdPartyInstructionType then TargetThirdParty
  else if i = DeliveryCustomerFailedInstructionType then TargetCustomer
  else if i = DeliveryWHFailedInstructionType then TargetWarehouse
  else if i = PickupWHInstructionType then TargetWarehouse
  else if i = PickupWHFailedInstructionType then TargetWarehouse
  else if i = PickupCustomerInstructionType then TargetCustomer
  else if i = PickupCustomerFailedInstructionType then TargetCustomer
  else ""

/-- Type `StepName`. -/
abbrev StepName := String

def StepNameScan : StepName := "SCAN"
def StepNameCollectBarcode : StepName := "COLLECT_BARCODES"
def StepNamePhoto : StepName := "PHOTO"
def StepNameIdNumber : StepName := "ID_NUMBER"
def StepNameSignature : StepName := "SIGNATURE"
def StepNamePassCode : StepName := "PASSCODE"
def StepNameOTP : StepName := "OTP"
def StepNameManualConfirmation : StepName := "MANUAL_CONFIRMATION"
def StepNameConfigurableText : StepName := "CONFIGURABLE_TEXT"

/-- Method `StepName.Priority`. -/
def StepName.Priority (s : StepName) : Int :=
  if s = StepNameScan then 1
  else if s = StepNameCollectBarcode then 2
  else if s = StepNamePhoto then 3
  else if s = StepNameIdNumber then 4
  else if s = StepNameSignature then 5
  else if s = StepNamePassCode then 6
  else if s = StepNameOTP then 7
  else if s = StepNameManualConfirmation then 8
  else if s = StepNameConfigurableText then 9
  else 0

/-- Struct `ExtraInfo`. -/
structure ExtraInfo where
  Key : String
  Value : String
  deriving DecidableEq, Repr

/-- Struct `FallbackStep`. -/
structure FallbackStep where
  Name : String
  deriving DecidableEq, Repr

/-- Struct `InstructionStep`; a nil `ExtraInfo` is the empty list. -/
structure InstructionStep where
  Name : StepName
  Mandatory : Bool
  Attempts : Int
  Priority : Int
  ExtraInfo : List ExtraInfo
  Fallback : FallbackStep
  deriving DecidableEq, Repr

/-- Struct `Instruction`; a nil `Steps` is the empty list. The field `Type` of
the source is `Type_` here. -/
structure Instruction where
  ID : UUID
  Type_ : InstructionType
  Priority : Int
  Target : InstructionTarget
  Steps : List InstructionStep
  deriving DecidableEq, Repr

/-- The zero value `Instruction{}`. -/
def Instruction.zero : Instruction :=
  { ID := UUID.Nil, Type_ := "", Priority := 0, Target := "", Steps := [] }

/-- Method `PrepareSteps`: one step per name, in the order of the names. -/
def Instruction.PrepareSteps (i : Instruction) (stepNames : List StepName) : Instruction :=
  { i with Steps := stepNames.map (fun name =>
      { Name := name, Mandatory := true, Attempts := 1, Priority := StepName.Priority name,
        ExtraInfo := [], Fallback := { Name := "" } }) }

/-- Method `SetTargetWithPriority`. -/
def Instruction.SetTargetWithPriority (i : Instruction) (target : InstructionTarget) :
    Instruction :=
  { i with Target := target, Priority := InstructionTarget.Priority target }

/-- Method `PrepareInstructionByType`. -/
def Instruction.PrepareInstructionByType (i : Instruction) (iType : InstructionType) :
    Instruction :=
  ({ i with Type_ := iType, Target := InstructionType.Target iType,
            Priority := InstructionTarget.Priority (InstructionType.Target iType) } :
    Instruction).PrepareSteps [StepNameIdNumber, StepNameSignature]

/-- The inner `switch country` of the rule table: the step names of the case
that matches, `none` for a case with an empty body; without a matching case,
and in a case with an empty body, the instruction is left as it is. -/
def Instruction.switchCountry (i : Instruction) (country : Country)
    (es fr it pt : Option (List StepName)) : Instruction :=
  let chosen :=
    if country = CountryES then es
    else if country = CountryFR then fr
    else if country = CountryIT then it
    else if country = CountryPT then pt
    else none
  match chosen with
  | some names => i.PrepareSteps names
  | none => i

/-- Method `PrepareInstructionBYTargetAndCountryFromSpreadsheet`: the
instruction after the call, the delivery type and the error it returns. -/
def Instruction.PrepareInstructionBYTargetAndCountryFromSpreadsheet (i0 : Instruction)
    (iType : InstructionType) (country : Country) :
    Instruction × DeliveryType × Option GoError :=
  let i : Instruction := { i0 with Type_ := iType }
  if iType = DeliveryCustomerInstructionType then
    ((i.SetTargetWithPriority TargetCustomer).switchCountry country
        (some [StepNameIdNumber, StepNameSignature]) (some [StepNameSignature, StepNameSignature])
        (some [StepNameSignature, StepNamePhoto]) (some [StepNameIdNumber, StepNameSignature]),
      DeliveryTypeDirect, none)
  else if iType = DeliveryCustomerFailedInstructionType then
    ((i.SetTargetWithPriority TargetCustomer).switchCountry country
        (some [StepNamePhoto]) (some [StepNamePhoto]) (some [StepNamePhoto])
        (some [StepNamePhoto]),
      DeliveryTypeDirect, none)
  else if iType = DeliveryHouseHoldInstructionType then
    ((i.SetTargetWithPriority TargetHousehold).switchCountry country
        (some [StepNameIdNumber, StepNameSignature]) (some [StepNameSignature, StepNamePhoto])
        (some [StepNameSignature, StepNamePhoto]) (some [StepNameIdNumber, StepNameSignature]),
      DeliveryTypeDirect, none)
  else if iType = Delivery3rdPartyInstructionType then
    ((i.SetTargetWithPriority TargetThirdParty).switchCountry country
        (some [StepNameIdNumber, StepNameSignature]) (some [StepNameSignature, StepNamePhoto])
        (some [StepNameSignature, StepNamePhoto]) (some [StepNameIdNumber, StepNameSignature]),
      DeliveryTypeDirect, none)
  else if iType = DeliveryWHFailedInstructionType then
    ((i.SetTargetWithPriority TargetWarehouse).switchCountry country
        (some [StepNamePhoto]) none none (some [StepNamePhoto]),
      DeliveryTypeReverse, none)
  else if iType = PickupWHInstructionType then
    ((i.SetTargetWithPriority TargetWarehouse).switchCountry country
        (some [StepNameScan]) (some [StepNameScan]) (some [StepNameScan]) (some [StepNameScan]),
      DeliveryTypeDirect, none)
  else if iType = PickupWHFailedInstructionType then
    ((i.SetTargetWithPriority TargetWarehouse).switchCountry country
        (some [StepNamePhoto]) (some [StepNamePhoto]) (some [StepNamePhoto])
        (some [StepNamePhoto]),
      DeliveryTypeDirect, none)
  else if iType = PickupCustomerInstructionType then
    ((i.SetTargetWithPriority TargetCustomer).switchCountry country
        (some [StepNameScan, StepNamePhoto]) none none none,
      DeliveryTypeReverse, none)
  else if iType = PickupCustomerFailedInstructionType then
    ((i.SetTargetWithPriority TargetCustomer).switchCountry country
        (some [StepNamePhoto]) (some [StepNamePhoto]) (some [StepNamePhoto])
        (some [StepNamePhoto]),
      DeliveryTypeReverse, none)
  else (i, "", some ErrUnsupportedInstructionType)

/-- Function `NewInstructionByTypeAndCountry`: the instruction behind the
pointer it returns, or its error (the pointer is nil then). -/
def NewInstructionByTypeAndCountry (countryStr instructionTypeStr : String) :
    Except GoError Instruction :=
  match Country.Validate countryStr with
  | some err => .error err
  | none =>
    match InstructionType.Validate instructionTypeStr with
    | some err => .error err
    | none =>
      let instruction : Instruction := { Instruction.zero with Type_ := instructionTypeStr }
      match instruction.PrepareInstructionBYTargetAndCountryFromSpreadsheet instructionTypeStr
          countryStr with
      | (_, _, some err) => .error err
      | (prepared, _, none) => .ok prepared

/-- Function `NewInstruction`. -/
def NewInstruction (instructionTypeStr : String) (stepNames : List StepName) :
    Except GoError Instruction :=
  match InstructionType.Validate instructionTypeStr with
  | some err => .error err
  | none =>
    .ok ((Instruction.zero.PrepareInstructionByType instructionTypeStr).PrepareSteps stepNames)

/-- Type `Instructions`. -/
abbrev Instructions := List Instruction

/-- Struct `Configuration`. -/
structure Configuration where
  RetailerID : UUID
  OperationalModel : Model
  ServiceType : String
  DeliveryType : DeliveryType
  Country : Country
  Instructions : Instructions
  deriving DecidableEq, Repr

/-- Struct `RetailerConfiguration`; a nil `Configurations` is the empty list. -/
structure RetailerConfiguration where
  RetailerID : UUID
  Configurations : List Configuration
  deriving DecidableEq, Repr

/-- Function `NewDefaultPickUPWarehouse`. -/
def NewDefaultPickUPWarehouse (retailerID : UUID) : Configuration :=
  let step : InstructionStep :=
    { Name := StepNameScan, Mandatory := true, Attempts := 1,
      Priority := StepName.Priority StepNameScan, ExtraInfo := [],
      Fallback := { Name := "manualConfirmation" } }
  let instr : Instruction :=
    { ID := UUID.Nil, Type_ := PickupWHInstructionType, Target := TargetWarehouse,
      Priority := InstructionTarget.Priority TargetWarehouse, Steps := [step] }
  { RetailerID := retailerID, OperationalModel := ModelWarehouse, ServiceType := "",
    DeliveryType := DeliveryTypeDirect, Country := "", Instructions := [instr] }

/-- Function `NewDefaultFailedPickUPWarehouse`. -/
def NewDefaultFailedPickUPWarehouse (retailerID : UUID) : Configuration :=
  let instr : Instruction :=
    ({ ID := UUID.Nil, Type_ := PickupWHFailedInstructionType, Target := TargetWarehouse,
       Priority := InstructionTarget.Priority TargetWarehouse, Steps := [] } :
      Instruction).PrepareSteps [StepNamePhoto]
  { RetailerID := retailerID, OperationalModel := ModelWarehouse, ServiceType := "",
    DeliveryType := DeliveryTypeReverse, Country := "", Instructions := [instr] }

/-- Function `NewDefaultFailedDeliveryWarehouse`. -/
def NewDefaultFailedDeliveryWarehouse (retailerID : UUID) : Configuration :=
  let instr : Instruction :=
    ({ ID := UUID.Nil, Type_ := DeliveryWHFailedInstructionType, Target := TargetWarehouse,
       Priority := InstructionTarget.Priority TargetWarehouse, Steps := [] } :
      Instruction).PrepareSteps [StepNamePhoto]
  { RetailerID := retailerID, OperationalModel := ModelWarehouse, ServiceType := "",
    DeliveryType := DeliveryTypeDirect, Country := "", Instructions := [instr] }

/-- Method `AddDefaultConfigurations`: the aggregate after the call. -/
def RetailerConfiguration.AddDefaultConfigurations (c : RetailerConfiguration) :
    RetailerConfiguration :=
  let config1 := NewDefaultPickUPWarehouse c.RetailerID
  let config2 := NewDefaultFailedPickUPWarehouse c.RetailerID
  let config3 := NewDefaultFailedDeliveryWarehouse c.RetailerID
  { c with Configurations := c.Configurations ++ [config1, config2, config3] }

end Domain

/-! ## Package `errorx` -/

namespace Errorx

/-- Type `ErrorCode`. -/
abbrev ErrorCode := String

def ErrCodeInternalError : ErrorCode := "LMO-ERR-0001"
def ErrCodeAuth0AuthMalformed : ErrorCode := "LMO-ERR-0002"
def ErrCodeRetailerNotExist : ErrorCode := "LMO-ERR-0011"
def ErrCodeRetailerConfigurationNotExist : ErrorCode := "LMO-ERR-0013"
def ErrCodeRetailerConfigurationAlreadyExist : ErrorCode := "LMO-ERR-0014"
def ErrCodeCountryNotExist : ErrorCode := "LMO-ERR-0053"
def ErrorCodeInputValidation : ErrorCode := "LMO-ERR-0105"

/-- Struct `Error`, by the two fields that decide how it is handled: the
wrapped error `orig` (nil is `none`) and the code. -/
structure Error where
  orig : Option GoError
  code : ErrorCode
  deriving DecidableEq, Repr

/-- Method `Code`. -/
def Error.Code (e : Error) : ErrorCode := e.code

/-- Function `WrapErrorf`, and `WrapErrorfWithDebug`, which differs in the
debug data only. -/
def WrapErrorf (orig : Option GoError) (code : ErrorCode) : Error :=
  { orig := orig, code := code }

/-- Function `NewErrorf`. -/
def NewErrorf (code : ErrorCode) : Error := WrapErrorf none code

end Errorx

/-- A non-nil `error` value as the adapter, the use case and the controller
see it, by dynamic type: a non-nil `*errorx.Error`, or any other error. -/
inductive AppError where
  | errorx (e : Errorx.Error)
  | other (e : GoError)
  deriving DecidableEq, Repr

/-! ## Package `configurationlmo` (the adapter) -/

namespace Configurationlmo

/-- Constant `HeaderAuthorizationForwarded`. -/
def HeaderAuthorizationForwarded : String := "X-Forwarded-Authorization"

/-- Variable `ErrValidationLMORequest`. -/
def ErrValidationLMORequest : GoError :=
  .other "request to LMO system returned invalid client status code"

/-- Variable `ErrConnectionLMOEndpoint`. -/
def ErrConnectionLMOEndpoint : GoError :=
  .other "connection to LMO system returned internal error server status code"

/-- Struct `Step` of the request; a nil `Fallback` is `none`. -/
structure Step where
  Name : String
  Mandatory : Bool
  Priority : Int
  Attempts : Int
  ExtraInfo : List (String × String)
  Fallback : Option String
  deriving DecidableEq, Repr

/-- Struct `Instruction` of the request, by the fields the adapter sets. -/
structure Instruction where
  Model : String
  Type_ : String
  Target : String
  Priority : Int
  Steps : List Step
  Country : String
  ServiceType : String
  deriving DecidableEq, Repr

/-- Struct `RetailerConfigurationCreateReq`. -/
structure RetailerConfigurationCreateReq where
  Instructions : List Instruction
  deriving DecidableEq, Repr

/-- Function `ConvertToLMOModel`. -/
def ConvertToLMOModel (model : Domain.Model) : String :=
  if model = Domain.ModelWarehouse then "warehouse_model"
  else if model = Domain.ModelStore then "store_model"
  else ""

/-- Method `SetType`: the request type for a domain instruction type; an
unknown type leaves the field as it is. -/
def Instruction.SetType (ins : Instruction) (remsDomainType : Domain.InstructionType) :
    Instruction :=
  if remsDomainType = Domain.DeliveryCustomerInstructionType ∨
      remsDomainType = Domain.DeliveryHouseHoldInstructionType ∨
      remsDomainType = Domain.Delivery3rdPartyInstructionType then
    { ins with Type_ := "delivery" }
  else if remsDomainType = Domain.DeliveryCustomerFailedInstructionType ∨
      remsDomainType = Domain.DeliveryWHFailedInstructionType then
    { ins with Type_ := "failDelivery" }
  else if remsDomainType = Domain.PickupWHInstructionType ∨
      remsDomainType = Domain.PickupCustomerInstructionType then
    { ins with Type_ := "pickup" }
  else if remsDomainType = Domain.PickupWHFailedInstructionType ∨
      remsDomainType = Domain.PickupCustomerFailedInstructionType then
    { ins with Type_ := "failPickup" }
  else ins

/-- Method `SetLMOName`: the name of the step in the request, or the error. -/
def SetLMOName (step : Domain.StepName) : Except GoError String :=
  if step = Domain.StepNameScan then .ok "scan"
  else if step = Domain.StepNameCollectBarcode then .ok "collectBarcodes"
  else if step = Domain.StepNamePhoto then .ok "photo"
  else if step = Domain.StepNameIdNumber then .ok "identityDocumentNumber"
  else if step = Domain.StepNameSignature then .ok "signature"
  else if step = Domain.StepNamePassCode then .ok "retailerPasscode"
  else if step = Domain.StepNameOTP then .ok "otp"
  else if step = Domain.StepNameManualConfirmation then .ok "manualConfirmation"
  else if step = Domain.StepNameConfigurableText then .ok step
  else .error Domain.ErrUnsupportedStepName

/-- The body of the loop of `AddSteps` for one domain step. -/
def convertStep (d : Domain.InstructionStep) : Except GoError Step :=
  match SetLMOName d.Name with
  | .error err => .error err
  | .ok name =>
    .ok { Name := name, Mandatory := d.Mandatory, Priority := d.Priority,
          Attempts := d.Attempts,
          ExtraInfo := d.ExtraInfo.map (fun x => (x.Key, x.Value)),
          Fallback := if d.Fallback.Name ≠ "" then some d.Fallback.Name else none }

/-- Method `AddSteps`: the first step with an unsupported name ends it with
an error. -/
def Instruction.AddSteps (ins : Instruction) (domainSteps : List Domain.InstructionStep) :
    Except GoError Instruction :=
  match domainSteps.mapM convertStep with
  | .error err => .error err
  | .ok steps => .ok (if steps.length > 0 then { ins with Steps := steps } else ins)

/-- The body of the loop of `AddInstructionFromConfiguration` for one
instruction of the configuration. -/
def convertInstruction (config : Domain.Configuration) (i : Domain.Instruction) :
    Except GoError Instruction :=
  let instrReq : Instruction :=
    { Model := ConvertToLMOModel config.OperationalModel, Type_ := "", Target := i.Target,
      Priority := i.Priority, Steps := [], Country := config.Country,
      ServiceType := config.ServiceType }
  (instrReq.SetType i.Type_).AddSteps i.Steps

/-- Method `AddInstructionFromConfiguration`. -/
def RetailerConfigurationCreateReq.AddInstructionFromConfiguration
    (req : RetailerConfigurationCreateReq) (config : Domain.Configuration) :
    Except GoError RetailerConfigurationCreateReq :=
  match config.Instructions.mapM (convertInstruction config) with
  | .error err => .error err
  | .ok configurationInstructions =>
    .ok { Instructions := req.Instructions ++ configurationInstructions }

/-- Function `NewRetailerConfigurationCreateReq`. -/
def NewRetailerConfigurationCreateReq (config : Domain.RetailerConfiguration) :
    Except GoError RetailerConfigurationCreateReq :=
  config.Configurations.foldlM (fun req instr => req.AddInstructionFromConfiguration instr)
    { Instructions := [] }

/-- The `gohttp.RequestAttributes` that the adapter builds; its `Body` is the
request struct itself (nil is `none`). -/
structure Request where
  Method : String
  URL : String
  Headers : Header
  Body : Option RetailerConfigurationCreateReq
  Retry : Bool
  deriving DecidableEq, Repr

/-- Struct `configurationManagerLMOAdapter`; the field `httpClient` is given
by what its `DoReq` returns for a request: `(resp, err)`. -/
structure configurationManagerLMOAdapter where
  httpClient : Request → Option ResponseAttributes × Option GoError
  baseURL : String

/-- Method `PrepareEndpoint`. -/
def configurationManagerLMOAdapter.PrepareEndpoint (u : configurationManagerLMOAdapter)
    (method : String) (retailerID : Domain.UUID) : String :=
  if method = "GET" ∨ method = "POST" then
    u.baseURL ++ "/retailers/" ++ retailerID ++ "/configurations"
  else if method = "DELETE" then u.baseURL ++ "/retailers/" ++ retailerID
  else ""

/-- What a call of an adapter method does and how it ends: the requests it
hands to `DoReq`, and the error it returns (nil is `none`) or its panic. -/
structure Call where
  requests : List Request
  outcome : Except Panic (Option AppError)
  deriving DecidableEq, Repr

/-- Method `Create`. A `DoReq` that returns neither a response nor an error
makes `resp.StatusCode()` dereference nil. -/
def configurationManagerLMOAdapter.Create (u : configurationManagerLMOAdapter)
    (config : Domain.RetailerConfiguration) (auth0token : String) : Call :=
  match NewRetailerConfigurationCreateReq config with
  | .error err =>
    { requests := [],
      outcome := .ok (some (.other (.other ("unable to prepare request to API: " ++ err.Error)))) }
  | .ok reqStruct =>
    let extraHeader := Header.Add [] HeaderAuthorizationForwarded auth0token
    let req : Request :=
      { Method := "GET", URL := u.PrepareEndpoint "POST" config.RetailerID,
        Headers := extraHeader, Body := some reqStruct, Retry := false }
    match u.httpClient req with
    | (_, some err) =>
      { requests := [req],
        outcome := .ok (some (.other (.other
          ("unable to connect to API: " ++ u.baseURL ++ " - " ++ err.Error)))) }
    | (none, none) => { requests := [req], outcome := .error .nilDereference }
    | (some resp, none) =>
      { requests := [req],
        outcome := .ok (
          if resp.statusCode = 201 then none
          else if resp.statusCode = 401 ∨ resp.statusCode = 403 then
            some (.errorx (Errorx.NewErrorf Errorx.ErrCodeAuth0AuthMalformed))
          else if resp.statusCode = 409 then
            some (.errorx (Errorx.NewErrorf Errorx.ErrCodeRetailerConfigurationAlreadyExist))
          else if resp.statusCode = 400 ∨ resp.statusCode = 404 then
            some (.errorx (Errorx.WrapErrorf (some ErrValidationLMORequest)
              Errorx.ErrorCodeInputValidation))
          else
            some (.errorx (Errorx.WrapErrorf (some ErrConnectionLMOEndpoint)
              Errorx.ErrCodeInternalError))) }

/-- Method `DeleteConfigurationsByRetailerID`. -/
def configurationManagerLMOAdapter.DeleteConfigurationsByRetailerID
    (u : configurationManagerLMOAdapter) (retailerID : Domain.UUID) (auth0token : String) :
    Call :=
  let extraHeader := Header.Add [] HeaderAuthorizationForwarded auth0token
  let req : Request :=
    { Method := "DELETE", URL := u.PrepareEndpoint "DELETE" retailerID,
      Headers := extraHeader, Body := none, Retry := false }
  match u.httpClient req with
  | (_, some err) =>
    { requests := [req],
      outcome := .ok (some (.other (.other
        ("unable to connect to API - " ++ u.baseURL ++ ": " ++ err.Error)))) }
  | (none, none) => { requests := [req], outcome := .error .nilDereference }
  | (some resp, none) =>
    { requests := [req],
      outcome := .ok (
        if resp.statusCode = 204 then none
        else if resp.statusCode = 401 ∨ resp.statusCode = 403 then
          some (.errorx (Errorx.NewErrorf Errorx.ErrCodeAuth0AuthMalformed))
        else if resp.statusCode = 400 ∨ resp.statusCode = 404 ∨ resp.statusCode = 409 then
          some (.errorx (Errorx.WrapErrorf (some ErrValidationLMORequest)
            Errorx.ErrorCodeInputValidation))
        else
          some (.errorx (Errorx.WrapErrorf (some ErrConnectionLMOEndpoint)
            Errorx.ErrCodeInternalError))) }

end Configurationlmo

/-! ## Package `usecase` -/

namespace Usecase

/-- Interface `domain.RetailerInstructionsManager`, by what its two methods
return: an error (nil is `none`) or a panic. -/
structure RetailerInstructionsManager where
  Create : Domain.RetailerConfiguration → String → Except Panic (Option AppError)
  DeleteConfigurationsByRetailerID : Domain.UUID → String → Except Panic (Option AppError)

/-- A call of a method of the adapter, with its arguments. -/
inductive AdapterCall where
  | DeleteConfigurationsByRetailerID (retailerID : Domain.UUID) (auth0token : String)
  | Create (config : Domain.RetailerConfiguration) (auth0token : String)
  deriving DecidableEq, Repr

/-- One call of `ApplyNewRetailerInstruction`: the aggregate behind `config`
after the call, the calls of the adapter in order, and the error returned
(nil is `none`) or the panic. -/
structure ApplyRun where
  config : Domain.RetailerConfiguration
  calls : List AdapterCall
  outcome : Except Panic (Option AppError)
  deriving DecidableEq, Repr

/-- Method `ApplyNewRetailerInstruction` for a non-nil `config`. -/
def ApplyNewRetailerInstruction (adapter : RetailerInstructionsManager)
    (config : Domain.RetailerConfiguration) (auth0token : String) : ApplyRun :=
  let config1 := config.AddDefaultConfigurations
  let del := AdapterCall.DeleteConfigurationsByRetailerID config1.RetailerID auth0token
  match adapter.DeleteConfigurationsByRetailerID config1.RetailerID auth0token with
  | .error p => { config := config1, calls := [del], outcome := .error p }
  | .ok (some err) => { config := config1, calls := [del], outcome := .ok (some err) }
  | .ok none =>
    let cr := AdapterCall.Create config1 auth0token
    match adapter.Create config1 auth0token with
    | .error p => { config := config1, calls := [del, cr], outcome := .error p }
    | .ok (some err) => { config := config1, calls := [del, cr], outcome := .ok (some err) }
    | .ok none => { config := config1, calls := [del, cr], outcome := .ok none }

end Usecase

/-! ## Package `controller` -/

namespace Controller

/-- The `huma.StatusError` that `huma.ErrorNNN...` builds, by its HTTP
status. -/
structure StatusError where
  Status : Int
  deriving DecidableEq, Repr

/-- Function `renderErrResponse` for a non-nil error. -/
def renderErrResponse (err : AppError) : StatusError :=
  match err with
  | .errorx errT =>
    if errT.Code = Errorx.ErrCodeRetailerNotExist then { Status := 404 }
    else if errT.Code = Errorx.ErrCodeAuth0AuthMalformed then { Status := 401 }
    else if errT.Code = Errorx.ErrorCodeInputValidation then { Status := 400 }
    else if errT.Code = Errorx.ErrCodeRetailerConfigurationAlreadyExist then { Status := 409 }
    else { Status := 500 }
  | .other _ => { Status := 500 }

end Controller
/-- An adapter for the base URL `https://lmo.example` whose HTTP client
answers every request with the status `code` and an empty body. -/
def answeringAdapter (code : Int) : Configurationlmo.configurationManagerLMOAdapter :=
  { httpClient := fun _ =>
      (some { status := "", statusCode := code, headers := [], body := [] }, none)
    baseURL := "https://lmo.example" }

/-- A list of events without its `log` events: what `DoReq` did apart from
logging. -/
def withoutLogs : List Event → List Event
  | [] => []
  | .log _ _ :: es => withoutLogs es
  | e :: es => e :: withoutLogs es

/-- A logger with the identity 7, and a client that retries up to three
times and logs to it. -/
def sampleLogger : Logger := { id := 7 }

def loggingClient : httpClient :=
  ((NewClientBuilder.SetRetryMax 3).SetLogger (some sampleLogger)).Build

/-- Method `SetHTTPClient`. -/
def clientBuilder.SetHTTPClient (b : clientBuilder) (client : Option StdClient) : clientBuilder :=
  { b with client := client }

/-- Method `SetConnectionTimeOut`. -/
def clientBuilder.SetConnectionTimeOut (b : clientBuilder) (timeout : Duration) : clientBuilder :=
  { b with connectionTimeout := timeout }

/-- Method `SetResponseHeaderTimeout`. -/
def clientBuilder.SetResponseHeaderTimeout (b : clientBuilder) (timeout : Duration) :
    clientBuilder :=
  { b with responseHeaderTimeOut := timeout }

/-- Method `DisableTimeouts`. -/
def clientBuilder.DisableTimeouts (b : clientBuilder) (disable : Bool) : clientBuilder :=
  { b with disableTimeouts := disable }

/-- The standard client of the third case of `Test_clientBuilder_Build`:
every timeout is 10s. -/
def myHTTPClient : StdClient :=
  { Timeout := 10 * Second, DialTimeout := 10 * Second, ResponseHeaderTimeout := 10 * Second }

/-! ## Concurrent callers of `Client()`

Many goroutines call `Client()` on one `httpClient`. Each call is
`c.clientOnce.Do(f)` followed by `return c.client`, and `sync.Once` is

    func (o *Once) Do(f func()) {
        if o.done.Load() == 0 { o.doSlow(f) }
    }
    func (o *Once) doSlow(f func()) {
        o.m.Lock()
        defer o.m.Unlock()
        if o.done.Load() == 0 {
            defer o.done.Store(1)
            f()
        }
    }

The model interleaves the atomic steps of the callers: a schedule names the
goroutine that takes the next step. -/

/-- The identity of a `*http.Client`: the one given to the builder, or the one
made by the construction number `serial` of this `httpClient`. -/
inductive Handle where
  | given
  | made (serial : Nat)
  deriving DecidableEq, Repr

/-- Where a goroutine stands in its call of `Client()`: before the first load
of `done`; before `o.m.Lock()`; holding the mutex before the second load of
`done`; before `f()`; inside `f` with the client to assign to `c.client`;
before the deferred `o.done.Store(1)`; before the deferred `o.m.Unlock()`;
before the read of `c.client`; returned with the value read (nil is
`none`). -/
inductive Pc where
  | start
  | lock
  | check
  | body
  | assign (h : Handle)
  | store
  | unlock
  | read
  | returned (h : Option Handle)
  deriving DecidableEq, Repr

/-- The memory the goroutines share (`done` and the holder of the mutex of
`clientOnce`, and the field `client`), the number of `http.Client` values
constructed and of runs of `f` so far, and the place of every goroutine. -/
structure Shared where
  done : Bool
  owner : Option Nat
  client : Option Handle
  built : Nat
  bodyRuns : Nat
  pc : Nat → Pc

/-- Before the first call: the zero value of `sync.Once`, a nil `client`. -/
def Shared.init : Shared :=
  { done := false, owner := none, client := none, built := 0, bodyRuns := 0,
    pc := fun _ => .start }

/-- The state with goroutine `t` moved to `p`. -/
def Shared.goto (s : Shared) (t : Nat) (p : Pc) : Shared :=
  { s with pc := fun u => if u = t then p else s.pc u }

/-- One atomic step of goroutine `t`; `givenClient` says whether `c.b.client`
is non-nil. A goroutine waiting for a mutex that is held, and one that has
returned, do not move. -/
def Shared.step (givenClient : Bool) (s : Shared) (t : Nat) : Shared :=
  match s.pc t with
  | .start => if s.done then s.goto t .read else s.goto t .lock
  | .lock =>
    match s.owner with
    | none => { s with owner := some t }.goto t .check
    | some _ => s
  | .check => if s.done then s.goto t .unlock else s.goto t .body
  | .body =>
    if givenClient then { s with bodyRuns := s.bodyRuns + 1 }.goto t (.assign .given)
    else
      { s with bodyRuns := s.bodyRuns + 1, built := s.built + 1 }.goto t
        (.assign (.made s.built))
  | .assign h => { s with client := some h }.goto t .store
  | .store => { s with done := true }.goto t .unlock
  | .unlock => { s with owner := none }.goto t .read
  | .read => s.goto t (.returned s.client)
  | .returned _ => s

/-- The state after the steps of a schedule. -/
def Shared.run (givenClient : Bool) (s : Shared) (schedule : List Nat) : Shared :=
  schedule.foldl (Shared.step givenClient) s

/-- The one client every caller is to get. -/
def expectedHandle (givenClient : Bool) : Handle :=
  if givenClient then .given else .made 0

/-- The number of steps a goroutine at `p` has before it at most. -/
def Pc.remaining : Pc → Nat
  | .start => 8
  | .lock => 7
  | .check => 6
  | .body => 5
  | .assign _ => 4
  | .store => 3
  | .unlock => 2
  | .read => 1
  | .returned _ => 0

/-- A goroutine holds the mutex from its `Lock` to its `Unlock`. -/
def Pc.inCriticalSection : Pc → Bool
  | .check | .body | .assign _ | .store | .unlock => true
  | _ => false

/-- What holds in every state that concurrent callers can reach. -/
structure Shared.Inv (givenClient : Bool) (s : Shared) : Prop where
  mutex : ∀ t, (s.pc t).inCriticalSection = true ↔ s.owner = some t
  fresh : s.done = false → (∀ t, (∀ h, s.pc t ≠ .assign h) ∧ s.pc t ≠ .store) →
    s.bodyRuns = 0 ∧ s.built = 0 ∧ s.client = none
  atAssign : ∀ t h, s.pc t = .assign h →
    s.done = false ∧ h = expectedHandle givenClient ∧ s.bodyRuns = 1 ∧
      s.built = (if givenClient then 0 else 1) ∧ s.client = none
  atStore : ∀ t, s.pc t = .store →
    s.done = false ∧ s.bodyRuns = 1 ∧ s.built = (if givenClient then 0 else 1) ∧
      s.client = some (expectedHandle givenClient)
  afterDone : s.done = true →
    s.bodyRuns = 1 ∧ s.built = (if givenClient then 0 else 1) ∧
      s.client = some (expectedHandle givenClient)
  atBody : ∀ t, s.pc t = .body → s.done = false
  late : ∀ t, (s.pc t = .unlock ∨ s.pc t = .read ∨ ∃ x, s.pc t = .returned x) → s.done = true
  atReturned : ∀ t x, s.pc t = .returned x → x = some (expectedHandle givenClient)

/-- Function `LinearJitterBackoff(min, max, attemptNum, resp)`. The random
number comes from `randVal.Float64()`, which is `float64(u) / (1 << 63)` for
the first value `u` of `Int63()` for which this is not 1; `draw` is that `u`.
The product with `float64(max-min)` is rounded to a 53-bit significand, and
the conversion to `int64` drops its fraction. -/
def LinearJitterBackoff (min max : Duration) (attemptNum : Int) (_resp : Option Response)
    (draw : Nat) : Duration :=
  let attemptNum1 := wrapInt64 (attemptNum + 1)
  if max ≤ min then wrapInt64 (min * attemptNum1)
  else
    let span := float64OfInt (wrapInt64 (max - min))
    let magnitude : Nat := roundNat53 (roundNat53 draw * span.natAbs) / 2 ^ 63
    let jitter : Int := if span < 0 then -(magnitude : Int) else (magnitude : Int)
    let jitterMin := wrapInt64 (jitter + min)
    wrapInt64 (jitterMin * attemptNum1)

/-- Method `SetUserAgent`: the builder after the call, or the panic of the
assignment `b.headers.Set(...)` to an entry of a nil map. `Get` on a nil map
returns the empty string. -/
def clientBuilder.SetUserAgent (b : clientBuilder) (userAgent : String) :
    Except Panic clientBuilder :=
  if Header.Get (b.headers.getD []) HeaderUserAgent ≠ "" then .ok b
  else
    match b.headers with
    | none => .error .nilMapAssignment
    | some h => .ok { b with headers := some (Header.Set h HeaderUserAgent userAgent) }

/-- A response with status 429 whose header map holds the key `Retry-After`
with an empty list of values. -/
def emptyRetryAfter : Response :=
  { Status := "429 Too Many Requests", StatusCode := 429, Header := [("Retry-After", [])],
    Body := [], BodyErr := none }

namespace Domain

/-- Method `AddInstructionTypes`: the list behind `i` after the call, and the
error returned. For each type the inner loop `for _, inst := range *i` runs
first; its body is `if inst.Type == iType { continue }`, and that `continue`
goes on with the next instruction of the inner loop, so the inner loop has no
effect and the statements after it run for every type. -/
def Instructions.AddInstructionTypes :
    Instructions → Country → List InstructionType → Instructions × Option GoError
  | i, _, [] => (i, none)
  | i, country, iType :: rest =>
    match NewInstructionByTypeAndCountry country iType with
    | .error err => (i, some err)
    | .ok instruction => Instructions.AddInstructionTypes (i ++ [instruction]) country rest

end Domain

/-! ## Theorems: the default retry policy -/

/-- The verdict of `baseRetryPolicy` on a response without transport error. -/
theorem baseRetryPolicy_response (r : Response) :
    baseRetryPolicy (some r) none =
      if r.StatusCode = 429 then .ok (true, none)
      else if r.StatusCode = 0 ∨ (r.StatusCode ≥ 500 ∧ r.StatusCode ≠ 501) then
        .ok (true, some (.other ("unexpected HTTP status " ++ r.Status)))
      else .ok (false, none) := rfl

/-- C7, counterexample: on a live context and without transport error the
default policy asks for a retry on status 0 and on status 600, which are
neither 429 nor in 500..599. -/
theorem C7_counterexample_status_outside_5xx :
    DefaultRetryPolicy none (some ⟨"", 0, [], [], none⟩) none = .ok (true, none) ∧
    DefaultRetryPolicy none (some ⟨"600", 600, [], [], none⟩) none = .ok (true, none) ∧
    ¬ ((0 : Int) = 429 ∨ (500 ≤ (0 : Int) ∧ (0 : Int) ≤ 599 ∧ (0 : Int) ≠ 501)) ∧
    ¬ ((600 : Int) = 429 ∨ (500 ≤ (600 : Int) ∧ (600 : Int) ≤ 599 ∧ (600 : Int) ≠ 501)) := by
  decide

/-- The verdict of `DefaultRetryPolicy` on a response, for a live context and
no transport error. -/
theorem DefaultRetryPolicy_response (r : Response) :
    DefaultRetryPolicy none (some r) none =
      .ok (decide (r.StatusCode = 429 ∨ r.StatusCode = 0 ∨
            (r.StatusCode ≥ 500 ∧ r.StatusCode ≠ 501)), none) := by
  unfold DefaultRetryPolicy
  rw [baseRetryPolicy_response]
  by_cases h429 : r.StatusCode = 429
  · simp [h429]
  · by_cases hrest : r.StatusCode = 0 ∨ (r.StatusCode ≥ 500 ∧ r.StatusCode ≠ 501)
    · simp [h429, hrest]
    · have hdec : ¬ (r.StatusCode = 429 ∨ r.StatusCode = 0 ∨
          (r.StatusCode ≥ 500 ∧ r.StatusCode ≠ 501)) := by tauto
      rw [if_neg h429, if_neg hrest]
      simp only [hdec, decide_False]

/-- C7, amended: on a live context and without transport error,
`DefaultRetryPolicy` returns shouldRetry = true exactly when the status is
429, is 0, or is at least 500 and not 501 (no upper bound at 599), and it
returns a nil error for every status; 501 and 404 give false, 503 gives true. -/
theorem C7_DefaultRetryPolicy_status_classification (r : Response) :
    DefaultRetryPolicy none (some r) none =
        .ok (decide (r.StatusCode = 429 ∨ r.StatusCode = 0 ∨
              (r.StatusCode ≥ 500 ∧ r.StatusCode ≠ 501)), none) ∧
    (r.StatusCode = 501 → DefaultRetryPolicy none (some r) none = .ok (false, none)) ∧
    (r.StatusCode = 503 → DefaultRetryPolicy none (some r) none = .ok (true, none)) ∧
    (r.StatusCode = 404 → DefaultRetryPolicy none (some r) none = .ok (false, none)) := by
  refine ⟨DefaultRetryPolicy_response r, ?_, ?_, ?_⟩
  · intro h; rw [DefaultRetryPolicy_response, h]; decide
  · intro h; rw [DefaultRetryPolicy_response, h]; decide
  · intro h; rw [DefaultRetryPolicy_response, h]; decide

/-- C10: on a context that is already cancelled or expired,
`DefaultRetryPolicy` returns shouldRetry = false and the context's error,
for every response (a nil one included) and every transport error. -/
theorem C10_DefaultRetryPolicy_cancelled_context (e : CtxError) (resp : Option Response)
    (err : Option GoError) :
    DefaultRetryPolicy (some e) resp err = .ok (false, some (.context e)) := rfl

/-- The verdict of `baseRetryPolicy` on a `*url.Error`, whatever the response. -/
theorem baseRetryPolicy_urlError (resp : Option Response) (text : String) (ua : Bool) :
    baseRetryPolicy resp (some (.urlError text ua)) =
      if redirectsErrorRe text || schemeErrorRe text || notTrustedErrorRe text || ua
      then .ok (false, some (.urlError text ua)) else .ok (true, none) := by
  simp only [baseRetryPolicy]
  cases redirectsErrorRe text <;> cases schemeErrorRe text <;>
    cases notTrustedErrorRe text <;> cases ua <;> rfl

/-- C8, counterexample: for a live context and a `*url.Error` whose message
ends in "stopped after 10 redirects", the default policy returns
shouldRetry = false with a nil error, not with that error. -/
theorem C8_counterexample_redirect_error_dropped :
    redirectsErrorRe "Get \"http://a\": stopped after 10 redirects" = true ∧
    DefaultRetryPolicy none none
        (some (.urlError "Get \"http://a\": stopped after 10 redirects" false)) =
      .ok (false, none) := by
  decide

/-- C8, amended: for a live context and a `*url.Error` whose message matches
the redirect-limit, unsupported-scheme or untrusted-certificate signature,
`DefaultRetryPolicy` returns shouldRetry = false and a nil error; the error
itself is the error result of `baseRetryPolicy` only, which the default policy
discards. -/
theorem C8_DefaultRetryPolicy_permanent_url_error (resp : Option Response) (text : String)
    (ua : Bool)
    (h : redirectsErrorRe text = true ∨ schemeErrorRe text = true ∨
      notTrustedErrorRe text = true) :
    DefaultRetryPolicy none resp (some (.urlError text ua)) = .ok (false, none) ∧
    baseRetryPolicy resp (some (.urlError text ua)) = .ok (false, some (.urlError text ua)) := by
  have hcond : (redirectsErrorRe text || schemeErrorRe text || notTrustedErrorRe text || ua)
      = true := by
    rcases h with h | h | h <;> simp [h]
  have hb := baseRetryPolicy_urlError resp text ua
  rw [if_pos hcond] at hb
  refine ⟨?_, hb⟩
  unfold DefaultRetryPolicy
  rw [hb]

/-- C8, witness: the redirect error that the test suite uses. -/
theorem C8_DefaultRetryPolicy_permanent_url_error_witness :
    (redirectsErrorRe " \"\": stopped after 097171162745 redirects" = true ∨
      schemeErrorRe " \"\": stopped after 097171162745 redirects" = true ∨
      notTrustedErrorRe " \"\": stopped after 097171162745 redirects" = true) ∧
    (DefaultRetryPolicy none (some ⟨"", 0, [], [], none⟩)
        (some (.urlError " \"\": stopped after 097171162745 redirects" false)) =
        .ok (false, none) ∧
      baseRetryPolicy (some ⟨"", 0, [], [], none⟩)
        (some (.urlError " \"\": stopped after 097171162745 redirects" false)) =
        .ok (false, some (.urlError " \"\": stopped after 097171162745 redirects" false))) :=
  ⟨by decide,
    C8_DefaultRetryPolicy_permanent_url_error (some ⟨"", 0, [], [], none⟩)
      " \"\": stopped after 097171162745 redirects" false (by decide)⟩

/-- C9, counterexample: the text alone does not decide. An error that is not
a `*url.Error` is retried although its message matches the unsupported-scheme
signature, and a `*url.Error` wrapping an `x509.UnknownAuthorityError` is not
retried although its message matches none of the three signatures. -/
theorem C9_counterexample_type_decides :
    (schemeErrorRe "unsupported protocol scheme" = true ∧
      DefaultRetryPolicy none none (some (.other "unsupported protocol scheme")) =
        .ok (true, none)) ∧
    (redirectsErrorRe "x509: certificate signed by unknown authority" = false ∧
      schemeErrorRe "x509: certificate signed by unknown authority" = false ∧
      notTrustedErrorRe "x509: certificate signed by unknown authority" = false ∧
      DefaultRetryPolicy none none
          (some (.urlError "x509: certificate signed by unknown authority" true)) =
        .ok (false, none)) := by
  decide

/-- C9, amended: for a live context and a non-nil transport error, whatever
the response, `DefaultRetryPolicy` returns a nil error and decides by the
type of the error first: a `*url.Error` is not retried when its message
matches one of the three signatures or when it wraps an
`x509.UnknownAuthorityError`, and is retried otherwise; an error of any other
type is retried whatever its message. -/
theorem C9_DefaultRetryPolicy_transport_error (resp : Option Response) (err : GoError) :
    DefaultRetryPolicy none resp (some err) =
      .ok (match err with
          | .urlError text ua =>
            !(redirectsErrorRe text || schemeErrorRe text || notTrustedErrorRe text || ua)
          | _ => true, none) := by
  cases err with
  | urlError text ua =>
    simp only [DefaultRetryPolicy, baseRetryPolicy_urlError]
    cases redirectsErrorRe text <;> cases schemeErrorRe text <;>
      cases notTrustedErrorRe text <;> cases ua <;> rfl
  | context e => rfl
  | other text => rfl

/-! ## Lemmas: events -/

@[simp] theorem sendCount_append (xs ys : List Event) :
    sendCount (xs ++ ys) = sendCount xs + sendCount ys := by
  induction xs with
  | nil => simp [sendCount]
  | cons x xs ih =>
    cases x <;> simp [sendCount, ih]
    omega

@[simp] theorem waitsOf_append (xs ys : List Event) :
    waitsOf (xs ++ ys) = waitsOf xs ++ waitsOf ys := by
  induction xs with
  | nil => simp [waitsOf]
  | cons x xs ih => cases x <;> simp [waitsOf, ih]

@[simp] theorem sendsAndWaits_append (xs ys : List Event) :
    sendsAndWaits (xs ++ ys) = sendsAndWaits xs ++ sendsAndWaits ys := by
  induction xs with
  | nil => simp [sendsAndWaits]
  | cons x xs ih => cases x <;> simp [sendsAndWaits, ih]

@[simp] theorem sendCount_logTo (l : Option Logger) (e : LogEntry) :
    sendCount (logTo l e) = 0 := by
  cases l <;> rfl

@[simp] theorem waitsOf_logTo (l : Option Logger) (e : LogEntry) : waitsOf (logTo l e) = [] := by
  cases l <;> rfl

@[simp] theorem sendsAndWaits_logTo (l : Option Logger) (e : LogEntry) :
    sendsAndWaits (logTo l e) = [] := by
  cases l <;> rfl

@[simp] theorem sendCount_failLog (c : httpClient) (m u : String) (doErr : Option GoError) :
    sendCount (failLog c m u doErr) = 0 := by
  unfold failLog; split <;> simp [sendCount]

@[simp] theorem waitsOf_failLog (c : httpClient) (m u : String) (doErr : Option GoError) :
    waitsOf (failLog c m u doErr) = [] := by
  unfold failLog; split <;> simp [waitsOf]

@[simp] theorem sendsAndWaits_failLog (c : httpClient) (m u : String) (doErr : Option GoError) :
    sendsAndWaits (failLog c m u doErr) = [] := by
  unfold failLog; split <;> simp [sendsAndWaits]

@[simp] theorem sendCount_retryLog (c : httpClient) (m u : String) (resp : Option Response)
    (d : Duration) (r : Int) : sendCount (retryLog c m u resp d r) = 0 := by
  simp [retryLog]

@[simp] theorem waitsOf_retryLog (c : httpClient) (m u : String) (resp : Option Response)
    (d : Duration) (r : Int) : waitsOf (retryLog c m u resp d r) = [] := by
  simp [retryLog]

@[simp] theorem sendsAndWaits_retryLog (c : httpClient) (m u : String) (resp : Option Response)
    (d : Duration) (r : Int) : sendsAndWaits (retryLog c m u resp d r) = [] := by
  simp [retryLog]

/-- An event that is a send or a wait survives the projection `sendsAndWaits`. -/
theorem mem_sendsAndWaits_send (k : Nat) (es : List Event) :
    Event.send k ∈ es ↔ Event.send k ∈ sendsAndWaits es := by
  induction es with
  | nil => simp [sendsAndWaits]
  | cons x xs ih => cases x <;> simp [sendsAndWaits, ih]

theorem mem_sendsAndWaits_wait (n : Int) (d : Duration) (es : List Event) :
    Event.wait n d ∈ es ↔ Event.wait n d ∈ sendsAndWaits es := by
  induction es with
  | nil => simp [sendsAndWaits]
  | cons x xs ih => cases x <;> simp [sendsAndWaits, ih]

/-! ## Lemmas: one iteration of the attempt loop -/

section body
variable (c : httpClient) (w : World) (m u : String) (i : Nat)

theorem attemptBody_ctx {e : CtxError} (h : w.ctxErrAfterDo i = some e) :
    attemptBody c w m u i = ([.send i, .closeIdleConnections], .returned (sendError e)) := by
  simp [attemptBody, h]

theorem attemptBody_policyPanic {p : Panic} (h0 : w.ctxErrAfterDo i = none)
    (hp : c.b.CheckRetry (w.ctxErrAtCheck i) (w.roundTrip i).1 (w.roundTrip i).2 = .error p) :
    attemptBody c w m u i = ([.send i], .panicked p) := by
  simp [attemptBody, h0, hp]

theorem attemptBody_noRetry {ce : Option GoError} (h0 : w.ctxErrAfterDo i = none)
    (hp : c.b.CheckRetry (w.ctxErrAtCheck i) (w.roundTrip i).1 (w.roundTrip i).2 =
      .ok (false, ce)) :
    attemptBody c w m u i =
      (.send i :: failLog c m u (w.roundTrip i).2,
        .stop { resp := (w.roundTrip i).1, doErr := (w.roundTrip i).2, checkErr := ce,
                shouldRetry := false }) := by
  simp [attemptBody, h0, hp]

theorem attemptBody_exhausted {ce : Option GoError} (h0 : w.ctxErrAfterDo i = none)
    (hp : c.b.CheckRetry (w.ctxErrAtCheck i) (w.roundTrip i).1 (w.roundTrip i).2 =
      .ok (true, ce))
    (hr : wrapInt64 (c.RetryMax - (i : Int) - 1) ≤ 0) :
    attemptBody c w m u i =
      (.send i :: failLog c m u (w.roundTrip i).2,
        .stop { resp := (w.roundTrip i).1, doErr := (w.roundTrip i).2, checkErr := ce,
                shouldRetry := true }) := by
  simp [attemptBody, h0, hp, hr]

theorem attemptBody_backoffPanic {ce : Option GoError} {p : Panic}
    (h0 : w.ctxErrAfterDo i = none)
    (hp : c.b.CheckRetry (w.ctxErrAtCheck i) (w.roundTrip i).1 (w.roundTrip i).2 =
      .ok (true, ce))
    (hr : 0 < wrapInt64 (c.RetryMax - (i : Int) - 1))
    (hb : c.b.Backoff c.b.RetryWaitMin c.b.RetryWaitMax (i : Int) (w.roundTrip i).1 = .error p) :
    attemptBody c w m u i = (.send i :: failLog c m u (w.roundTrip i).2, .panicked p) := by
  simp [attemptBody, h0, hp, not_le.mpr hr, hb]

theorem attemptBody_cancelledWait {ce : Option GoError} {d : Duration} {e : CtxError}
    (h0 : w.ctxErrAfterDo i = none)
    (hp : c.b.CheckRetry (w.ctxErrAtCheck i) (w.roundTrip i).1 (w.roundTrip i).2 =
      .ok (true, ce))
    (hr : 0 < wrapInt64 (c.RetryMax - (i : Int) - 1))
    (hb : c.b.Backoff c.b.RetryWaitMin c.b.RetryWaitMax (i : Int) (w.roundTrip i).1 = .ok d)
    (hw : w.ctxDoneInWait i = some e) :
    attemptBody c w m u i =
      (.send i :: (failLog c m u (w.roundTrip i).2 ++
          retryLog c m u (w.roundTrip i).1 d (wrapInt64 (c.RetryMax - (i : Int) - 1)) ++
          [.wait (i : Int) d, .closeIdleConnections]),
        .returned (sendError e)) := by
  simp [attemptBody, h0, hp, not_le.mpr hr, hb, hw]

theorem attemptBody_retry {ce : Option GoError} {d : Duration}
    (h0 : w.ctxErrAfterDo i = none)
    (hp : c.b.CheckRetry (w.ctxErrAtCheck i) (w.roundTrip i).1 (w.roundTrip i).2 =
      .ok (true, ce))
    (hr : 0 < wrapInt64 (c.RetryMax - (i : Int) - 1))
    (hb : c.b.Backoff c.b.RetryWaitMin c.b.RetryWaitMax (i : Int) (w.roundTrip i).1 = .ok d)
    (hw : w.ctxDoneInWait i = none) :
    attemptBody c w m u i =
      (.send i :: (failLog c m u (w.roundTrip i).2 ++
          retryLog c m u (w.roundTrip i).1 d (wrapInt64 (c.RetryMax - (i : Int) - 1)) ++
          [.wait (i : Int) d]),
        .next { resp := (w.roundTrip i).1, doErr := (w.roundTrip i).2, checkErr := ce,
                shouldRetry := true }) := by
  simp [attemptBody, h0, hp, not_le.mpr hr, hb, hw]

end body

/-- An in-range integer is its own `int64`. -/
theorem wrapInt64_of_range {z : Int} (h1 : -(2 ^ 63) ≤ z) (h2 : z < 2 ^ 63) :
    wrapInt64 z = z := by
  unfold wrapInt64
  omega

section inversion
variable (c : httpClient) (w : World) (m u : String) (i : Nat)

/-- Every iteration is an instance of exactly one of the seven step lemmas. -/
theorem attemptBody_cases :
    (∃ e, w.ctxErrAfterDo i = some e ∧
      attemptBody c w m u i = ([.send i, .closeIdleConnections], .returned (sendError e))) ∨
    (w.ctxErrAfterDo i = none ∧ ∃ p,
      c.b.CheckRetry (w.ctxErrAtCheck i) (w.roundTrip i).1 (w.roundTrip i).2 = .error p ∧
      attemptBody c w m u i = ([.send i], .panicked p)) ∨
    (w.ctxErrAfterDo i = none ∧ ∃ ce,
      c.b.CheckRetry (w.ctxErrAtCheck i) (w.roundTrip i).1 (w.roundTrip i).2 = .ok (false, ce) ∧
      attemptBody c w m u i =
        (.send i :: failLog c m u (w.roundTrip i).2,
          .stop { resp := (w.roundTrip i).1, doErr := (w.roundTrip i).2, checkErr := ce,
                  shouldRetry := false })) ∨
    (w.ctxErrAfterDo i = none ∧ ∃ ce,
      c.b.CheckRetry (w.ctxErrAtCheck i) (w.roundTrip i).1 (w.roundTrip i).2 = .ok (true, ce) ∧
      wrapInt64 (c.RetryMax - (i : Int) - 1) ≤ 0 ∧
      attemptBody c w m u i =
        (.send i :: failLog c m u (w.roundTrip i).2,
          .stop { resp := (w.roundTrip i).1, doErr := (w.roundTrip i).2, checkErr := ce,
                  shouldRetry := true })) ∨
    (w.ctxErrAfterDo i = none ∧ ∃ ce p,
      c.b.CheckRetry (w.ctxErrAtCheck i) (w.roundTrip i).1 (w.roundTrip i).2 = .ok (true, ce) ∧
      0 < wrapInt64 (c.RetryMax - (i : Int) - 1) ∧
      c.b.Backoff c.b.RetryWaitMin c.b.RetryWaitMax (i : Int) (w.roundTrip i).1 = .error p ∧
      attemptBody c w m u i = (.send i :: failLog c m u (w.roundTrip i).2, .panicked p)) ∨
    (w.ctxErrAfterDo i = none ∧ ∃ ce d e,
      c.b.CheckRetry (w.ctxErrAtCheck i) (w.roundTrip i).1 (w.roundTrip i).2 = .ok (true, ce) ∧
      0 < wrapInt64 (c.RetryMax - (i : Int) - 1) ∧
      c.b.Backoff c.b.RetryWaitMin c.b.RetryWaitMax (i : Int) (w.roundTrip i).1 = .ok d ∧
      w.ctxDoneInWait i = some e ∧
      attemptBody c w m u i =
        (.send i :: (failLog c m u (w.roundTrip i).2 ++
            retryLog c m u (w.roundTrip i).1 d (wrapInt64 (c.RetryMax - (i : Int) - 1)) ++
            [.wait (i : Int) d, .closeIdleConnections]),
          .returned (sendError e))) ∨
    (w.ctxErrAfterDo i = none ∧ ∃ ce d,
      c.b.CheckRetry (w.ctxErrAtCheck i) (w.roundTrip i).1 (w.roundTrip i).2 = .ok (true, ce) ∧
      0 < wrapInt64 (c.RetryMax - (i : Int) - 1) ∧
      c.b.Backoff c.b.RetryWaitMin c.b.RetryWaitMax (i : Int) (w.roundTrip i).1 = .ok d ∧
      w.ctxDoneInWait i = none ∧
      attemptBody c w m u i =
        (.send i :: (failLog c m u (w.roundTrip i).2 ++
            retryLog c m u (w.roundTrip i).1 d (wrapInt64 (c.RetryMax - (i : Int) - 1)) ++
            [.wait (i : Int) d]),
          .next { resp := (w.roundTrip i).1, doErr := (w.roundTrip i).2, checkErr := ce,
                  shouldRetry := true })) := by
  cases h0 : w.ctxErrAfterDo i with
  | some e => exact Or.inl ⟨e, rfl, attemptBody_ctx c w m u i h0⟩
  | none =>
    right
    cases hp : c.b.CheckRetry (w.ctxErrAtCheck i) (w.roundTrip i).1 (w.roundTrip i).2 with
    | error p => exact Or.inl ⟨rfl, p, rfl, attemptBody_policyPanic c w m u i h0 hp⟩
    | ok v =>
      right
      obtain ⟨sr, ce⟩ := v
      cases sr with
      | false => exact Or.inl ⟨rfl, ce, rfl, attemptBody_noRetry c w m u i h0 hp⟩
      | true =>
        right
        by_cases hr : wrapInt64 (c.RetryMax - (i : Int) - 1) ≤ 0
        · exact Or.inl ⟨rfl, ce, rfl, hr, attemptBody_exhausted c w m u i h0 hp hr⟩
        · right
          have hr1 : 0 < wrapInt64 (c.RetryMax - (i : Int) - 1) := not_le.mp hr
          cases hb : c.b.Backoff c.b.RetryWaitMin c.b.RetryWaitMax (i : Int) (w.roundTrip i).1 with
          | error p =>
            exact Or.inl ⟨rfl, ce, p, rfl, hr1, rfl,
              attemptBody_backoffPanic c w m u i h0 hp hr1 hb⟩
          | ok d =>
            right
            cases hw : w.ctxDoneInWait i with
            | some e =>
              exact Or.inl ⟨rfl, ce, d, e, rfl, hr1, rfl, rfl,
                attemptBody_cancelledWait c w m u i h0 hp hr1 hb hw⟩
            | none =>
              exact Or.inr ⟨rfl, ce, d, rfl, hr1, rfl, rfl,
                attemptBody_retry c w m u i h0 hp hr1 hb hw⟩

end inversion

/-! ## Lemmas: the attempt loop and the code after it -/

section loop
variable (c : httpClient) (w : World) (m u : String)

theorem attemptBody_sendsAndWaits (i : Nat) :
    sendsAndWaits (attemptBody c w m u i).1 = [.send i] ∨
    ∃ d, sendsAndWaits (attemptBody c w m u i).1 = [.send i, .wait (i : Int) d] := by
  rcases attemptBody_cases c w m u i with ⟨e, _, h⟩ | ⟨_, p, _, h⟩ | ⟨_, ce, _, h⟩ |
    ⟨_, ce, _, _, h⟩ | ⟨_, ce, p, _, _, _, h⟩ | ⟨_, ce, d, e, _, _, _, _, h⟩ |
    ⟨_, ce, d, _, _, _, _, h⟩
  all_goals rw [h]
  all_goals first
    | (left; simp [sendsAndWaits]; done)
    | (right; exact ⟨d, by simp [sendsAndWaits]⟩)

theorem attemptBody_send_mem {i k : Nat} (h : Event.send k ∈ (attemptBody c w m u i).1) :
    k = i := by
  rw [mem_sendsAndWaits_send] at h
  rcases attemptBody_sendsAndWaits c w m u i with h1 | ⟨d, h1⟩ <;> rw [h1] at h <;> simpa using h

theorem attemptBody_self_mem (i : Nat) : Event.send i ∈ (attemptBody c w m u i).1 := by
  rw [mem_sendsAndWaits_send]
  rcases attemptBody_sendsAndWaits c w m u i with h1 | ⟨d, h1⟩ <;> rw [h1] <;> simp

theorem attemptBody_wait_mem {i : Nat} {n : Int} {d : Duration}
    (h : Event.wait n d ∈ (attemptBody c w m u i).1) : n = (i : Int) := by
  rw [mem_sendsAndWaits_wait] at h
  rcases attemptBody_sendsAndWaits c w m u i with h1 | ⟨d1, h1⟩ <;> rw [h1] at h
  · simp at h
  · simp at h
    exact h.1

theorem attemptBody_sendCount (i : Nat) : sendCount (attemptBody c w m u i).1 = 1 := by
  rcases attemptBody_cases c w m u i with ⟨e, _, h⟩ | ⟨_, p, _, h⟩ | ⟨_, ce, _, h⟩ |
    ⟨_, ce, _, _, h⟩ | ⟨_, ce, p, _, _, _, h⟩ | ⟨_, ce, d, e, _, _, _, _, h⟩ |
    ⟨_, ce, d, _, _, _, _, h⟩
  all_goals rw [h]
  all_goals simp [sendCount]

theorem attemptLoop_succ_next {fuel i : Nat} {st st1 : LoopState} {ev : List Event}
    (hb : attemptBody c w m u i = (ev, .next st1)) :
    attemptLoop c w m u (fuel + 1) i st =
      (ev ++ (attemptLoop c w m u fuel (i + 1) st1).1,
        (attemptLoop c w m u fuel (i + 1) st1).2) := by
  simp [attemptLoop, hb]

theorem attemptLoop_succ_end {fuel i : Nat} {st : LoopState} {r : LoopEnd}
    (hb : (attemptBody c w m u i).2.toLoopEnd = some r) :
    attemptLoop c w m u (fuel + 1) i st = ((attemptBody c w m u i).1, r) := by
  cases hbody : attemptBody c w m u i with
  | mk ev e =>
    rw [hbody] at hb
    cases e <;> simp [StepEnd.toLoopEnd] at hb <;> simp [attemptLoop, hbody, hb]

theorem attemptLoop_succ_stop {fuel i : Nat} {st st1 : LoopState} {ev : List Event}
    (hb : attemptBody c w m u i = (ev, .stop st1)) :
    attemptLoop c w m u (fuel + 1) i st = (ev, .done st1) := by
  simp [attemptLoop, hb]

/-- The iteration that sends attempt `k` and does not continue decides how
the loop ends, and attempt `k` is the last one sent. -/
theorem attemptLoop_stops_at {k : Nat} {r : LoopEnd}
    (hk : (attemptBody c w m u k).2.toLoopEnd = some r) :
    ∀ (fuel i : Nat) (st : LoopState),
      Event.send k ∈ (attemptLoop c w m u fuel i st).1 →
      (attemptLoop c w m u fuel i st).2 = r ∧
      sendCount (attemptLoop c w m u fuel i st).1 + i = k + 1 := by
  intro fuel
  induction fuel with
  | zero => intro i st h; simp [attemptLoop] at h
  | succ fuel ih =>
    intro i st h
    cases hend : (attemptBody c w m u i).2.toLoopEnd with
    | some r1 =>
      rw [attemptLoop_succ_end c w m u hend] at h ⊢
      have hki : k = i := attemptBody_send_mem c w m u h
      subst hki
      rw [hk] at hend
      simp only [Option.some.injEq] at hend
      exact ⟨hend.symm, by simp only [attemptBody_sendCount]; omega⟩
    | none =>
      cases hbody : attemptBody c w m u i with
      | mk ev e =>
        rw [hbody] at hend
        cases e with
        | next st1 =>
          rw [attemptLoop_succ_next c w m u hbody] at h ⊢
          simp only [List.mem_append] at h
          have hcount : sendCount ev = 1 := by
            have := attemptBody_sendCount c w m u i
            rw [hbody] at this
            exact this
          rcases h with h | h
          · have hki : k = i := attemptBody_send_mem c w m u (by rw [hbody]; exact h)
            subst hki
            rw [hbody] at hk
            simp [StepEnd.toLoopEnd] at hk
          · obtain ⟨h1, h2⟩ := ih (i + 1) st1 h
            refine ⟨h1, ?_⟩
            simp only [sendCount_append, hcount]
            omega
        | stop st1 => simp [StepEnd.toLoopEnd] at hend
        | returned err => simp [StepEnd.toLoopEnd] at hend
        | panicked p => simp [StepEnd.toLoopEnd] at hend

/-- A wait recorded for attempt number `k` was made by iteration `k`, after
attempt `k` was sent. -/
theorem attemptLoop_wait_mem {k : Nat} {d : Duration} :
    ∀ (fuel i : Nat) (st : LoopState),
      Event.wait (k : Int) d ∈ (attemptLoop c w m u fuel i st).1 →
      Event.send k ∈ (attemptLoop c w m u fuel i st).1 ∧
      Event.wait (k : Int) d ∈ (attemptBody c w m u k).1 := by
  intro fuel
  induction fuel with
  | zero => intro i st h; simp [attemptLoop] at h
  | succ fuel ih =>
    intro i st h
    cases hbody : attemptBody c w m u i with
    | mk ev e =>
      have hself : Event.send i ∈ ev := by
        have := attemptBody_self_mem c w m u i
        rw [hbody] at this
        exact this
      have hlocal : Event.wait (k : Int) d ∈ ev → k = i := by
        intro hw
        have := attemptBody_wait_mem c w m u (i := i) (by rw [hbody]; exact hw)
        exact_mod_cast this
      cases e with
      | next st1 =>
        rw [attemptLoop_succ_next c w m u hbody] at h ⊢
        simp only [List.mem_append] at h ⊢
        rcases h with h | h
        · have hki := hlocal h
          subst hki
          exact ⟨Or.inl hself, by rw [hbody]; exact h⟩
        · obtain ⟨h1, h2⟩ := ih (i + 1) st1 h
          exact ⟨Or.inr h1, h2⟩
      | stop st1 =>
        have hend : (attemptBody c w m u i).2.toLoopEnd = some (.done st1) := by
          rw [hbody]; rfl
        rw [attemptLoop_succ_end c w m u hend, hbody] at h ⊢
        have hki := hlocal h
        subst hki
        exact ⟨hself, by rw [hbody]; exact h⟩
      | returned err =>
        have hend : (attemptBody c w m u i).2.toLoopEnd = some (.returned err) := by
          rw [hbody]; rfl
        rw [attemptLoop_succ_end c w m u hend, hbody] at h ⊢
        have hki := hlocal h
        subst hki
        exact ⟨hself, by rw [hbody]; exact h⟩
      | panicked p =>
        have hend : (attemptBody c w m u i).2.toLoopEnd = some (.panicked p) := by
          rw [hbody]; rfl
        rw [attemptLoop_succ_end c w m u hend, hbody] at h ⊢
        have hki := hlocal h
        subst hki
        exact ⟨hself, by rw [hbody]; exact h⟩

end loop

section run
variable (c : httpClient) (w : World) (m u : String)

/-- No attempt is numbered beyond the number of attempts sent. -/
theorem attemptLoop_send_lt {j : Nat} :
    ∀ (fuel i : Nat) (st : LoopState),
      Event.send j ∈ (attemptLoop c w m u fuel i st).1 →
      j < i + sendCount (attemptLoop c w m u fuel i st).1 := by
  intro fuel
  induction fuel with
  | zero => intro i st h; simp [attemptLoop] at h
  | succ fuel ih =>
    intro i st h
    cases hend : (attemptBody c w m u i).2.toLoopEnd with
    | some r1 =>
      rw [attemptLoop_succ_end c w m u hend] at h ⊢
      have hji : j = i := attemptBody_send_mem c w m u h
      simp only [attemptBody_sendCount]
      omega
    | none =>
      cases hbody : attemptBody c w m u i with
      | mk ev e =>
        rw [hbody] at hend
        cases e with
        | next st1 =>
          rw [attemptLoop_succ_next c w m u hbody] at h ⊢
          simp only [List.mem_append] at h
          have hcount : sendCount ev = 1 := by
            have := attemptBody_sendCount c w m u i
            rw [hbody] at this
            exact this
          simp only [sendCount_append, hcount]
          rcases h with h | h
          · have hji : j = i := attemptBody_send_mem c w m u (by rw [hbody]; exact h)
            omega
          · have := ih (i + 1) st1 h
            omega
        | stop st1 => simp [StepEnd.toLoopEnd] at hend
        | returned err => simp [StepEnd.toLoopEnd] at hend
        | panicked p => simp [StepEnd.toLoopEnd] at hend

@[simp] theorem afterLoop_sendsAndWaits (st : LoopState) :
    sendsAndWaits (afterLoop c m u st).1 = [] := by
  unfold afterLoop
  split
  · simp [sendsAndWaits]
  · split
    · simp [sendsAndWaits]
    · split
      · simp [sendsAndWaits]
      · split
        · simp [sendsAndWaits]
        · simp only [sendsAndWaits_append]
          split <;> simp [sendsAndWaits]

theorem sendCount_eq_of_sendsAndWaits (es : List Event) :
    sendCount (sendsAndWaits es) = sendCount es := by
  induction es with
  | nil => rfl
  | cons x xs ih => cases x <;> simp [sendsAndWaits, sendCount, ih]

theorem waitsOf_eq_of_sendsAndWaits (es : List Event) :
    waitsOf (sendsAndWaits es) = waitsOf es := by
  induction es with
  | nil => rfl
  | cons x xs ih => cases x <;> simp [sendsAndWaits, waitsOf, ih]

@[simp] theorem finishRun_sendsAndWaits (r : List Event × LoopEnd) :
    sendsAndWaits (finishRun c m u r).events = sendsAndWaits r.1 := by
  obtain ⟨ev, e⟩ := r
  cases e <;> simp [finishRun]

@[simp] theorem finishRun_sendCount (r : List Event × LoopEnd) :
    sendCount (finishRun c m u r).events = sendCount r.1 := by
  rw [← sendCount_eq_of_sendsAndWaits, finishRun_sendsAndWaits, sendCount_eq_of_sendsAndWaits]

@[simp] theorem finishRun_waitsOf (r : List Event × LoopEnd) :
    waitsOf (finishRun c m u r).events = waitsOf r.1 := by
  rw [← waitsOf_eq_of_sendsAndWaits, finishRun_sendsAndWaits, waitsOf_eq_of_sendsAndWaits]

theorem finishRun_send_mem (r : List Event × LoopEnd) (k : Nat) :
    Event.send k ∈ (finishRun c m u r).events ↔ Event.send k ∈ r.1 := by
  rw [mem_sendsAndWaits_send, finishRun_sendsAndWaits, ← mem_sendsAndWaits_send]

theorem finishRun_wait_mem (r : List Event × LoopEnd) (n : Int) (d : Duration) :
    Event.wait n d ∈ (finishRun c m u r).events ↔ Event.wait n d ∈ r.1 := by
  rw [mem_sendsAndWaits_wait, finishRun_sendsAndWaits, ← mem_sendsAndWaits_wait]

theorem finishRun_returned (ev : List Event) (err : GoError) :
    (finishRun c m u (ev, .returned err)).outcome = .returned none (some err) := rfl

theorem finishRun_done (ev : List Event) (st : LoopState) :
    (finishRun c m u (ev, .done st)).outcome = (afterLoop c m u st).2 := rfl

end run

/-- A call that gets past the payload encoding and the construction of the
request is the attempt loop followed by the code after it. -/
theorem DoReq_of_prelude (c : httpClient) (w : World) (rq : RequestAttributes)
    {p : List UInt8} {m : String}
    (hpay : RequestPayload (Header.Get (c.RequestHeaders rq.Headers) HeaderContentType) rq.Body
      = .ok p)
    (hreq : NewRequestWithContext w rq.Method rq.URL = .ok m) :
    c.DoReq w rq = finishRun c m rq.URL (attemptLoop c w m rq.URL 3 0 initialState) := by
  simp [httpClient.DoReq, hpay, hreq]

/-- A call that did anything at all got past the payload encoding and the
construction of the request. -/
theorem DoReq_of_mem (c : httpClient) (w : World) (rq : RequestAttributes) {x : Event}
    (h : x ∈ (c.DoReq w rq).events) :
    ∃ m, c.DoReq w rq = finishRun c m rq.URL (attemptLoop c w m rq.URL 3 0 initialState) := by
  cases hpay : RequestPayload (Header.Get (c.RequestHeaders rq.Headers) HeaderContentType)
      rq.Body with
  | panicked p => simp [httpClient.DoReq, hpay] at h
  | error err => simp [httpClient.DoReq, hpay] at h
  | ok p =>
    cases hreq : NewRequestWithContext w rq.Method rq.URL with
    | error err => simp [httpClient.DoReq, hpay, hreq] at h
    | ok m => exact ⟨m, DoReq_of_prelude c w rq hpay hreq⟩

theorem finishRun_outcome_returned (c : httpClient) (m u : String) (r : List Event × LoopEnd)
    {err : GoError} (h : r.2 = .returned err) :
    (finishRun c m u r).outcome = .returned none (some err) := by
  obtain ⟨ev, e⟩ := r
  simp only at h
  subst h
  rfl

theorem finishRun_outcome_done (c : httpClient) (m u : String) (r : List Event × LoopEnd)
    {st : LoopState} (h : r.2 = .done st) :
    (finishRun c m u r).outcome = (afterLoop c m u st).2 := by
  obtain ⟨ev, e⟩ := r
  simp only at h
  subst h
  rfl

/-- An iteration that reaches its backoff wait while the context gets
cancelled during that wait returns the context failure. -/
theorem attemptBody_wait_cancelled (c : httpClient) (w : World) (m u : String) {k : Nat}
    {n : Int} {d : Duration} {e : CtxError}
    (hmem : Event.wait n d ∈ (attemptBody c w m u k).1) (hw : w.ctxDoneInWait k = some e) :
    (attemptBody c w m u k).2 = .returned (sendError e) := by
  rw [mem_sendsAndWaits_wait] at hmem
  rcases attemptBody_cases c w m u k with ⟨e1, _, h⟩ | ⟨_, p, _, h⟩ | ⟨_, ce, _, h⟩ |
    ⟨_, ce, _, _, h⟩ | ⟨_, ce, p, _, _, _, h⟩ | ⟨_, ce, d1, e1, _, _, _, hw1, h⟩ |
    ⟨_, ce, d1, _, _, _, hw1, h⟩
  · rw [h] at hmem; simp [sendsAndWaits] at hmem
  · rw [h] at hmem; simp [sendsAndWaits] at hmem
  · rw [h] at hmem; simp [sendsAndWaits] at hmem
  · rw [h] at hmem; simp [sendsAndWaits] at hmem
  · rw [h] at hmem; simp [sendsAndWaits] at hmem
  · rw [hw] at hw1
    simp only [Option.some.injEq] at hw1
    rw [h, hw1]
  · rw [hw] at hw1
    simp at hw1

/-! ## Theorems: context cancellation in `DoReq` -/

/-- C4: if `ctx.Err()` is non-nil when attempt `k` returns, or the context
gets done during the backoff wait that follows attempt `k`, then `DoReq`
returns a nil response and the non-nil error "http client.Send: " followed by
the context's error, attempt `k` is the last attempt sent, for every retry
policy, backoff function and retry limit. -/
theorem C4_DoReq_context_cancellation_is_final (c : httpClient) (w : World)
    (rq : RequestAttributes) (k : Nat) (e : CtxError)
    (h : (Event.send k ∈ (c.DoReq w rq).events ∧ w.ctxErrAfterDo k = some e) ∨
      (∃ d, Event.wait (k : Int) d ∈ (c.DoReq w rq).events ∧ w.ctxDoneInWait k = some e)) :
    (c.DoReq w rq).outcome = .returned none (some (.other ("http client.Send: " ++ e.Error))) ∧
    sendCount (c.DoReq w rq).events = k + 1 ∧
    ∀ j, Event.send j ∈ (c.DoReq w rq).events → j ≤ k := by
  have key : ∃ m, c.DoReq w rq =
        finishRun c m rq.URL (attemptLoop c w m rq.URL 3 0 initialState) ∧
      Event.send k ∈ (attemptLoop c w m rq.URL 3 0 initialState).1 ∧
      (attemptBody c w m rq.URL k).2.toLoopEnd = some (.returned (sendError e)) := by
    rcases h with ⟨hsend, hctx⟩ | ⟨d, hwait, hctx⟩
    · obtain ⟨m, hrun⟩ := DoReq_of_mem c w rq hsend
      refine ⟨m, hrun, ?_, ?_⟩
      · rw [hrun, finishRun_send_mem] at hsend
        exact hsend
      · rw [attemptBody_ctx c w m rq.URL k hctx]
        rfl
    · obtain ⟨m, hrun⟩ := DoReq_of_mem c w rq hwait
      rw [hrun, finishRun_wait_mem] at hwait
      obtain ⟨hsend, hbody⟩ := attemptLoop_wait_mem c w m rq.URL 3 0 initialState hwait
      refine ⟨m, hrun, hsend, ?_⟩
      rw [attemptBody_wait_cancelled c w m rq.URL hbody hctx]
      rfl
  obtain ⟨m, hrun, hsend, hend⟩ := key
  obtain ⟨hres, hcount⟩ := attemptLoop_stops_at c w m rq.URL hend 3 0 initialState hsend
  rw [hrun]
  refine ⟨?_, ?_, ?_⟩
  · rw [finishRun_outcome_returned c m rq.URL _ hres]
    rfl
  · rw [finishRun_sendCount]
    omega
  · intro j hj
    rw [finishRun_send_mem] at hj
    have := attemptLoop_send_lt c w m rq.URL 3 0 initialState hj
    omega

/-- C4, witness: with three attempts allowed and a server that always answers
503, a context cancelled during the first backoff wait, and a context expired
when the first attempt returns, both end the call after one attempt. -/
theorem C4_DoReq_context_cancellation_is_final_witness :
    ((∃ d, Event.wait ((0 : Nat) : Int) d ∈
          ((defaultClient 3).DoReq cancelledInFirstWait
            sampleRequest).events ∧
        cancelledInFirstWait.ctxDoneInWait 0 = some .canceled) ∧
      ((defaultClient 3).DoReq cancelledInFirstWait sampleRequest).outcome =
        .returned none (some (.other ("http client.Send: " ++ CtxError.canceled.Error))) ∧
      sendCount
        ((defaultClient 3).DoReq cancelledInFirstWait sampleRequest).events =
        0 + 1 ∧
      ∀ j, Event.send j ∈
        ((defaultClient 3).DoReq cancelledInFirstWait sampleRequest).events →
        j ≤ 0) ∧
    ((Event.send 0 ∈
          ((defaultClient 3).DoReq expiredAfterFirstSend
            sampleRequest).events ∧
        expiredAfterFirstSend.ctxErrAfterDo 0 = some .deadlineExceeded) ∧
      ((defaultClient 3).DoReq expiredAfterFirstSend sampleRequest).outcome =
        .returned none
          (some (.other ("http client.Send: " ++ CtxError.deadlineExceeded.Error))) ∧
      sendCount
        ((defaultClient 3).DoReq expiredAfterFirstSend sampleRequest).events =
        0 + 1 ∧
      ∀ j, Event.send j ∈
        ((defaultClient 3).DoReq expiredAfterFirstSend sampleRequest).events →
        j ≤ 0) :=
  ⟨⟨⟨Second, by decide, rfl⟩,
      C4_DoReq_context_cancellation_is_final (defaultClient 3)
        cancelledInFirstWait sampleRequest 0 .canceled (Or.inr ⟨Second, by decide, rfl⟩)⟩,
    ⟨⟨by decide, rfl⟩,
      C4_DoReq_context_cancellation_is_final (defaultClient 3)
        expiredAfterFirstSend sampleRequest 0 .deadlineExceeded (Or.inl ⟨by decide, rfl⟩)⟩⟩

/-! ## Lemmas: an iteration that continues -/

/-- An iteration of the loop starts by sending its attempt. -/
theorem attemptLoop_self_mem (c : httpClient) (w : World) (m u : String) (fuel i : Nat)
    (st : LoopState) : Event.send i ∈ (attemptLoop c w m u (fuel + 1) i st).1 := by
  have hself := attemptBody_self_mem c w m u i
  cases hbody : attemptBody c w m u i with
  | mk ev e =>
    rw [hbody] at hself
    cases e with
    | next st1 =>
      rw [attemptLoop_succ_next c w m u hbody]
      exact List.mem_append_left _ hself
    | stop st1 => simp only [attemptLoop, hbody]; exact hself
    | returned err => simp only [attemptLoop, hbody]; exact hself
    | panicked p => simp only [attemptLoop, hbody]; exact hself

/-- When iteration `k` continues and the bound of the loop leaves an
iteration, the events of iteration `k` are events of the loop and attempt
`k + 1` is sent. -/
theorem attemptLoop_next_mem (c : httpClient) (w : World) (m u : String) {k : Nat}
    {ev : List Event} {st1 : LoopState} (hk : attemptBody c w m u k = (ev, .next st1)) :
    ∀ (fuel i : Nat) (st : LoopState),
      Event.send k ∈ (attemptLoop c w m u fuel i st).1 → k + 1 < i + fuel →
      Event.send (k + 1) ∈ (attemptLoop c w m u fuel i st).1 ∧
      ∀ x ∈ ev, x ∈ (attemptLoop c w m u fuel i st).1 := by
  intro fuel
  induction fuel with
  | zero => intro i st h; simp [attemptLoop] at h
  | succ fuel ih =>
    intro i st h hlt
    cases hbody : attemptBody c w m u i with
    | mk evi e =>
      have hlocal : Event.send k ∈ evi → k = i := fun hm =>
        attemptBody_send_mem c w m u (by rw [hbody]; exact hm)
      cases e with
      | next sti =>
        rw [attemptLoop_succ_next c w m u hbody] at h ⊢
        simp only [List.mem_append] at h ⊢
        rcases h with h | h
        · have hki := hlocal h
          subst hki
          rw [hk] at hbody
          simp only [Prod.mk.injEq, StepEnd.next.injEq] at hbody
          obtain ⟨hev, hst⟩ := hbody
          subst hev
          cases fuel with
          | zero => omega
          | succ fuel1 =>
            exact ⟨Or.inr (attemptLoop_self_mem c w m u fuel1 (k + 1) sti),
              fun x hx => Or.inl hx⟩
        · obtain ⟨h1, h2⟩ := ih (i + 1) sti h (by omega)
          exact ⟨Or.inr h1, fun x hx => Or.inr (h2 x hx)⟩
      | stop sti =>
        rw [attemptLoop_succ_stop c w m u hbody] at h
        have hki := hlocal h
        subst hki
        rw [hk] at hbody
        simp at hbody
      | returned err =>
        have hend : (attemptBody c w m u i).2.toLoopEnd = some (.returned err) := by
          rw [hbody]; rfl
        rw [attemptLoop_succ_end c w m u hend, hbody] at h
        have hki := hlocal h
        subst hki
        rw [hk] at hbody
        simp at hbody
      | panicked p =>
        have hend : (attemptBody c w m u i).2.toLoopEnd = some (.panicked p) := by
          rw [hbody]; rfl
        rw [attemptLoop_succ_end c w m u hend, hbody] at h
        have hki := hlocal h
        subst hki
        rw [hk] at hbody
        simp at hbody

/-- The result of the code after the loop does not depend on the method and
the URL, which only its log entry mentions. -/
theorem afterLoop_outcome_eq (c : httpClient) (m u m1 u1 : String) (st : LoopState) :
    (afterLoop c m u st).2 = (afterLoop c m1 u1 st).2 := by
  unfold afterLoop
  cases st.checkErr with
  | some e => rfl
  | none =>
    cases st.doErr with
    | some e => rfl
    | none =>
      cases st.resp with
      | none => rfl
      | some r =>
        simp only
        cases readAllLimited r with
        | error e => rfl
        | ok bs => rfl

/-! ## Theorems: policy errors in `DoReq` -/

/-- With a limit of four attempts, a server that always answers 503 and the
policy `propagatingPolicy`, the third attempt is followed by a wait and by no
fourth attempt (the loop is bounded by 3), and `DoReq` returns the policy
error of the third attempt. -/
theorem DoReq_policy_error_at_loop_bound :
    sendCount ((propagatingClient 4).DoReq alwaysUnavailable sampleRequest).events = 3 ∧
    waitsOf ((propagatingClient 4).DoReq alwaysUnavailable sampleRequest).events =
      waitsOf ((defaultClient 4).DoReq alwaysUnavailable sampleRequest).events ∧
    (waitsOf ((propagatingClient 4).DoReq alwaysUnavailable sampleRequest).events).length = 3 ∧
    ((propagatingClient 4).DoReq alwaysUnavailable sampleRequest).outcome =
      .returned none (some (.other
        "check retry policy: unexpected HTTP status 503 Service Unavailable")) := by
  decide

/-- C2, counterexample: with two attempts allowed and a server that answers
503 and then 200, the policy `propagatingPolicy` returns a non-nil error
together with shouldRetry = true for the first attempt; `DoReq` nevertheless
sends a second attempt and returns the 200 response with a nil error. -/
theorem C2_counterexample_policy_error_with_retry :
    propagatingBuilder.CheckRetry (oneFailureThenOK.ctxErrAtCheck 0)
        (oneFailureThenOK.roundTrip 0).1 (oneFailureThenOK.roundTrip 0).2 =
      .ok (true, some (.other "unexpected HTTP status 503 Service Unavailable")) ∧
    sendCount ((propagatingClient 2).DoReq oneFailureThenOK
        sampleRequest).events = 2 ∧
    ((propagatingClient 2).DoReq oneFailureThenOK sampleRequest).outcome =
      .returned (some { status := "200 OK", statusCode := 200, headers := [], body := [] })
        none := by
  decide

/-- C2, amended: the retry policy returns a non-nil error for attempt `k`.
When it returns it together with shouldRetry = false, or together with
shouldRetry = true when the retry limit leaves no attempt
(`RetryMax - k - 1 <= 0`), `DoReq` sends no further attempt and returns a nil
response and the error "check retry policy: " followed by the policy error.
When it returns it together with shouldRetry = true for the first or second
attempt (`k < 2`) while the limit leaves attempts, the backoff function
returns a duration and the context is not done during the wait, `DoReq` waits
that duration and sends attempt `k + 1`; and when the context is live after
attempt `k + 1` and the verdict of the policy on it ends the loop, the result
of `DoReq` is the one the code after the loop computes from the response, the
transport error and the verdict of attempt `k + 1` alone, a failure carrying
the policy error of attempt `k + 1` if that is non-nil: the error of attempt
`k` is not used. -/
theorem C2_DoReq_policy_error_is_final (c : httpClient) (w : World) (rq : RequestAttributes)
    (k : Nat) (sr : Bool) (e : GoError)
    (hsent : Event.send k ∈ (c.DoReq w rq).events)
    (hctx : w.ctxErrAfterDo k = none)
    (hpol : c.b.CheckRetry (w.ctxErrAtCheck k) (w.roundTrip k).1 (w.roundTrip k).2 =
      .ok (sr, some e)) :
    (sr = false ∨ wrapInt64 (c.RetryMax - (k : Int) - 1) ≤ 0 →
      (c.DoReq w rq).outcome =
        .returned none (some (.other ("check retry policy: " ++ e.Error))) ∧
      sendCount (c.DoReq w rq).events = k + 1 ∧
      ∀ j, Event.send j ∈ (c.DoReq w rq).events → j ≤ k) ∧
    (sr = true → 0 < wrapInt64 (c.RetryMax - (k : Int) - 1) → k < 2 →
      ∀ d, c.b.Backoff c.b.RetryWaitMin c.b.RetryWaitMax (k : Int) (w.roundTrip k).1 = .ok d →
      w.ctxDoneInWait k = none →
      Event.wait (k : Int) d ∈ (c.DoReq w rq).events ∧
      Event.send (k + 1) ∈ (c.DoReq w rq).events ∧
      ∀ (sr1 : Bool) (ce1 : Option GoError), w.ctxErrAfterDo (k + 1) = none →
        c.b.CheckRetry (w.ctxErrAtCheck (k + 1)) (w.roundTrip (k + 1)).1
          (w.roundTrip (k + 1)).2 = .ok (sr1, ce1) →
        (sr1 = false ∨ wrapInt64 (c.RetryMax - ((k + 1 : Nat) : Int) - 1) ≤ 0) →
        (c.DoReq w rq).outcome =
          (afterLoop c rq.Method rq.URL
            { resp := (w.roundTrip (k + 1)).1, doErr := (w.roundTrip (k + 1)).2,
              checkErr := ce1, shouldRetry := sr1 }).2 ∧
        sendCount (c.DoReq w rq).events = k + 2 ∧
        ∀ e1, ce1 = some e1 →
          (c.DoReq w rq).outcome =
            .returned none (some (.other ("check retry policy: " ++ e1.Error)))) := by
  obtain ⟨m, hrun⟩ := DoReq_of_mem c w rq hsent
  rw [hrun, finishRun_send_mem] at hsent
  refine ⟨?_, ?_⟩
  · intro hlast
    have hend : (attemptBody c w m rq.URL k).2.toLoopEnd =
        some (.done { resp := (w.roundTrip k).1, doErr := (w.roundTrip k).2,
                      checkErr := some e, shouldRetry := sr }) := by
      cases sr with
      | false => rw [attemptBody_noRetry c w m rq.URL k hctx hpol]; rfl
      | true =>
        have hr : wrapInt64 (c.RetryMax - (k : Int) - 1) ≤ 0 := by
          rcases hlast with h | h
          · simp at h
          · exact h
        rw [attemptBody_exhausted c w m rq.URL k hctx hpol hr]; rfl
    obtain ⟨hres, hcount⟩ := attemptLoop_stops_at c w m rq.URL hend 3 0 initialState hsent
    rw [hrun]
    refine ⟨?_, ?_, ?_⟩
    · rw [finishRun_outcome_done c m rq.URL _ hres]
      rfl
    · rw [finishRun_sendCount]
      omega
    · intro j hj
      rw [finishRun_send_mem] at hj
      have := attemptLoop_send_lt c w m rq.URL 3 0 initialState hj
      omega
  · intro hsr hr hk d hb hw
    subst hsr
    have hbody := attemptBody_retry c w m rq.URL k hctx hpol hr hb hw
    obtain ⟨hnext, hev⟩ :=
      attemptLoop_next_mem c w m rq.URL hbody 3 0 initialState hsent (by omega)
    rw [hrun]
    refine ⟨?_, ?_, ?_⟩
    · rw [finishRun_wait_mem]
      exact hev _ (by simp)
    · rw [finishRun_send_mem]
      exact hnext
    · intro sr1 ce1 hctx1 hpol1 hlast1
      have hend : (attemptBody c w m rq.URL (k + 1)).2.toLoopEnd =
          some (.done { resp := (w.roundTrip (k + 1)).1, doErr := (w.roundTrip (k + 1)).2,
                        checkErr := ce1, shouldRetry := sr1 }) := by
        cases sr1 with
        | false => rw [attemptBody_noRetry c w m rq.URL (k + 1) hctx1 hpol1]; rfl
        | true =>
          have hr1 : wrapInt64 (c.RetryMax - ((k + 1 : Nat) : Int) - 1) ≤ 0 := by
            rcases hlast1 with h | h
            · simp at h
            · exact h
          rw [attemptBody_exhausted c w m rq.URL (k + 1) hctx1 hpol1 hr1]; rfl
      obtain ⟨hres, hcount⟩ := attemptLoop_stops_at c w m rq.URL hend 3 0 initialState hnext
      refine ⟨?_, ?_, ?_⟩
      · rw [finishRun_outcome_done c m rq.URL _ hres]
        exact afterLoop_outcome_eq c m rq.URL rq.Method rq.URL _
      · rw [finishRun_sendCount]
        omega
      · intro e1 he1
        subst he1
        rw [finishRun_outcome_done c m rq.URL _ hres]
        rfl

/-- C2, witness: the error of `propagatingPolicy` on the second and last
permitted attempt; the context error that `DefaultRetryPolicy` returns with
shouldRetry = false on the first attempt; and the error of `propagatingPolicy`
on the first of two permitted attempts, after which the client waits 1s, sends
the second attempt and returns its 200 response. -/
theorem C2_DoReq_policy_error_is_final_witness :
    ((Event.send 1 ∈ ((propagatingClient 2).DoReq alwaysUnavailable sampleRequest).events ∧
        alwaysUnavailable.ctxErrAfterDo 1 = none ∧
        (propagatingClient 2).b.CheckRetry (alwaysUnavailable.ctxErrAtCheck 1)
            (alwaysUnavailable.roundTrip 1).1 (alwaysUnavailable.roundTrip 1).2 =
          .ok (true, some (.other "unexpected HTTP status 503 Service Unavailable")) ∧
        (true = false ∨ wrapInt64 ((propagatingClient 2).RetryMax - ((1 : Nat) : Int) - 1) ≤ 0)) ∧
      (((propagatingClient 2).DoReq alwaysUnavailable sampleRequest).outcome =
          .returned none (some (.other
            ("check retry policy: " ++
              (GoError.other "unexpected HTTP status 503 Service Unavailable").Error))) ∧
        sendCount ((propagatingClient 2).DoReq alwaysUnavailable sampleRequest).events = 1 + 1 ∧
        ∀ j, Event.send j ∈ ((propagatingClient 2).DoReq alwaysUnavailable sampleRequest).events →
          j ≤ 1)) ∧
    ((Event.send 0 ∈ ((defaultClient 3).DoReq cancelledBeforePolicy sampleRequest).events ∧
        cancelledBeforePolicy.ctxErrAfterDo 0 = none ∧
        (defaultClient 3).b.CheckRetry (cancelledBeforePolicy.ctxErrAtCheck 0)
            (cancelledBeforePolicy.roundTrip 0).1 (cancelledBeforePolicy.roundTrip 0).2 =
          .ok (false, some (.context .canceled)) ∧
        (false = false ∨ wrapInt64 ((defaultClient 3).RetryMax - ((0 : Nat) : Int) - 1) ≤ 0)) ∧
      (((defaultClient 3).DoReq cancelledBeforePolicy sampleRequest).outcome =
          .returned none (some (.other
            ("check retry policy: " ++ (GoError.context .canceled).Error))) ∧
        sendCount ((defaultClient 3).DoReq cancelledBeforePolicy sampleRequest).events = 0 + 1 ∧
        ∀ j, Event.send j ∈ ((defaultClient 3).DoReq cancelledBeforePolicy sampleRequest).events →
          j ≤ 0)) ∧
    ((propagatingClient 2).b.CheckRetry (oneFailureThenOK.ctxErrAtCheck 0)
          (oneFailureThenOK.roundTrip 0).1 (oneFailureThenOK.roundTrip 0).2 =
        .ok (true, some (.other "unexpected HTTP status 503 Service Unavailable")) ∧
      0 < wrapInt64 ((propagatingClient 2).RetryMax - ((0 : Nat) : Int) - 1) ∧
      Event.wait ((0 : Nat) : Int) Second ∈
        ((propagatingClient 2).DoReq oneFailureThenOK sampleRequest).events ∧
      Event.send (0 + 1) ∈ ((propagatingClient 2).DoReq oneFailureThenOK sampleRequest).events ∧
      ((propagatingClient 2).DoReq oneFailureThenOK sampleRequest).outcome =
        .returned (some { status := "200 OK", statusCode := 200, headers := [], body := [] })
          none ∧
      sendCount ((propagatingClient 2).DoReq oneFailureThenOK sampleRequest).events = 0 + 2) :=
  ⟨⟨⟨by decide, rfl, by decide, Or.inr (by decide)⟩,
      (C2_DoReq_policy_error_is_final (propagatingClient 2) alwaysUnavailable
        sampleRequest 1 true (.other "unexpected HTTP status 503 Service Unavailable")
        (by decide) rfl (by decide)).1 (Or.inr (by decide))⟩,
    ⟨⟨by decide, rfl, by decide, Or.inl rfl⟩,
      (C2_DoReq_policy_error_is_final (defaultClient 3) cancelledBeforePolicy
        sampleRequest 0 false (.context .canceled) (by decide) rfl (by decide)).1 (Or.inl rfl)⟩,
    ⟨by decide, by decide,
      ((C2_DoReq_policy_error_is_final (propagatingClient 2) oneFailureThenOK
        sampleRequest 0 true (.other "unexpected HTTP status 503 Service Unavailable")
        (by decide) rfl (by decide)).2 rfl (by decide) (by decide) Second (by decide) rfl).1,
      ((C2_DoReq_policy_error_is_final (propagatingClient 2) oneFailureThenOK
        sampleRequest 0 true (.other "unexpected HTTP status 503 Service Unavailable")
        (by decide) rfl (by decide)).2 rfl (by decide) (by decide) Second (by decide) rfl).2.1,
      (((C2_DoReq_policy_error_is_final (propagatingClient 2) oneFailureThenOK
        sampleRequest 0 true (.other "unexpected HTTP status 503 Service Unavailable")
        (by decide) rfl (by decide)).2 rfl (by decide) (by decide) Second (by decide) rfl).2.2
          false none rfl (by decide) (Or.inl rfl)).1.trans (by decide),
      (((C2_DoReq_policy_error_is_final (propagatingClient 2) oneFailureThenOK
        sampleRequest 0 true (.other "unexpected HTTP status 503 Service Unavailable")
        (by decide) rfl (by decide)).2 rfl (by decide) (by decide) Second (by decide) rfl).2.2
          false none rfl (by decide) (Or.inl rfl)).2.1⟩⟩

/-! ## Lemmas: runs in which every attempt is retryable -/

/-- The configured limit, when it is not zero. -/
theorem RetryMax_of_ne_zero {c : httpClient} {n : Int} (hmax : c.b.RetryMax = n) (hn : n ≠ 0) :
    c.RetryMax = n := by
  simp [httpClient.RetryMax, hmax, hn]

/-- With a live context, a policy that answers `(true, nil)` to every attempt
and a backoff function that does not panic, the loop ends by `break` or by
its bound after attempt `last`, where `last + 1` is the smaller of the limit
and 3; it has waited `last` times when the limit is at most 3, and 3 times
otherwise. -/
theorem attemptLoop_all_retryable (c : httpClient) (w : World) (m u : String) (n : Int)
    (hn1 : 1 ≤ n) (hn2 : n < 2 ^ 63) (hmax : c.b.RetryMax = n)
    (hctx : ∀ i, w.ctxErrAfterDo i = none)
    (hwait : ∀ i, w.ctxDoneInWait i = none)
    (hpol : ∀ i, c.b.CheckRetry (w.ctxErrAtCheck i) (w.roundTrip i).1 (w.roundTrip i).2 =
      .ok (true, none))
    (hback : ∀ i : Nat, ∃ d,
      c.b.Backoff c.b.RetryWaitMin c.b.RetryWaitMax (i : Int) (w.roundTrip i).1 = .ok d) :
    ∃ last : Nat, (last : Int) + 1 = min n 3 ∧
      (attemptLoop c w m u 3 0 initialState).2 =
        .done { resp := (w.roundTrip last).1, doErr := (w.roundTrip last).2,
                checkErr := none, shouldRetry := true } ∧
      sendCount (attemptLoop c w m u 3 0 initialState).1 = last + 1 ∧
      (waitsOf (attemptLoop c w m u 3 0 initialState).1).length =
        (if n ≤ 3 then last else 3) := by
  have hRM : c.RetryMax = n := RetryMax_of_ne_zero hmax (by omega)
  choose d hd using hback
  have hremain : ∀ i : Nat, i ≤ 2 → wrapInt64 (c.RetryMax - (i : Int) - 1) = n - (i : Int) - 1 := by
    intro i hi
    rw [hRM]
    exact wrapInt64_of_range (by omega) (by omega)
  have hnext : ∀ i : Nat, i ≤ 2 → (i : Int) + 1 < n →
      attemptBody c w m u i =
        (.send i :: (failLog c m u (w.roundTrip i).2 ++
            retryLog c m u (w.roundTrip i).1 (d i) (wrapInt64 (c.RetryMax - (i : Int) - 1)) ++
            [.wait (i : Int) (d i)]),
          .next { resp := (w.roundTrip i).1, doErr := (w.roundTrip i).2, checkErr := none,
                  shouldRetry := true }) := by
    intro i hi hlt
    exact attemptBody_retry c w m u i (hctx i) (hpol i) (by rw [hremain i hi]; omega) (hd i)
      (hwait i)
  have hstop : ∀ i : Nat, i ≤ 2 → (i : Int) + 1 = n →
      attemptBody c w m u i =
        (.send i :: failLog c m u (w.roundTrip i).2,
          .stop { resp := (w.roundTrip i).1, doErr := (w.roundTrip i).2, checkErr := none,
                  shouldRetry := true }) := by
    intro i hi heq
    exact attemptBody_exhausted c w m u i (hctx i) (hpol i) (by rw [hremain i hi]; omega)
  by_cases h1 : n = 1
  · refine ⟨0, by subst h1; rfl, ?_⟩
    have hb0 := hstop 0 (by omega) (by omega)
    rw [attemptLoop_succ_stop c w m u hb0]
    simp [sendCount, waitsOf, h1]
  · by_cases h2 : n = 2
    · refine ⟨1, by subst h2; rfl, ?_⟩
      have hb0 := hnext 0 (by omega) (by omega)
      have hb1 := hstop 1 (by omega) (by omega)
      rw [attemptLoop_succ_next c w m u hb0]
      simp only [Nat.zero_add]
      rw [attemptLoop_succ_stop c w m u hb1]
      simp [sendCount, waitsOf, h2]
    · by_cases h3 : n = 3
      · refine ⟨2, by subst h3; rfl, ?_⟩
        have hb0 := hnext 0 (by omega) (by omega)
        have hb1 := hnext 1 (by omega) (by omega)
        have hb2 := hstop 2 (by omega) (by omega)
        rw [attemptLoop_succ_next c w m u hb0]
        simp only [Nat.zero_add]
        rw [attemptLoop_succ_next c w m u hb1]
        simp only [Nat.reduceAdd]
        rw [attemptLoop_succ_stop c w m u hb2]
        simp [sendCount, waitsOf, h3]
      · have h4 : 4 ≤ n := by omega
        refine ⟨2, by rw [min_eq_right (by omega)]; rfl, ?_⟩
        have hb0 := hnext 0 (by omega) (by omega)
        have hb1 := hnext 1 (by omega) (by omega)
        have hb2 := hnext 2 (by omega) (by omega)
        rw [attemptLoop_succ_next c w m u hb0]
        simp only [Nat.zero_add]
        rw [attemptLoop_succ_next c w m u hb1]
        simp only [Nat.reduceAdd]
        rw [attemptLoop_succ_next c w m u hb2]
        have hn3 : ¬ n ≤ 3 := by omega
        simp [attemptLoop, sendCount, waitsOf, hn3]

/-! ## Theorems: the number of attempts -/

/-- C1, the behaviour of the code: for a retry limit `n >= 1`, a live context
and a policy that classifies every attempt as retryable without error,
`DoReq` sends `min n 3` attempts: the loop header `for i := 0; i < 3; i++`
caps the attempts at three whatever the limit. It waits `n - 1` times when
`n <= 3`; for `n >= 4` it waits three times, the third wait being followed by
no attempt. -/
theorem C1_DoReq_attempts_capped_at_three (c : httpClient) (w : World) (rq : RequestAttributes)
    (n : Int) (p : List UInt8) (m : String)
    (hn1 : 1 ≤ n) (hn2 : n < 2 ^ 63) (hmax : c.b.RetryMax = n)
    (hpay : RequestPayload (Header.Get (c.RequestHeaders rq.Headers) HeaderContentType) rq.Body
      = .ok p)
    (hreq : NewRequestWithContext w rq.Method rq.URL = .ok m)
    (hctx : ∀ i, w.ctxErrAfterDo i = none)
    (hwait : ∀ i, w.ctxDoneInWait i = none)
    (hpol : ∀ i, c.b.CheckRetry (w.ctxErrAtCheck i) (w.roundTrip i).1 (w.roundTrip i).2 =
      .ok (true, none))
    (hback : ∀ i : Nat, ∃ d,
      c.b.Backoff c.b.RetryWaitMin c.b.RetryWaitMax (i : Int) (w.roundTrip i).1 = .ok d) :
    ((sendCount (c.DoReq w rq).events : Nat) : Int) = min n 3 ∧
    (((waitsOf (c.DoReq w rq).events).length : Nat) : Int) = if n ≤ 3 then n - 1 else 3 := by
  obtain ⟨last, hlast, _, hcount, hwaits⟩ :=
    attemptLoop_all_retryable c w m rq.URL n hn1 hn2 hmax hctx hwait hpol hback
  rw [DoReq_of_prelude c w rq hpay hreq, finishRun_sendCount, finishRun_waitsOf, hcount, hwaits]
  refine ⟨by rw [← hlast]; push_cast; rfl, ?_⟩
  by_cases h3 : n ≤ 3
  · rw [if_pos h3, if_pos h3]
    rw [min_eq_left h3] at hlast
    omega
  · rw [if_neg h3, if_neg h3]
    rfl

/-- C1, witness: the retry limit 4 against a server that always answers 503.
Three attempts are sent, not four, and each of them is followed by a wait. -/
theorem C1_DoReq_attempts_capped_at_three_witness :
    ((1 : Int) ≤ 4 ∧ (4 : Int) < 2 ^ 63 ∧ (defaultClient 4).b.RetryMax = 4) ∧
    (((sendCount ((defaultClient 4).DoReq alwaysUnavailable sampleRequest).events : Nat) : Int) =
        min 4 3 ∧
      (((waitsOf ((defaultClient 4).DoReq alwaysUnavailable sampleRequest).events).length : Nat)
          : Int) = if (4 : Int) ≤ 3 then 4 - 1 else 3) ∧
    sendsAndWaits ((defaultClient 4).DoReq alwaysUnavailable sampleRequest).events =
      [.send 0, .wait 0 (1 * Second), .send 1, .wait 1 (2 * Second), .send 2,
        .wait 2 (4 * Second)] :=
  ⟨⟨by decide, by decide, rfl⟩,
    C1_DoReq_attempts_capped_at_three (defaultClient 4) alwaysUnavailable sampleRequest 4 [] "GET"
      (by decide) (by decide) rfl rfl (by decide) (fun _ => rfl) (fun _ => rfl)
      (fun _ => rfl) (fun _ => ⟨_, rfl⟩),
    by decide⟩

/-- An iteration for which the limit leaves no attempt does not wait and does
not continue. -/
theorem attemptBody_last (c : httpClient) (w : World) (m u : String) (i : Nat)
    (hr : wrapInt64 (c.RetryMax - (i : Int) - 1) ≤ 0) :
    ∃ r, (attemptBody c w m u i).2.toLoopEnd = some r ∧ waitsOf (attemptBody c w m u i).1 = [] := by
  rcases attemptBody_cases c w m u i with ⟨e, _, h⟩ | ⟨_, p, _, h⟩ | ⟨_, ce, _, h⟩ |
    ⟨_, ce, _, _, h⟩ | ⟨_, ce, p, _, hr1, _, h⟩ | ⟨_, ce, d, e, _, hr1, _, _, h⟩ |
    ⟨_, ce, d, _, hr1, _, _, h⟩
  · rw [h]; exact ⟨_, rfl, by simp [waitsOf]⟩
  · rw [h]; exact ⟨_, rfl, by simp [waitsOf]⟩
  · rw [h]; exact ⟨_, rfl, by simp [waitsOf]⟩
  · rw [h]; exact ⟨_, rfl, by simp [waitsOf]⟩
  · omega
  · omega
  · omega

/-- C6: `NewClientBuilder` sets RetryWaitMin = 1s, RetryWaitMax = 30s and
RetryMax = 1; and a client whose retry limit is that default, or 0, sends
exactly one attempt per `DoReq` call that gets as far as sending (the payload
encodes and the request is constructed) and never waits for backoff, for
every policy, backoff function and outcome of that attempt. -/
theorem C6_default_limit_is_one_attempt :
    (NewClientBuilder.RetryWaitMin = 1 * Second ∧ NewClientBuilder.RetryWaitMax = 30 * Second ∧
      NewClientBuilder.RetryMax = 1) ∧
    ∀ (c : httpClient) (w : World) (rq : RequestAttributes) (p : List UInt8) (m : String),
      (c.b.RetryMax = NewClientBuilder.RetryMax ∨ c.b.RetryMax = 0) →
      RequestPayload (Header.Get (c.RequestHeaders rq.Headers) HeaderContentType) rq.Body
        = .ok p →
      NewRequestWithContext w rq.Method rq.URL = .ok m →
      sendCount (c.DoReq w rq).events = 1 ∧ waitsOf (c.DoReq w rq).events = [] := by
  refine ⟨⟨rfl, rfl, rfl⟩, ?_⟩
  intro c w rq p m hmax hpay hreq
  have hRM : c.RetryMax = 1 := by
    rcases hmax with h | h
    · exact RetryMax_of_ne_zero h (by decide)
    · simp [httpClient.RetryMax, h, defaultRetryMax]
  have hr : wrapInt64 (c.RetryMax - ((0 : Nat) : Int) - 1) ≤ 0 := by
    rw [hRM]; decide
  obtain ⟨r, hend, hwaits⟩ := attemptBody_last c w m rq.URL 0 hr
  rw [DoReq_of_prelude c w rq hpay hreq, finishRun_sendCount, finishRun_waitsOf,
    attemptLoop_succ_end c w m rq.URL hend]
  exact ⟨attemptBody_sendCount c w m rq.URL 0, hwaits⟩

/-- C6, witness: the client built from `NewClientBuilder` without any setter,
and the one with the limit set to 0, against a server that always answers a
retryable 503. -/
theorem C6_default_limit_is_one_attempt_witness :
    ((NewClientBuilder.Build.b.RetryMax = NewClientBuilder.RetryMax ∨
        NewClientBuilder.Build.b.RetryMax = 0) ∧
      sendCount (NewClientBuilder.Build.DoReq alwaysUnavailable sampleRequest).events = 1 ∧
      waitsOf (NewClientBuilder.Build.DoReq alwaysUnavailable sampleRequest).events = []) ∧
    (((defaultClient 0).b.RetryMax = NewClientBuilder.RetryMax ∨
        (defaultClient 0).b.RetryMax = 0) ∧
      sendCount ((defaultClient 0).DoReq alwaysUnavailable sampleRequest).events = 1 ∧
      waitsOf ((defaultClient 0).DoReq alwaysUnavailable sampleRequest).events = []) :=
  ⟨⟨Or.inl rfl,
      C6_default_limit_is_one_attempt.2 NewClientBuilder.Build alwaysUnavailable sampleRequest
        [] "GET" (Or.inl rfl) rfl (by decide)⟩,
    ⟨Or.inr rfl,
      C6_default_limit_is_one_attempt.2 (defaultClient 0) alwaysUnavailable sampleRequest
        [] "GET" (Or.inr rfl) rfl (by decide)⟩⟩

/-! ## Theorems: the default policy at the end of the retries -/

/-- The read of a body that does not end in an error before the 1 MiB limit. -/
theorem readAllLimited_ok (r : Response)
    (hbody : r.Body.length < 1024 * 1024 → r.BodyErr = none) :
    readAllLimited r = .ok (r.Body.take (1024 * 1024)) := by
  unfold readAllLimited
  by_cases h : r.Body.length < 1024 * 1024
  · rw [if_pos h, hbody h, List.take_of_length_le (le_of_lt h)]
  · rw [if_neg h]

/-- The code after the loop when the last attempt left a response and neither
a policy error nor a transport error. -/
theorem afterLoop_response (c : httpClient) (m u : String) (r : Response) (sr : Bool)
    (hbody : r.Body.length < 1024 * 1024 → r.BodyErr = none) :
    (afterLoop c m u { resp := some r, doErr := none, checkErr := none, shouldRetry := sr }).2 =
      .returned (some { status := r.Status, statusCode := r.StatusCode, headers := r.Header,
                        body := r.Body.take (1024 * 1024) }) none := by
  simp [afterLoop, readAllLimited_ok r hbody]

/-- C3, counterexample: the default client with two attempts allowed, against
a server that answers 503 to both, returns the 503 response with a nil
error. -/
theorem C3_counterexample_default_policy_returns_response :
    (defaultClient 2).b.CheckRetry = DefaultRetryPolicy ∧
    sendCount ((defaultClient 2).DoReq alwaysUnavailable sampleRequest).events = 2 ∧
    ((defaultClient 2).DoReq alwaysUnavailable sampleRequest).outcome =
      .returned (some { status := "503 Service Unavailable", statusCode := 503, headers := [],
                        body := [] }) none :=
  ⟨rfl, by decide, by decide⟩

/-- C3, amended: with the default retry policy, a live context and a retry
limit `n >= 1`, when every attempt receives a response with status 429 or
5xx other than 501, `DoReq` returns the response of the last attempt sent
(its body cut at 1 MiB) together with a nil error, provided that body is read
without error: `DefaultRetryPolicy` discards the error that `baseRetryPolicy`
synthesizes, so no policy error reaches the caller. -/
theorem C3_DoReq_default_policy_exhausted (c : httpClient) (w : World) (rq : RequestAttributes)
    (n : Int) (p : List UInt8) (m : String) (resp : Nat → Response) (last : Nat)
    (hn1 : 1 ≤ n) (hn2 : n < 2 ^ 63) (hmax : c.b.RetryMax = n)
    (hpolicy : c.b.CheckRetry = DefaultRetryPolicy)
    (hpay : RequestPayload (Header.Get (c.RequestHeaders rq.Headers) HeaderContentType) rq.Body
      = .ok p)
    (hreq : NewRequestWithContext w rq.Method rq.URL = .ok m)
    (hctx1 : ∀ i, w.ctxErrAfterDo i = none)
    (hctx2 : ∀ i, w.ctxErrAtCheck i = none)
    (hwait : ∀ i, w.ctxDoneInWait i = none)
    (hresp : ∀ i, w.roundTrip i = (some (resp i), none))
    (hstatus : ∀ i, (resp i).StatusCode = 429 ∨
      (500 ≤ (resp i).StatusCode ∧ (resp i).StatusCode ≤ 599 ∧ (resp i).StatusCode ≠ 501))
    (hback : ∀ i : Nat, ∃ d,
      c.b.Backoff c.b.RetryWaitMin c.b.RetryWaitMax (i : Int) (some (resp i)) = .ok d)
    (hlast : (last : Int) + 1 = min n 3)
    (hbody : (resp last).Body.length < 1024 * 1024 → (resp last).BodyErr = none) :
    (c.DoReq w rq).outcome =
      .returned (some { status := (resp last).Status, statusCode := (resp last).StatusCode,
                        headers := (resp last).Header,
                        body := (resp last).Body.take (1024 * 1024) }) none := by
  have hpol : ∀ i, c.b.CheckRetry (w.ctxErrAtCheck i) (w.roundTrip i).1 (w.roundTrip i).2 =
      .ok (true, none) := by
    intro i
    rw [hpolicy, hctx2 i, hresp i, DefaultRetryPolicy_response]
    have hs := hstatus i
    have : ((resp i).StatusCode = 429 ∨ (resp i).StatusCode = 0 ∨
        ((resp i).StatusCode ≥ 500 ∧ (resp i).StatusCode ≠ 501)) := by omega
    simp only [this, decide_True]
  have hback1 : ∀ i : Nat, ∃ d,
      c.b.Backoff c.b.RetryWaitMin c.b.RetryWaitMax (i : Int) (w.roundTrip i).1 = .ok d := by
    intro i
    rw [hresp i]
    exact hback i
  obtain ⟨last1, hlast1, hend, _, _⟩ :=
    attemptLoop_all_retryable c w m rq.URL n hn1 hn2 hmax hctx1 hwait hpol hback1
  have heq : last1 = last := by omega
  subst heq
  rw [DoReq_of_prelude c w rq hpay hreq, finishRun_outcome_done c m rq.URL _ hend, hresp last1]
  exact afterLoop_response c m rq.URL (resp last1) true hbody

/-- C3, witness: the default client with two attempts allowed against a
server that always answers 503. -/
theorem C3_DoReq_default_policy_exhausted_witness :
    ((1 : Int) ≤ 2 ∧ (2 : Int) < 2 ^ 63 ∧ (defaultClient 2).b.RetryMax = 2 ∧
      (defaultClient 2).b.CheckRetry = DefaultRetryPolicy ∧
      ((1 : Nat) : Int) + 1 = min 2 3) ∧
    ((defaultClient 2).DoReq alwaysUnavailable sampleRequest).outcome =
      .returned (some
        { status := (sampleResponse 503 "503 Service Unavailable").Status,
          statusCode := (sampleResponse 503 "503 Service Unavailable").StatusCode,
          headers := (sampleResponse 503 "503 Service Unavailable").Header,
          body := (sampleResponse 503 "503 Service Unavailable").Body.take (1024 * 1024) })
        none :=
  ⟨⟨by decide, by decide, rfl, rfl, by decide⟩,
    C3_DoReq_default_policy_exhausted (defaultClient 2) alwaysUnavailable sampleRequest 2 []
      "GET" (fun _ => sampleResponse 503 "503 Service Unavailable") 1
      (by decide) (by decide) rfl rfl rfl (by decide) (fun _ => rfl) (fun _ => rfl)
      (fun _ => rfl) (fun _ => rfl)
      (fun _ => Or.inr
        (show (500 : Int) ≤ 503 ∧ (503 : Int) ≤ 599 ∧ (503 : Int) ≠ 501 by decide))
      (fun _ => ⟨_, rfl⟩) (by decide) (fun _ => rfl)⟩

/-! ## Theorems: the 503, 503, 200 scenario -/

/-- Function `DefaultBackoff` returns a wait unless the response is a 429 or 503 whose
`Retry-After` key holds an empty list of values. -/
theorem DefaultBackoff_ok (min max : Duration) (n : Int) (r : Response)
    (h : r.Header.lookup "Retry-After" ≠ some []) :
    ∃ d, DefaultBackoff min max n (some r) = .ok d := by
  unfold DefaultBackoff
  simp only
  split
  · split
    · exact absurd (by assumption) h
    · split
      · exact ⟨_, rfl⟩
      · exact ⟨_, rfl⟩
    · exact ⟨_, rfl⟩
  · exact ⟨_, rfl⟩

/-- C5: a client with retry limit 3, the default policy and the default
backoff, a live context, and a server that answers 503, 503 and then 200
(the 503 responses not carrying an empty `Retry-After` value list, the body
of the 200 read without error): `DoReq` sends exactly three attempts, waits
exactly twice, once after each 503, for the durations `DefaultBackoff`
computes for attempt numbers 0 and 1, and returns the 200 response with a nil
error. -/
theorem C5_DoReq_two_failures_then_success (c : httpClient) (w : World)
    (rq : RequestAttributes) (p : List UInt8) (m : String) (r0 r1 r2 : Response)
    (hmax : c.b.RetryMax = 3)
    (hpolicy : c.b.CheckRetry = DefaultRetryPolicy)
    (hbackoff : c.b.Backoff = DefaultBackoff)
    (hpay : RequestPayload (Header.Get (c.RequestHeaders rq.Headers) HeaderContentType) rq.Body
      = .ok p)
    (hreq : NewRequestWithContext w rq.Method rq.URL = .ok m)
    (hctx1 : ∀ i, w.ctxErrAfterDo i = none)
    (hctx2 : ∀ i, w.ctxErrAtCheck i = none)
    (hwait : ∀ i, w.ctxDoneInWait i = none)
    (h0 : w.roundTrip 0 = (some r0, none)) (h1 : w.roundTrip 1 = (some r1, none))
    (h2 : w.roundTrip 2 = (some r2, none))
    (hs0 : r0.StatusCode = 503) (hs1 : r1.StatusCode = 503) (hs2 : r2.StatusCode = 200)
    (hra0 : r0.Header.lookup "Retry-After" ≠ some [])
    (hra1 : r1.Header.lookup "Retry-After" ≠ some [])
    (hbody : r2.Body.length < 1024 * 1024 → r2.BodyErr = none) :
    ∃ d0 d1,
      DefaultBackoff c.b.RetryWaitMin c.b.RetryWaitMax 0 (some r0) = .ok d0 ∧
      DefaultBackoff c.b.RetryWaitMin c.b.RetryWaitMax 1 (some r1) = .ok d1 ∧
      sendsAndWaits (c.DoReq w rq).events =
        [.send 0, .wait 0 d0, .send 1, .wait 1 d1, .send 2] ∧
      sendCount (c.DoReq w rq).events = 3 ∧
      waitsOf (c.DoReq w rq).events = [(0, d0), (1, d1)] ∧
      (c.DoReq w rq).outcome =
        .returned (some { status := r2.Status, statusCode := 200, headers := r2.Header,
                          body := r2.Body.take (1024 * 1024) }) none := by
  obtain ⟨d0, hd0⟩ := DefaultBackoff_ok c.b.RetryWaitMin c.b.RetryWaitMax 0 r0 hra0
  obtain ⟨d1, hd1⟩ := DefaultBackoff_ok c.b.RetryWaitMin c.b.RetryWaitMax 1 r1 hra1
  refine ⟨d0, d1, hd0, hd1, ?_⟩
  have hRM : c.RetryMax = 3 := RetryMax_of_ne_zero hmax (by decide)
  have hp0 : c.b.CheckRetry (w.ctxErrAtCheck 0) (w.roundTrip 0).1 (w.roundTrip 0).2 =
      .ok (true, none) := by
    rw [hpolicy, hctx2 0, h0, DefaultRetryPolicy_response, hs0]; rfl
  have hp1 : c.b.CheckRetry (w.ctxErrAtCheck 1) (w.roundTrip 1).1 (w.roundTrip 1).2 =
      .ok (true, none) := by
    rw [hpolicy, hctx2 1, h1, DefaultRetryPolicy_response, hs1]; rfl
  have hp2 : c.b.CheckRetry (w.ctxErrAtCheck 2) (w.roundTrip 2).1 (w.roundTrip 2).2 =
      .ok (false, none) := by
    rw [hpolicy, hctx2 2, h2, DefaultRetryPolicy_response, hs2]; rfl
  have hb0 := attemptBody_retry c w m rq.URL 0 (hctx1 0) hp0 (by rw [hRM]; decide)
    (by rw [hbackoff, h0]; exact hd0) (hwait 0)
  have hb1 := attemptBody_retry c w m rq.URL 1 (hctx1 1) hp1 (by rw [hRM]; decide)
    (by rw [hbackoff, h1]; exact hd1) (hwait 1)
  have hb2 := attemptBody_noRetry c w m rq.URL 2 (hctx1 2) hp2
  rw [DoReq_of_prelude c w rq hpay hreq, finishRun_sendsAndWaits, finishRun_sendCount,
    finishRun_waitsOf, attemptLoop_succ_next c w m rq.URL hb0]
  simp only [Nat.zero_add]
  rw [attemptLoop_succ_next c w m rq.URL hb1]
  simp only [Nat.reduceAdd]
  rw [attemptLoop_succ_stop c w m rq.URL hb2]
  refine ⟨by simp [sendsAndWaits], by simp [sendCount], by simp [waitsOf], ?_⟩
  rw [finishRun_done, h2, ← hs2]
  exact afterLoop_response c m rq.URL r2 false hbody

/-- C5, witness: the default client with retry limit 3 against the server
that answers 503, 503, 200; the two waits are 1s and 2s. -/
theorem C5_DoReq_two_failures_then_success_witness :
    ((defaultClient 3).b.RetryMax = 3 ∧ (defaultClient 3).b.CheckRetry = DefaultRetryPolicy ∧
      (defaultClient 3).b.Backoff = DefaultBackoff) ∧
    (∃ d0 d1,
      DefaultBackoff (defaultClient 3).b.RetryWaitMin (defaultClient 3).b.RetryWaitMax 0
          (some (sampleResponse 503 "503 Service Unavailable")) = .ok d0 ∧
      DefaultBackoff (defaultClient 3).b.RetryWaitMin (defaultClient 3).b.RetryWaitMax 1
          (some (sampleResponse 503 "503 Service Unavailable")) = .ok d1 ∧
      sendsAndWaits ((defaultClient 3).DoReq twoFailuresThenOK sampleRequest).events =
        [.send 0, .wait 0 d0, .send 1, .wait 1 d1, .send 2] ∧
      sendCount ((defaultClient 3).DoReq twoFailuresThenOK sampleRequest).events = 3 ∧
      waitsOf ((defaultClient 3).DoReq twoFailuresThenOK sampleRequest).events =
        [(0, d0), (1, d1)] ∧
      ((defaultClient 3).DoReq twoFailuresThenOK sampleRequest).outcome =
        .returned (some { status := (sampleResponse 200 "200 OK").Status, statusCode := 200,
                          headers := (sampleResponse 200 "200 OK").Header,
                          body := (sampleResponse 200 "200 OK").Body.take (1024 * 1024) })
          none) ∧
    waitsOf ((defaultClient 3).DoReq twoFailuresThenOK sampleRequest).events =
      [(0, 1 * Second), (1, 2 * Second)] :=
  ⟨⟨rfl, rfl, rfl⟩,
    C5_DoReq_two_failures_then_success (defaultClient 3) twoFailuresThenOK sampleRequest [] "GET"
      (sampleResponse 503 "503 Service Unavailable") (sampleResponse 503 "503 Service Unavailable")
      (sampleResponse 200 "200 OK") rfl rfl rfl rfl (by decide) (fun _ => rfl) (fun _ => rfl)
      (fun _ => rfl) (by decide) (by decide) (by decide) rfl rfl rfl (by decide) (by decide)
      (fun _ => rfl),
    by decide⟩

/-! ## Theorems: payload encoding -/

/-- C18: for a nil body `RequestPayload` returns an empty payload and a nil
error under every content type, `application/xml` and `multipart/form-data`
included. -/
theorem C18_RequestPayload_nil_body (contentType : String) :
    RequestPayload contentType none = .ok [] ∧
    RequestPayload ContentTypeXML none = .ok [] ∧
    RequestPayload "multipart/form-data; boundary=x" none = .ok [] :=
  ⟨rfl, rfl, rfl⟩

/-- A non-nil interface that holds a nil `*bytes.Buffer`, sent under a
multipart content type: the type assertion succeeds, `buf.Bytes()` dereferences
the nil pointer, and `DoReq` panics before any attempt. -/
theorem RequestPayload_nil_buffer_panics (contentType : String) (body : RequestBody)
    (hj : contentType ≠ ContentTypeJSON) (hx : contentType ≠ ContentTypeXML)
    (hc : containsSub "multipart/form-data".toList contentType.toList = true)
    (hb : body.buffer = .nilPointer) :
    RequestPayload contentType (some body) = .panicked .nilDereference ∧
    ∀ (c : httpClient) (w : World) (rq : RequestAttributes),
      Header.Get (c.RequestHeaders rq.Headers) HeaderContentType = contentType →
      rq.Body = some body →
      c.DoReq w rq = { events := [], outcome := .panicked .nilDereference } := by
  have h : RequestPayload contentType (some body) = .panicked .nilDereference := by
    simp only [RequestPayload, hj, hx, hc, hb, if_false, if_true]
  refine ⟨h, fun c w rq hct hbody => ?_⟩
  simp only [httpClient.DoReq, hct, hbody, h]

/-- The panic of `RequestPayload_nil_buffer_panics` on a concrete body and
content type. -/
theorem RequestPayload_nil_buffer_example :
    RequestPayload "multipart/form-data; boundary=x"
        (some { json := .ok [110, 117, 108, 108], xml := .ok [], buffer := .nilPointer }) =
      .panicked .nilDereference := by
  decide

/-- C19, counterexample: the content type "application/x-multipart/form-data"
does not begin with "multipart/form-data" and is neither the JSON nor the XML
type, yet a body that is not a raw buffer is refused with an error and not
encoded as JSON, and a raw buffer is passed through. -/
theorem C19_counterexample_multipart_inside :
    startsWith "multipart/form-data".toList "application/x-multipart/form-data".toList = false ∧
    RequestPayload "application/x-multipart/form-data"
        (some { json := .ok [123, 125], xml := .ok [], buffer := .notBuffer }) =
      .error (.other "some issue") ∧
    RequestPayload "application/x-multipart/form-data"
        (some { json := .ok [123, 125], xml := .ok [], buffer := .holds [1, 2, 3] }) =
      .ok [1, 2, 3] := by
  decide

/-- C19, amended: for a non-nil body, the content type `application/json`
gives the JSON encoding and `application/xml` the XML encoding; any other
content type that contains "multipart/form-data" anywhere gives the bytes of
the buffer unchanged when the body is a non-nil `*bytes.Buffer`, and returns
an error exactly when the dynamic type of the body is not `*bytes.Buffer`;
every remaining content type, the empty one included, gives the JSON
encoding. -/
theorem C19_RequestPayload_by_content_type (contentType : String) (body : RequestBody) :
    (contentType = ContentTypeJSON → RequestPayload contentType (some body) = body.json) ∧
    (contentType = ContentTypeXML → RequestPayload contentType (some body) = body.xml) ∧
    (contentType ≠ ContentTypeJSON → contentType ≠ ContentTypeXML →
      containsSub "multipart/form-data".toList contentType.toList = true →
      (∀ bytes, body.buffer = .holds bytes →
        RequestPayload contentType (some body) = .ok bytes) ∧
      (body.buffer = .notBuffer →
        RequestPayload contentType (some body) = .error (.other "some issue")) ∧
      ((∃ err, RequestPayload contentType (some body) = .error err) ↔
        body.buffer = .notBuffer)) ∧
    (contentType ≠ ContentTypeJSON → contentType ≠ ContentTypeXML →
      containsSub "multipart/form-data".toList contentType.toList = false →
      RequestPayload contentType (some body) = body.json) ∧
    RequestPayload "" (some body) = body.json := by
  refine ⟨?_, ?_, ?_, ?_, ?_⟩
  · intro h
    simp [RequestPayload, h]
  · intro h
    subst h
    simp [RequestPayload, ContentTypeXML, ContentTypeJSON]
  · intro hj hx hc
    have hval : RequestPayload contentType (some body) =
        (match body.buffer with
          | .notBuffer => .error (.other "some issue")
          | .nilPointer => .panicked .nilDereference
          | .holds bytes => .ok bytes) := by
      simp only [RequestPayload, hj, hx, hc, if_false, if_true]
    refine ⟨?_, ?_, ?_⟩
    · intro bytes hb
      rw [hval, hb]
    · intro hb
      rw [hval, hb]
    · rw [hval]
      cases hb : body.buffer with
      | notBuffer => exact ⟨fun _ => rfl, fun _ => ⟨_, rfl⟩⟩
      | nilPointer =>
        refine ⟨?_, fun h => BufferValue.noConfusion h⟩
        rintro ⟨err, h⟩
        exact PayloadResult.noConfusion h
      | holds bytes =>
        refine ⟨?_, fun h => BufferValue.noConfusion h⟩
        rintro ⟨err, h⟩
        exact PayloadResult.noConfusion h
  · intro hj hx hc
    simp only [RequestPayload, hj, hx, hc, if_false, Bool.false_eq_true]
  · rfl

/-- C19, witness: the four branches on concrete content types and bodies. -/
theorem C19_RequestPayload_by_content_type_witness :
    RequestPayload "application/json"
        (some { json := .ok [123, 125], xml := .ok [60, 120, 47, 62], buffer := .notBuffer }) =
      .ok [123, 125] ∧
    RequestPayload "application/xml"
        (some { json := .ok [123, 125], xml := .ok [60, 120, 47, 62], buffer := .notBuffer }) =
      .ok [60, 120, 47, 62] ∧
    RequestPayload "multipart/form-data; boundary=x"
        (some { json := .ok [123, 125], xml := .ok [], buffer := .holds [1, 2, 3] }) =
      .ok [1, 2, 3] ∧
    RequestPayload "multipart/form-data; boundary=x"
        (some { json := .ok [123, 125], xml := .ok [], buffer := .notBuffer }) =
      .error (.other "some issue") ∧
    RequestPayload "text/plain"
        (some { json := .ok [123, 125], xml := .ok [], buffer := .notBuffer }) =
      .ok [123, 125] :=
  ⟨(C19_RequestPayload_by_content_type "application/json"
      { json := .ok [123, 125], xml := .ok [60, 120, 47, 62], buffer := .notBuffer }).1 rfl,
    (C19_RequestPayload_by_content_type "application/xml"
      { json := .ok [123, 125], xml := .ok [60, 120, 47, 62], buffer := .notBuffer }).2.1 rfl,
    ((C19_RequestPayload_by_content_type "multipart/form-data; boundary=x"
      { json := .ok [123, 125], xml := .ok [], buffer := .holds [1, 2, 3] }).2.2.1
        (by decide) (by decide) (by decide)).1 [1, 2, 3] rfl,
    ((C19_RequestPayload_by_content_type "multipart/form-data; boundary=x"
      { json := .ok [123, 125], xml := .ok [], buffer := .notBuffer }).2.2.1
        (by decide) (by decide) (by decide)).2.1 rfl,
    (C19_RequestPayload_by_content_type "text/plain"
      { json := .ok [123, 125], xml := .ok [], buffer := .notBuffer }).2.2.2.1
        (by decide) (by decide) (by decide)⟩

/-! ## Theorems: the default backoff -/

/-- The cases in which `DefaultBackoff` falls through to its exponential
part: no response, a status other than 429 and 503, no `Retry-After` key, or
a first `Retry-After` value that `strconv.ParseInt` refuses. -/
theorem DefaultBackoff_exponential (lo hi : Duration) (n : Int) (resp : Option Response)
    (hresp : resp = none ∨ ∃ r, resp = some r ∧
      (¬ (r.StatusCode = 429 ∨ r.StatusCode = 503) ∨
        r.Header.lookup "Retry-After" = none ∨
        ∃ s0 rest, r.Header.lookup "Retry-After" = some (s0 :: rest) ∧ ParseInt s0 = none)) :
    DefaultBackoff lo hi n resp = .ok (exponentialSleep lo hi n) := by
  rcases hresp with h | ⟨r, h, hr⟩
  · subst h; rfl
  · subst h
    rcases hr with hs | hl | ⟨s0, rest, hl, hp⟩
    · simp only [DefaultBackoff, if_neg hs]
    · simp only [DefaultBackoff, hl]
      split <;> rfl
    · simp only [DefaultBackoff, hl, hp]
      split <;> rfl

/-- The conversion to float64 is exact below 2^53. -/
theorem float64OfInt_small {z : Int} (h0 : 0 ≤ z) (h : z < 2 ^ 53) : float64OfInt z = z := by
  unfold float64OfInt roundNat53
  have h1 : z.natAbs < 2 ^ 53 := by omega
  rw [if_neg (by omega), if_pos h1]
  omega

/-- Rounding to 53 bits does not turn a positive number into zero. -/
theorem roundNat53_pos {a : Nat} (h : 1 ≤ a) : 1 ≤ roundNat53 a := by
  unfold roundNat53
  by_cases hs : a < 2 ^ 53
  · rw [if_pos hs]; exact h
  · rw [if_neg hs]
    simp only
    have hlog : 2 ^ Nat.log2 a ≤ a := Nat.log2_self_le (by omega)
    have he : Nat.log2 a - 52 ≤ Nat.log2 a := Nat.sub_le _ _
    have hpow : 2 ^ (Nat.log2 a - 52) ≤ a :=
      le_trans (Nat.pow_le_pow_right (by decide) he) hlog
    have hq : 1 ≤ a / 2 ^ (Nat.log2 a - 52) :=
      (Nat.one_le_div_iff (Nat.pos_pow_of_pos _ (by decide))).mpr hpow
    have hpos : 1 ≤ 2 ^ (Nat.log2 a - 52) := Nat.one_le_two_pow
    split
    · exact Nat.one_le_iff_ne_zero.mpr (Nat.mul_ne_zero (by omega) (by omega))
    · exact Nat.one_le_iff_ne_zero.mpr (Nat.mul_ne_zero (by omega) (by omega))

theorem float64OfInt_zero : float64OfInt 0 = 0 := by decide

theorem float64OfInt_pos {z : Int} (h : 1 ≤ z) : 1 ≤ float64OfInt z := by
  unfold float64OfInt
  rw [if_neg (by omega)]
  have := roundNat53_pos (a := z.natAbs) (by omega)
  omega

/-- The exponential part of `DefaultBackoff` for a non-negative attempt
number and `0 <= lo <= hi`: the smaller of `float64(lo) * 2^n` and `hi`,
except that `lo = 0` with `n >= 1024` (where the product is NaN) gives `hi`. -/
theorem exponentialSleep_of_nonneg (lo hi : Int) (n : Nat) (h0 : 0 ≤ lo)
    (hhi : hi < 2 ^ 63) :
    exponentialSleep lo hi (n : Int) =
      if lo = 0 ∧ 1024 ≤ n then hi else min (float64OfInt lo * 2 ^ n) hi := by
  have hf0 : 0 ≤ float64OfInt lo := by
    rcases eq_or_lt_of_le h0 with h | h
    · rw [← h, float64OfInt_zero]
    · have := float64OfInt_pos (z := lo) (by omega)
      omega
  have hpow : (0 : Int) < 2 ^ n := by positivity
  unfold exponentialSleep
  simp only [Int.toNat_ofNat]
  by_cases hbig : (n : Int) ≥ 1024
  · rw [if_pos hbig]
    have hn : 1024 ≤ n := by omega
    by_cases hz : lo = 0
    · rw [if_pos ⟨hz, hn⟩]
    · rw [if_neg (fun h => hz h.1)]
      have hf1 : 1 ≤ float64OfInt lo := float64OfInt_pos (by omega)
      have h63 : (2 : Int) ^ 63 ≤ 2 ^ n := pow_le_pow_right₀ (by norm_num) (by omega)
      have hprod : (2 : Int) ^ n ≤ float64OfInt lo * 2 ^ n := by nlinarith
      rw [min_eq_right (by omega)]
  · have hrhs : (if lo = 0 ∧ 1024 ≤ n then hi else min (float64OfInt lo * 2 ^ n) hi) =
        min (float64OfInt lo * 2 ^ n) hi := if_neg (fun h => hbig (by omega))
    have hn0 : (n : Int) ≥ 0 := by omega
    have hm0 : 0 ≤ float64OfInt lo * 2 ^ n := by positivity
    rw [hrhs, if_neg hbig, if_pos hn0]
    by_cases hr : float64OfInt lo * 2 ^ n < 2 ^ 63
    · have hcond : -(2 ^ 63) ≤ float64OfInt lo * 2 ^ n ∧ float64OfInt lo * 2 ^ n < 2 ^ 63 :=
        ⟨le_trans (by norm_num) hm0, hr⟩
      rw [if_pos hcond]
      by_cases hgt : float64OfInt lo * 2 ^ n > hi
      · rw [if_pos hgt, min_eq_right (le_of_lt hgt)]
      · rw [if_neg hgt, min_eq_left (not_lt.mp hgt)]
    · have hcond : ¬ (-(2 ^ 63) ≤ float64OfInt lo * 2 ^ n ∧ float64OfInt lo * 2 ^ n < 2 ^ 63) :=
        fun h => hr h.2
      rw [if_neg hcond, min_eq_right (le_trans (le_of_lt hhi) (not_lt.mp hr))]

/-- The conversion `float64(2^53 + 1)` rounds to even: the result is `2^53`. -/
theorem roundNat53_example : roundNat53 9007199254740993 = 9007199254740992 := by
  have h1 : Nat.log2 9007199254740993 < 54 := (Nat.log2_lt (by norm_num)).mpr (by norm_num)
  have h2 : ¬ Nat.log2 9007199254740993 < 53 := fun h => by
    have := (Nat.log2_lt (by norm_num)).mp h
    norm_num at this
  have hlog : Nat.log2 9007199254740993 = 53 := by omega
  unfold roundNat53
  rw [hlog]
  decide

/-- C11, counterexample: without a response, `DefaultBackoff(0, 30s, 1024)`
is 30s although `0 * 2^1024 = 0` is the smaller of the two and nothing
overflows (the float64 product of zero and +Inf is NaN); and
`DefaultBackoff(lo, lo, 0)` for `lo = 2^53 + 1 = 9007199254740993` is
`2^53`, not `lo`, because `float64(2^53 + 1)` is `2^53`. -/
theorem C11_counterexample_zero_and_rounding :
    (DefaultBackoff 0 (30 * Second) 1024 none = .ok (30 * Second) ∧
      min ((0 : Int) * 2 ^ 1024) (30 * Second) = 0) ∧
    (DefaultBackoff 9007199254740993 9007199254740993 0 none = .ok 9007199254740992 ∧
      min ((9007199254740993 : Int) * 2 ^ 0) 9007199254740993 = 9007199254740993) := by
  refine ⟨⟨by decide, by norm_num [Second]⟩, ⟨?_, by norm_num⟩⟩
  have hf : float64OfInt 9007199254740993 = 9007199254740992 := by
    unfold float64OfInt
    rw [if_neg (by norm_num)]
    have hn : Int.natAbs 9007199254740993 = 9007199254740993 := rfl
    rw [hn, roundNat53_example]
    rfl
  show Except.ok (exponentialSleep 9007199254740993 9007199254740993 0) = _
  unfold exponentialSleep
  rw [hf]
  decide

/-- C11, amended: for every attempt number `n >= 0`, every `0 <= lo <= hi`
and a response without usable `Retry-After`, `DefaultBackoff(lo, hi, n, resp)`
is the smaller of `float64(lo) * 2^n` and `hi`, except that it is `hi` for
`lo = 0` and `n >= 1024`. Here `float64(lo)` is `lo` rounded to a 53-bit
significand; it is `lo` itself for every `lo` below 2^53 ns. So whenever `lo`
is exactly representable, and `lo > 0` or `n < 1024`, the result is the
smaller of `lo * 2^n` and `hi`, which is `hi` when `lo * 2^n` leaves the
duration range. -/
theorem C11_DefaultBackoff_exponential_formula (lo hi : Int) (n : Nat) (resp : Option Response)
    (h0 : 0 ≤ lo) (_hle : lo ≤ hi) (hhi : hi < 2 ^ 63)
    (hresp : resp = none ∨ ∃ r, resp = some r ∧
      (¬ (r.StatusCode = 429 ∨ r.StatusCode = 503) ∨
        r.Header.lookup "Retry-After" = none ∨
        ∃ s0 rest, r.Header.lookup "Retry-After" = some (s0 :: rest) ∧ ParseInt s0 = none)) :
    DefaultBackoff lo hi (n : Int) resp =
        .ok (if lo = 0 ∧ 1024 ≤ n then hi else min (float64OfInt lo * 2 ^ n) hi) ∧
    (lo < 2 ^ 53 → float64OfInt lo = lo) ∧
    (float64OfInt lo = lo → 0 < lo ∨ n < 1024 →
      DefaultBackoff lo hi (n : Int) resp = .ok (min (lo * 2 ^ n) hi)) ∧
    (2 ^ 63 ≤ lo * 2 ^ n → min (lo * 2 ^ n) hi = hi) := by
  have hmain : DefaultBackoff lo hi (n : Int) resp =
      .ok (if lo = 0 ∧ 1024 ≤ n then hi else min (float64OfInt lo * 2 ^ n) hi) := by
    rw [DefaultBackoff_exponential lo hi n resp hresp, exponentialSleep_of_nonneg lo hi n h0 hhi]
  refine ⟨hmain, fun h => float64OfInt_small h0 h, ?_, ?_⟩
  · intro hexact hcase
    rw [hmain, hexact]
    have hne : ¬ (lo = 0 ∧ 1024 ≤ n) := by
      rintro ⟨h1, h2⟩
      omega
    rw [if_neg hne]
  · intro hover
    exact min_eq_right (le_trans (le_of_lt hhi) hover)

/-- C11, witness: `lo` = 1s and `hi` = 5min without a response give 1s, 2s,
4s, 8s for `n` = 0..3 and 5min for `n` = 63 and `n` = 128. -/
theorem C11_DefaultBackoff_exponential_formula_witness :
    ((0 : Int) ≤ Second ∧ Second ≤ 300 * Second ∧ 300 * Second < 2 ^ 63 ∧
      float64OfInt Second = Second) ∧
    DefaultBackoff Second (300 * Second) ((0 : Nat) : Int) none =
      .ok (min (Second * 2 ^ 0) (300 * Second)) ∧
    DefaultBackoff Second (300 * Second) 0 none = .ok (1 * Second) ∧
    DefaultBackoff Second (300 * Second) 1 none = .ok (2 * Second) ∧
    DefaultBackoff Second (300 * Second) 2 none = .ok (4 * Second) ∧
    DefaultBackoff Second (300 * Second) 3 none = .ok (8 * Second) ∧
    DefaultBackoff Second (300 * Second) 63 none = .ok (300 * Second) ∧
    DefaultBackoff Second (300 * Second) 128 none = .ok (300 * Second) :=
  ⟨⟨by decide, by decide, by decide, by decide⟩,
    (C11_DefaultBackoff_exponential_formula Second (300 * Second) 0 none (by decide) (by decide)
      (by decide) (Or.inl rfl)).2.2.1 (by decide) (Or.inl (by decide)),
    by decide, by decide, by decide, by decide, by decide, by decide⟩

/-- C12, counterexample: a 429 with `Retry-After: 9223372037` parses, but the
wait is not 9223372037 seconds: the product with `time.Second` wraps around
to a negative duration. -/
theorem C12_counterexample_seconds_overflow :
    ParseInt "9223372037" = some 9223372037 ∧
    DefaultBackoff Second (30 * Second) 0
        (some { Status := "429 Too Many Requests", StatusCode := 429,
                Header := [("Retry-After", ["9223372037"])], Body := [], BodyErr := none }) =
      .ok (-9223372036709551616) ∧
    (-9223372036709551616 : Int) ≠ 9223372037 * Second := by
  decide

/-- C12, amended: for a response with status 429 or 503 whose first
`Retry-After` value parses as a base-10 integer `s`, `DefaultBackoff` returns
`s` seconds wrapped to 64 bits, for every `lo`, `hi` and attempt number; that
is exactly `s` seconds when `s` seconds fit a duration
(`-9223372036 <= s <= 9223372036`). For any other status, without the
header, or with a first value that does not parse, the header is ignored and
the exponential formula applies. -/
theorem C12_DefaultBackoff_retry_after (lo hi : Duration) (n : Int) (r : Response) :
    (∀ (s0 : String) (rest : List String) (s : Int),
      r.StatusCode = 429 ∨ r.StatusCode = 503 →
      r.Header.lookup "Retry-After" = some (s0 :: rest) → ParseInt s0 = some s →
      DefaultBackoff lo hi n (some r) = .ok (wrapInt64 (Second * s)) ∧
      (-9223372036 ≤ s → s ≤ 9223372036 →
        DefaultBackoff lo hi n (some r) = .ok (s * Second))) ∧
    (¬ (r.StatusCode = 429 ∨ r.StatusCode = 503) →
      DefaultBackoff lo hi n (some r) = .ok (exponentialSleep lo hi n)) ∧
    (r.Header.lookup "Retry-After" = none →
      DefaultBackoff lo hi n (some r) = .ok (exponentialSleep lo hi n)) ∧
    (∀ (s0 : String) (rest : List String),
      r.Header.lookup "Retry-After" = some (s0 :: rest) → ParseInt s0 = none →
      DefaultBackoff lo hi n (some r) = .ok (exponentialSleep lo hi n)) := by
  refine ⟨?_, ?_, ?_, ?_⟩
  · intro s0 rest s hs hl hp
    have hmain : DefaultBackoff lo hi n (some r) = .ok (wrapInt64 (Second * s)) := by
      simp only [DefaultBackoff, if_pos hs, hl, hp]
    refine ⟨hmain, ?_⟩
    intro h1 h2
    rw [hmain, wrapInt64_of_range (by unfold Second; omega) (by unfold Second; omega)]
    rw [mul_comm]
  · intro hs
    exact DefaultBackoff_exponential lo hi n (some r) (Or.inr ⟨r, rfl, Or.inl hs⟩)
  · intro hl
    exact DefaultBackoff_exponential lo hi n (some r) (Or.inr ⟨r, rfl, Or.inr (Or.inl hl)⟩)
  · intro s0 rest hl hp
    exact DefaultBackoff_exponential lo hi n (some r)
      (Or.inr ⟨r, rfl, Or.inr (Or.inr ⟨s0, rest, hl, hp⟩)⟩)

/-- C12, witness: the response of the test suite, 429 with `Retry-After: 120`,
gives 120s at attempt number 1. -/
theorem C12_DefaultBackoff_retry_after_witness :
    ((429 : Int) = 429 ∨ (429 : Int) = 503) ∧
    Header.lookup [("Retry-After", ["120"])] "Retry-After" = some ("120" :: []) ∧
    ParseInt "120" = some 120 ∧
    DefaultBackoff Second (300 * Second) 1
        (some { Status := "", StatusCode := 429, Header := [("Retry-After", ["120"])],
                Body := [], BodyErr := none }) = .ok (120 * Second) :=
  ⟨Or.inl rfl, by decide, by decide,
    ((C12_DefaultBackoff_retry_after Second (300 * Second) 1
        { Status := "", StatusCode := 429, Header := [("Retry-After", ["120"])],
          Body := [], BodyErr := none }).1 "120" [] 120 (Or.inl rfl) (by decide) (by decide)).2
      (by decide) (by decide)⟩

/-! ## Lemmas: the state after the loop -/

/-- When the loop is left by `break` or by its bound, the loop-carried
variables are those of the last attempt sent: its response, its transport
error and the verdict of the policy on it. -/
theorem attemptLoop_done (c : httpClient) (w : World) (m u : String) :
    ∀ (fuel i : Nat) (st st1 : LoopState),
      (attemptLoop c w m u fuel i st).2 = .done st1 →
      (fuel = 0 ∧ st1 = st) ∨
      ∃ k sr ce, sendCount (attemptLoop c w m u fuel i st).1 + i = k + 1 ∧
        w.ctxErrAfterDo k = none ∧
        c.b.CheckRetry (w.ctxErrAtCheck k) (w.roundTrip k).1 (w.roundTrip k).2 = .ok (sr, ce) ∧
        st1 = { resp := (w.roundTrip k).1, doErr := (w.roundTrip k).2, checkErr := ce,
                shouldRetry := sr } := by
  intro fuel
  induction fuel with
  | zero =>
    intro i st st1 h
    left
    simp only [attemptLoop, LoopEnd.done.injEq] at h
    exact ⟨rfl, h.symm⟩
  | succ fuel ih =>
    intro i st st1 h
    right
    rcases attemptBody_cases c w m u i with ⟨e, _, hb⟩ | ⟨_, p, _, hb⟩ | ⟨h0, ce, hp, hb⟩ |
      ⟨h0, ce, hp, _, hb⟩ | ⟨_, ce, p, _, _, _, hb⟩ | ⟨_, ce, d, e, _, _, _, _, hb⟩ |
      ⟨h0, ce, d, hp, _, _, _, hb⟩
    · have hend : (attemptBody c w m u i).2.toLoopEnd = some (.returned (sendError e)) := by
        rw [hb]; rfl
      rw [attemptLoop_succ_end c w m u hend] at h
      simp at h
    · have hend : (attemptBody c w m u i).2.toLoopEnd = some (.panicked p) := by
        rw [hb]; rfl
      rw [attemptLoop_succ_end c w m u hend] at h
      simp at h
    · rw [attemptLoop_succ_stop c w m u hb] at h ⊢
      simp only [LoopEnd.done.injEq] at h
      exact ⟨i, false, ce, by simp [sendCount]; omega, h0, hp, h.symm⟩
    · rw [attemptLoop_succ_stop c w m u hb] at h ⊢
      simp only [LoopEnd.done.injEq] at h
      exact ⟨i, true, ce, by simp [sendCount]; omega, h0, hp, h.symm⟩
    · have hend : (attemptBody c w m u i).2.toLoopEnd = some (.panicked p) := by
        rw [hb]; rfl
      rw [attemptLoop_succ_end c w m u hend] at h
      simp at h
    · have hend : (attemptBody c w m u i).2.toLoopEnd = some (.returned (sendError e)) := by
        rw [hb]; rfl
      rw [attemptLoop_succ_end c w m u hend] at h
      simp at h
    · rw [attemptLoop_succ_next c w m u hb] at h ⊢
      simp only at h
      rcases ih (i + 1) _ st1 h with ⟨hf, hst⟩ | ⟨k, sr, ce1, hcount, hk0, hkp, hst⟩
      · subst hf
        refine ⟨i, true, ce, ?_, h0, hp, hst⟩
        simp [attemptLoop, sendCount]
        omega
      · refine ⟨k, sr, ce1, ?_, hk0, hkp, hst⟩
        have hcount1 := attemptBody_sendCount c w m u i
        rw [hb] at hcount1
        rw [sendCount_append, hcount1]
        omega

/-- The loop sends at least one attempt. -/
theorem attemptLoop_sendCount_pos (c : httpClient) (w : World) (m u : String) (fuel i : Nat)
    (st : LoopState) : 1 ≤ sendCount (attemptLoop c w m u (fuel + 1) i st).1 := by
  cases hend : (attemptBody c w m u i).2.toLoopEnd with
  | some r =>
    rw [attemptLoop_succ_end c w m u hend]
    exact le_of_eq (attemptBody_sendCount c w m u i).symm
  | none =>
    cases hbody : attemptBody c w m u i with
    | mk ev e =>
      rw [hbody] at hend
      have hcount : sendCount ev = 1 := by
        have := attemptBody_sendCount c w m u i
        rw [hbody] at this
        exact this
      cases e with
      | next st1 =>
        rw [attemptLoop_succ_next c w m u hbody, sendCount_append, hcount]
        omega
      | stop st1 => simp [StepEnd.toLoopEnd] at hend
      | returned err => simp [StepEnd.toLoopEnd] at hend
      | panicked p => simp [StepEnd.toLoopEnd] at hend

/-- What a successful read of the body returns: the body, cut at 1 MiB. -/
theorem readAllLimited_eq_take {r : Response} {bs : List UInt8}
    (h : readAllLimited r = .ok bs) :
    bs = r.Body.take (min r.Body.length 1048576) := by
  unfold readAllLimited at h
  by_cases hlen : r.Body.length < 1024 * 1024
  · rw [if_pos hlen] at h
    cases hbe : r.BodyErr with
    | some e => rw [hbe] at h; simp at h
    | none =>
      rw [hbe] at h
      simp only [Except.ok.injEq] at h
      rw [← h, min_eq_left (by omega), List.take_length]
  · rw [if_neg hlen] at h
    simp only [Except.ok.injEq] at h
    rw [← h, min_eq_right (by omega)]

/-- A response is wrapped only by the last branch of the code after the loop:
no policy error, no transport error, a response, and a body read without
error. -/
theorem afterLoop_returned_some (c : httpClient) (m u : String) (st : LoopState)
    {attrs : ResponseAttributes} {err : Option GoError}
    (h : (afterLoop c m u st).2 = .returned (some attrs) err) :
    err = none ∧ st.checkErr = none ∧ st.doErr = none ∧
    ∃ r bs, st.resp = some r ∧ readAllLimited r = .ok bs ∧
      attrs = { status := r.Status, statusCode := r.StatusCode, headers := r.Header,
                body := bs } := by
  unfold afterLoop at h
  cases hce : st.checkErr with
  | some e => rw [hce] at h; simp at h
  | none =>
    cases hde : st.doErr with
    | some e => rw [hce, hde] at h; simp at h
    | none =>
      cases hr : st.resp with
      | none => rw [hce, hde, hr] at h; simp at h
      | some r =>
        cases hread : readAllLimited r with
        | error e => rw [hce, hde, hr] at h; simp [hread] at h
        | ok bs =>
          rw [hce, hde, hr] at h
          simp only [hread, Outcome.returned.injEq, Option.some.injEq] at h
          exact ⟨h.2.symm, rfl, rfl, r, bs, rfl, hread, h.1.symm⟩

/-- A call that returns a response got past the payload encoding and the
request construction, left its loop by `break` or by the bound, and wrapped
the response in the code after the loop. -/
theorem DoReq_returned_some (c : httpClient) (w : World) (rq : RequestAttributes)
    {attrs : ResponseAttributes} {err : Option GoError}
    (h : (c.DoReq w rq).outcome = .returned (some attrs) err) :
    ∃ m st, c.DoReq w rq = finishRun c m rq.URL (attemptLoop c w m rq.URL 3 0 initialState) ∧
      (attemptLoop c w m rq.URL 3 0 initialState).2 = .done st ∧
      (afterLoop c m rq.URL st).2 = .returned (some attrs) err := by
  cases hpay : RequestPayload (Header.Get (c.RequestHeaders rq.Headers) HeaderContentType)
      rq.Body with
  | panicked p => simp [httpClient.DoReq, hpay] at h
  | error e => simp [httpClient.DoReq, hpay] at h
  | ok p =>
    cases hreq : NewRequestWithContext w rq.Method rq.URL with
    | error e => simp [httpClient.DoReq, hpay, hreq] at h
    | ok m =>
      have hrun := DoReq_of_prelude c w rq hpay hreq
      rw [hrun] at h
      cases hloop : attemptLoop c w m rq.URL 3 0 initialState with
      | mk ev e =>
        rw [hloop] at h
        cases e with
        | returned e1 => simp [finishRun] at h
        | panicked p1 => simp [finishRun] at h
        | done st => exact ⟨m, st, hrun, by rw [hloop], h⟩

/-! ## Theorems: the response body cap -/

/-- C15: whenever `DoReq` returns a `ResponseAttributes`, the error is nil
and the body it carries is exactly the first `min(L, 1048576)` bytes of the
body (of length `L`) of the response to the last attempt sent; and when the
loop ends with a response of more than 1 MiB and neither a policy error nor a
transport error, `DoReq` returns the first 1048576 bytes with a nil error,
whatever the rest of the body stream does. -/
theorem C15_DoReq_body_capped_at_one_MiB (c : httpClient) (w : World) (rq : RequestAttributes) :
    (∀ (attrs : ResponseAttributes) (err : Option GoError),
      (c.DoReq w rq).outcome = .returned (some attrs) err →
      err = none ∧
      ∃ k r, sendCount (c.DoReq w rq).events = k + 1 ∧ (w.roundTrip k).1 = some r ∧
        attrs.body = r.Body.take (min r.Body.length 1048576) ∧
        attrs.body.length = min r.Body.length 1048576) ∧
    (∀ (p : List UInt8) (m : String) (st : LoopState) (r : Response),
      RequestPayload (Header.Get (c.RequestHeaders rq.Headers) HeaderContentType) rq.Body
        = .ok p →
      NewRequestWithContext w rq.Method rq.URL = .ok m →
      (attemptLoop c w m rq.URL 3 0 initialState).2 = .done st →
      st.checkErr = none → st.doErr = none → st.resp = some r →
      1048576 < r.Body.length →
      (c.DoReq w rq).outcome =
        .returned (some { status := r.Status, statusCode := r.StatusCode, headers := r.Header,
                          body := r.Body.take 1048576 }) none) := by
  refine ⟨?_, ?_⟩
  · intro attrs err h
    obtain ⟨m, st, hrun, hdone, hafter⟩ := DoReq_returned_some c w rq h
    obtain ⟨herr, _, _, r, bs, hresp, hread, hattrs⟩ := afterLoop_returned_some c m rq.URL st hafter
    refine ⟨herr, ?_⟩
    rcases attemptLoop_done c w m rq.URL 3 0 initialState st hdone with ⟨h3, _⟩ |
      ⟨k, sr, ce, hcount, _, _, hst⟩
    · omega
    · refine ⟨k, r, ?_, ?_, ?_, ?_⟩
      · rw [hrun, finishRun_sendCount]
        omega
      · rw [hst] at hresp
        exact hresp
      · rw [hattrs]
        exact readAllLimited_eq_take hread
      · rw [hattrs]
        simp only
        rw [readAllLimited_eq_take hread, List.length_take]
        omega
  · intro p m st r hpay hreq hdone hce hde hresp hlong
    rw [DoReq_of_prelude c w rq hpay hreq, finishRun_outcome_done c m rq.URL _ hdone]
    have hst : st = { resp := some r, doErr := none, checkErr := none,
                      shouldRetry := st.shouldRetry } := by
      cases st
      simp only at hce hde hresp
      simp [hce, hde, hresp]
    rw [hst]
    exact afterLoop_response c m rq.URL r st.shouldRetry (fun hlt => by omega)

/-- The sample oversize body is longer than 1 MiB. -/
theorem oversizeBody_length : 1048576 < (okResponse oversizeBody none).Body.length := by
  show 1048576 < (List.replicate 1048577 (0 : UInt8)).length
  rw [List.length_replicate]
  norm_num

/-- C15, witness: a 200 response with a three-byte body is returned whole, and
one with a body of 1 MiB and one byte is cut to 1 MiB without error. -/
theorem C15_DoReq_body_capped_at_one_MiB_witness :
    (((defaultClient 1).DoReq (alwaysAnswers (okResponse [1, 2, 3] none)) sampleRequest).outcome =
        .returned (some { status := "200 OK", statusCode := 200, headers := [],
                          body := [1, 2, 3] }) none ∧
      ((none : Option GoError) = none ∧
        ∃ k r, sendCount ((defaultClient 1).DoReq (alwaysAnswers (okResponse [1, 2, 3] none))
            sampleRequest).events = k + 1 ∧
          ((alwaysAnswers (okResponse [1, 2, 3] none)).roundTrip k).1 = some r ∧
          ([1, 2, 3] : List UInt8) = r.Body.take (min r.Body.length 1048576) ∧
          ([1, 2, 3] : List UInt8).length = min r.Body.length 1048576)) ∧
    (1048576 < (okResponse oversizeBody none).Body.length ∧
      ((defaultClient 1).DoReq (alwaysAnswers (okResponse oversizeBody none))
          sampleRequest).outcome =
        .returned (some { status := "200 OK", statusCode := 200, headers := [],
                          body := oversizeBody.take 1048576 }) none) :=
  ⟨⟨by decide,
      (C15_DoReq_body_capped_at_one_MiB (defaultClient 1)
        (alwaysAnswers (okResponse [1, 2, 3] none)) sampleRequest).1
        { status := "200 OK", statusCode := 200, headers := [], body := [1, 2, 3] } none
        (by decide)⟩,
    ⟨oversizeBody_length,
      (C15_DoReq_body_capped_at_one_MiB (defaultClient 1)
        (alwaysAnswers (okResponse oversizeBody none)) sampleRequest).2 [] "GET"
        { resp := some (okResponse oversizeBody none), doErr := none, checkErr := none,
          shouldRetry := false }
        (okResponse oversizeBody none) rfl (by decide) rfl rfl rfl rfl oversizeBody_length⟩⟩

/-! ## Theorems: the result after the loop -/

/-- C16, counterexample: the server answers 200 and the connection breaks
while the three-byte body is read. There is neither a policy error nor a
transport error, yet `DoReq` returns no `ResponseAttributes` but the read
error. -/
theorem C16_counterexample_body_read_error :
    (attemptLoop (defaultClient 1)
        (alwaysAnswers (okResponse [1, 2, 3] (some (.other "unexpected EOF")))) "GET"
        sampleRequest.URL 3 0 initialState).2 =
      .done { resp := some (okResponse [1, 2, 3] (some (.other "unexpected EOF"))),
              doErr := none, checkErr := none, shouldRetry := false } ∧
    ((defaultClient 1).DoReq
        (alwaysAnswers (okResponse [1, 2, 3] (some (.other "unexpected EOF"))))
        sampleRequest).outcome =
      .returned none (some (.other "unexpected EOF")) := by
  decide

/-- C16, amended: when the attempt loop is left by `break` or by its bound
(no context cancellation and no panic inside it), the loop-carried variables
are those of the last attempt sent, and `DoReq` returns: a failure carrying
the policy error of that attempt if it is non-nil; otherwise a failure
carrying its transport error if that is non-nil; otherwise, for a response
whose body is read without error, a nil error and a `ResponseAttributes` with
the status text, status code and headers of that response and the first
1 MiB at most of its body; and for a body whose read fails before 1 MiB, the
read error. So whenever the last attempt has a policy error or a transport
error, `DoReq` returns a non-nil error. -/
theorem C16_DoReq_result_after_loop (c : httpClient) (w : World) (rq : RequestAttributes)
    (p : List UInt8) (m : String) (st : LoopState)
    (hpay : RequestPayload (Header.Get (c.RequestHeaders rq.Headers) HeaderContentType) rq.Body
      = .ok p)
    (hreq : NewRequestWithContext w rq.Method rq.URL = .ok m)
    (hloop : (attemptLoop c w m rq.URL 3 0 initialState).2 = .done st) :
    (∃ k sr, sendCount (c.DoReq w rq).events = k + 1 ∧ w.ctxErrAfterDo k = none ∧
      c.b.CheckRetry (w.ctxErrAtCheck k) (w.roundTrip k).1 (w.roundTrip k).2 =
        .ok (sr, st.checkErr) ∧
      st.resp = (w.roundTrip k).1 ∧ st.doErr = (w.roundTrip k).2) ∧
    (∀ e, st.checkErr = some e →
      (c.DoReq w rq).outcome =
        .returned none (some (.other ("check retry policy: " ++ e.Error)))) ∧
    (∀ e, st.checkErr = none → st.doErr = some e →
      (c.DoReq w rq).outcome =
        .returned none (some (.other ("http client.Do: " ++ e.Error)))) ∧
    (∀ r, st.checkErr = none → st.doErr = none → st.resp = some r →
      (r.Body.length < 1024 * 1024 → r.BodyErr = none) →
      (c.DoReq w rq).outcome =
        .returned (some { status := r.Status, statusCode := r.StatusCode, headers := r.Header,
                          body := r.Body.take (1024 * 1024) }) none) ∧
    (∀ r e, st.checkErr = none → st.doErr = none → st.resp = some r →
      r.Body.length < 1024 * 1024 → r.BodyErr = some e →
      (c.DoReq w rq).outcome = .returned none (some e)) ∧
    (st.checkErr ≠ none ∨ st.doErr ≠ none →
      ∃ e, (c.DoReq w rq).outcome = .returned none (some e)) := by
  have hout : (c.DoReq w rq).outcome = (afterLoop c m rq.URL st).2 := by
    rw [DoReq_of_prelude c w rq hpay hreq, finishRun_outcome_done c m rq.URL _ hloop]
  have hpolicy : ∀ e, st.checkErr = some e →
      (afterLoop c m rq.URL st).2 =
        .returned none (some (.other ("check retry policy: " ++ e.Error))) := by
    intro e he
    simp [afterLoop, he]
  have htransport : ∀ e, st.checkErr = none → st.doErr = some e →
      (afterLoop c m rq.URL st).2 =
        .returned none (some (.other ("http client.Do: " ++ e.Error))) := by
    intro e hce he
    simp [afterLoop, hce, he]
  refine ⟨?_, ?_, ?_, ?_, ?_, ?_⟩
  · rcases attemptLoop_done c w m rq.URL 3 0 initialState st hloop with ⟨h3, _⟩ |
      ⟨k, sr, ce, hcount, hctx, hpol, hst⟩
    · omega
    · refine ⟨k, sr, ?_, hctx, ?_, ?_, ?_⟩
      · rw [DoReq_of_prelude c w rq hpay hreq, finishRun_sendCount]
        omega
      · rw [hst]; exact hpol
      · rw [hst]
      · rw [hst]
  · intro e he
    rw [hout, hpolicy e he]
  · intro e hce he
    rw [hout, htransport e hce he]
  · intro r hce hde hr hbody
    rw [hout]
    have hst : st = { resp := some r, doErr := none, checkErr := none,
                      shouldRetry := st.shouldRetry } := by
      cases st
      simp only at hce hde hr
      simp [hce, hde, hr]
    rw [hst]
    exact afterLoop_response c m rq.URL r st.shouldRetry hbody
  · intro r e hce hde hr hlen hbe
    rw [hout]
    simp [afterLoop, hce, hde, hr, readAllLimited, hlen, hbe]
  · intro h
    rw [hout]
    cases hce : st.checkErr with
    | some e => exact ⟨_, hpolicy e hce⟩
    | none =>
      cases hde : st.doErr with
      | some e => exact ⟨_, htransport e hce hde⟩
      | none =>
        rcases h with h | h
        · exact absurd hce h
        · exact absurd hde h

/-- C16, witness: two attempts allowed, a server that always answers 503 and
the policy `propagatingPolicy`: the loop ends after the second attempt with
its policy error, which `DoReq` returns. -/
theorem C16_DoReq_result_after_loop_witness :
    (attemptLoop (propagatingClient 2) alwaysUnavailable "GET" sampleRequest.URL 3 0
        initialState).2 =
      .done { resp := some (sampleResponse 503 "503 Service Unavailable"), doErr := none,
              checkErr := some (.other "unexpected HTTP status 503 Service Unavailable"),
              shouldRetry := true } ∧
    ((propagatingClient 2).DoReq alwaysUnavailable sampleRequest).outcome =
      .returned none (some (.other ("check retry policy: " ++
        (GoError.other "unexpected HTTP status 503 Service Unavailable").Error))) :=
  ⟨by decide,
    (C16_DoReq_result_after_loop (propagatingClient 2) alwaysUnavailable sampleRequest [] "GET"
      { resp := some (sampleResponse 503 "503 Service Unavailable"), doErr := none,
        checkErr := some (.other "unexpected HTTP status 503 Service Unavailable"),
        shouldRetry := true }
      rfl (by decide) (by decide)).2.1
      (.other "unexpected HTTP status 503 Service Unavailable") rfl⟩

/-! ## Theorems: requests that are empty or refused -/

/-- A request that `NewRequestWithContext` refuses: `DoReq` does not look at
the error, assigns to `req.Header` on the nil request and panics before any
attempt. -/
theorem DoReq_rejected_request_panics (c : httpClient) (w : World) (rq : RequestAttributes)
    {p : List UInt8} {e : GoError}
    (hpay : RequestPayload (Header.Get (c.RequestHeaders rq.Headers) HeaderContentType) rq.Body
      = .ok p)
    (hreq : NewRequestWithContext w rq.Method rq.URL = .error e) :
    c.DoReq w rq = { events := [], outcome := .panicked .nilDereference } := by
  simp [httpClient.DoReq, hpay, hreq]

/-- The method "BAD METHOD" is refused, and `DoReq` panics on it. -/
theorem DoReq_bad_method_panics :
    (defaultClient 1).DoReq alwaysUnavailable badMethodRequest =
      { events := [], outcome := .panicked .nilDereference } := by
  decide

/-- The request that is built for a method that is empty or valid and a URL
that parses. -/
theorem NewRequestWithContext_ok (w : World) (method url : String)
    (hm : method = "" ∨ validMethod method = true) (hu : w.urlParse url = none) :
    NewRequestWithContext w method url = .ok (if method = "" then "GET" else method) := by
  unfold NewRequestWithContext
  have hv : validMethod (if method = "" then "GET" else method) = true := by
    rcases hm with h | h
    · rw [if_pos h]; decide
    · by_cases h0 : method = ""
      · rw [if_pos h0]; decide
      · rw [if_neg h0]; exact h
  simp only [hv, hu, Bool.not_true, Bool.false_eq_true, if_false]

/-- C17, counterexample: a request with an empty Method and a valid URL,
against a server that answers 200, is sent once and `DoReq` returns the
response with a nil error. -/
theorem C17_counterexample_empty_method_is_sent :
    emptyMethodRequest.Method = "" ∧
    sendCount ((defaultClient 1).DoReq (alwaysAnswers (okResponse [] none))
      emptyMethodRequest).events = 1 ∧
    ((defaultClient 1).DoReq (alwaysAnswers (okResponse [] none)) emptyMethodRequest).outcome =
      .returned (some { status := "200 OK", statusCode := 200, headers := [], body := [] })
        none := by
  decide

/-- C17, amended: `DoReq` does not check Method or URL itself. A request
with an empty Method and a URL that parses is built as a GET: the call is the
same as with Method "GET" and sends at least one attempt when the payload
encodes. A request with an empty URL (which `url.Parse` accepts) and a method
that is empty or valid is built and sent too; when the transport refuses it
with an unsupported-scheme `*url.Error`, the default policy does not retry
and `DoReq` returns, after that one attempt and without panic, the non-nil
error "http client.Do: " followed by the transport error. -/
theorem C17_DoReq_empty_method_or_url (c : httpClient) (w : World) (rq : RequestAttributes) :
    (rq.Method = "" → w.urlParse rq.URL = none →
      c.DoReq w rq = c.DoReq w { rq with Method := "GET" } ∧
      (∀ p, RequestPayload (Header.Get (c.RequestHeaders rq.Headers) HeaderContentType) rq.Body
          = .ok p → 1 ≤ sendCount (c.DoReq w rq).events)) ∧
    (∀ (p : List UInt8) (text : String) (ua : Bool),
      rq.URL = "" → w.urlParse "" = none →
      rq.Method = "" ∨ validMethod rq.Method = true →
      RequestPayload (Header.Get (c.RequestHeaders rq.Headers) HeaderContentType) rq.Body
        = .ok p →
      c.b.CheckRetry = DefaultRetryPolicy →
      w.ctxErrAfterDo 0 = none → w.ctxErrAtCheck 0 = none →
      w.roundTrip 0 = (none, some (.urlError text ua)) → schemeErrorRe text = true →
      (c.DoReq w rq).outcome = .returned none (some (.other ("http client.Do: " ++ text))) ∧
      sendCount (c.DoReq w rq).events = 1) := by
  refine ⟨?_, ?_⟩
  · intro hm hu
    have h1 : NewRequestWithContext w rq.Method rq.URL = .ok "GET" := by
      rw [NewRequestWithContext_ok w rq.Method rq.URL (Or.inl hm) hu, if_pos hm]
    have h2 : NewRequestWithContext w "GET" rq.URL = .ok "GET" := by
      rw [NewRequestWithContext_ok w "GET" rq.URL (Or.inr (by decide)) hu]
      rfl
    refine ⟨?_, ?_⟩
    · simp only [httpClient.DoReq, h1, h2]
    · intro p hpay
      rw [DoReq_of_prelude c w rq hpay h1, finishRun_sendCount]
      exact attemptLoop_sendCount_pos c w "GET" rq.URL 2 0 initialState
  · intro p text ua hurl hparse hm hpay hpolicy hctx1 hctx2 hrt hscheme
    have hreq := NewRequestWithContext_ok w rq.Method rq.URL hm (by rw [hurl]; exact hparse)
    have hpol : c.b.CheckRetry (w.ctxErrAtCheck 0) (w.roundTrip 0).1 (w.roundTrip 0).2 =
        .ok (false, none) := by
      rw [hpolicy, hctx2, hrt]
      simp only [DefaultRetryPolicy, baseRetryPolicy_urlError, hscheme, Bool.or_true,
        Bool.true_or, if_true]
    have hb := attemptBody_noRetry c w (if rq.Method = "" then "GET" else rq.Method) rq.URL 0
      hctx1 hpol
    rw [DoReq_of_prelude c w rq hpay hreq, finishRun_sendCount,
      attemptLoop_succ_stop c w _ rq.URL hb]
    refine ⟨?_, by simp [sendCount]⟩
    rw [finishRun_done, hrt]
    simp [afterLoop, GoError.Error]

/-- C17, witness: the empty Method against a server that answers 200, and the
empty URL against a transport that refuses it. -/
theorem C17_DoReq_empty_method_or_url_witness :
    ((emptyMethodRequest.Method = "" ∧
        (alwaysAnswers (okResponse [] none)).urlParse emptyMethodRequest.URL = none) ∧
      (defaultClient 1).DoReq (alwaysAnswers (okResponse [] none)) emptyMethodRequest =
        (defaultClient 1).DoReq (alwaysAnswers (okResponse [] none))
          { emptyMethodRequest with Method := "GET" }) ∧
    ((emptyURLRequest.URL = "" ∧ schemeErrorRe "Get \"\": unsupported protocol scheme \"\"" = true) ∧
      ((defaultClient 3).DoReq refusesScheme emptyURLRequest).outcome =
        .returned none (some (.other
          ("http client.Do: " ++ "Get \"\": unsupported protocol scheme \"\""))) ∧
      sendCount ((defaultClient 3).DoReq refusesScheme emptyURLRequest).events = 1) :=
  ⟨⟨⟨rfl, rfl⟩,
      ((C17_DoReq_empty_method_or_url (defaultClient 1) (alwaysAnswers (okResponse [] none))
        emptyMethodRequest).1 rfl rfl).1⟩,
    ⟨⟨rfl, by decide⟩,
      (C17_DoReq_empty_method_or_url (defaultClient 3) refusesScheme emptyURLRequest).2 []
        "Get \"\": unsupported protocol scheme \"\"" false rfl rfl (Or.inr (by decide)) rfl rfl
        rfl rfl rfl (by decide)⟩⟩

/-! ## Lemmas: header maps -/

/-- A map index on the list that `Header.store` builds for a present key. -/
theorem Header.lookup_map_store (h : Header) (k k1 : String) (v : List String) :
    Header.lookup (h.map (fun p => if p.1 == k then (k, v) else p)) k1 =
      if k1 = k then (Header.lookup h k).map (fun _ => v) else Header.lookup h k1 := by
  induction h with
  | nil => simp [Header.lookup]
  | cons p ps ih =>
    simp only [Header.lookup] at ih ⊢
    by_cases hpk : p.1 = k
    · by_cases hk1 : k1 = k
      · simp [hpk, hk1]
      · have : ¬ k = k1 := fun h => hk1 h.symm
        simp [hpk, hk1, this, List.find?_cons] at ih ⊢
        exact ih
    · by_cases hk1 : k1 = k
      · subst hk1
        simp [hpk, List.find?_cons] at ih ⊢
        exact ih
      · by_cases hp1 : p.1 = k1
        · simp [hpk, hk1, hp1, List.find?_cons]
        · simp [hpk, hk1, hp1, List.find?_cons] at ih ⊢
          exact ih

/-- A map index is absent exactly when no entry has the key. -/
theorem Header.lookup_eq_none_iff (h : Header) (k : String) :
    Header.lookup h k = none ↔ h.any (fun p => p.1 == k) = false := by
  induction h with
  | nil => simp [Header.lookup]
  | cons p ps ih =>
    simp only [Header.lookup] at ih ⊢
    by_cases hp : p.1 = k
    · simp [hp, List.find?_cons]
    · simp [hp, List.find?_cons] at ih ⊢

/-- A map index after a map assignment. -/
theorem Header.lookup_store (h : Header) (k k1 : String) (v : List String) :
    Header.lookup (Header.store h k v) k1 = if k1 = k then some v else Header.lookup h k1 := by
  unfold Header.store
  by_cases hany : h.any (fun p => p.1 == k) = true
  · rw [if_pos hany, Header.lookup_map_store]
    by_cases hk1 : k1 = k
    · rw [if_pos hk1, if_pos hk1]
      cases hl : Header.lookup h k with
      | none =>
        rw [Header.lookup_eq_none_iff] at hl
        rw [hl] at hany
        exact absurd hany (by decide)
      | some x => rfl
    · rw [if_neg hk1, if_neg hk1]
  · rw [if_neg hany]
    have hnone : Header.lookup h k = none := by
      rw [Header.lookup_eq_none_iff]
      exact Bool.eq_false_iff.mpr hany
    by_cases hk1 : k1 = k
    · subst hk1
      rw [if_pos rfl]
      simp only [Header.lookup] at hnone ⊢
      simp only [Option.map_eq_none'] at hnone
      simp [List.find?_append, hnone]
    · rw [if_neg hk1]
      have : ¬ k = k1 := fun h => hk1 h.symm
      simp only [Header.lookup]
      simp [List.find?_append, this]

/-- The first entry of an association list decides a map index on it. -/
theorem Header.lookup_cons (p : String × List String) (ps : Header) (k : String) :
    Header.lookup (p :: ps) k = if p.1 = k then some p.2 else Header.lookup ps k := by
  simp only [Header.lookup, List.find?_cons]
  by_cases hp : p.1 = k
  · simp [hp]
  · have hb : (p.1 == k) = false := beq_eq_false_iff_ne.mpr hp
    rw [if_neg hp, hb]

/-- A key has an entry exactly when the map index on it is present. -/
theorem Header.mem_keys_iff (h : Header) (k : String) :
    k ∈ h.map Prod.fst ↔ (Header.lookup h k).isSome = true := by
  induction h with
  | nil => simp [Header.lookup]
  | cons p ps ih =>
    rw [Header.lookup_cons]
    by_cases hp : p.1 = k
    · simp [hp]
    · rw [if_neg hp, ← ih]
      simp only [List.map_cons, List.mem_cons]
      constructor
      · rintro (h | h)
        · exact absurd h.symm hp
        · exact h
      · intro h; exact Or.inr h

/-- One pass of `RequestHeaders` over a source map whose keys are distinct and
in canonical form and whose value lists have one value each: afterwards every
key of the source carries the source's value and every other key is as
before. -/
theorem setFirstValues_lookup (src : Header) :
    ∀ (result : Header) (k : String),
      (∀ p ∈ src, CanonicalMIMEHeaderKey p.1 = p.1) →
      (src.map Prod.fst).Nodup →
      (∀ p ∈ src, p.2.length = 1) →
      Header.lookup (setFirstValues result src) k =
        match Header.lookup src k with
        | some v => some v
        | none => Header.lookup result k := by
  induction src with
  | nil => intro result k _ _ _; rfl
  | cons p ps ih =>
    intro result k hcanon hnodup hsingle
    obtain ⟨v, hv⟩ := List.length_eq_one.mp (hsingle p (List.mem_cons_self _ _))
    have hstep : setFirstValues result (p :: ps) =
        setFirstValues (Header.store result p.1 [v]) ps := by
      simp only [setFirstValues, List.foldl_cons, hv, Header.Set,
        hcanon p (List.mem_cons_self _ _)]
    rw [hstep, ih (Header.store result p.1 [v]) k
      (fun q hq => hcanon q (List.mem_cons_of_mem _ hq))
      (List.nodup_cons.mp hnodup).2
      (fun q hq => hsingle q (List.mem_cons_of_mem _ hq)),
      Header.lookup_cons, Header.lookup_store]
    by_cases hp : p.1 = k
    · have hnot : k ∉ ps.map Prod.fst := by
        have := (List.nodup_cons.mp hnodup).1
        rw [← hp]
        exact this
      have hnone : Header.lookup ps k = none := by
        cases hl : Header.lookup ps k with
        | none => rfl
        | some x =>
          exact absurd ((Header.mem_keys_iff ps k).mpr (by rw [hl]; rfl)) hnot
      rw [if_pos hp, hnone, if_pos hp.symm, hv]
    · have hk : ¬ k = p.1 := fun h => hp h.symm
      rw [if_neg hp, if_neg hk]

/-! ## Theorems: the header merge -/

/-- C13, counterexample: without default headers, the per-request map with
the single key "b" gives a merged map whose only key is "B": the key "b" of
the request is not a key of the result. -/
theorem C13_counterexample_key_is_canonicalised :
    NewClientBuilder.Build.RequestHeaders [("b", ["2"])] = [("B", ["2"])] ∧
    Header.lookup (NewClientBuilder.Build.RequestHeaders [("b", ["2"])]) "b" = none ∧
    "b" ∉ (NewClientBuilder.Build.RequestHeaders [("b", ["2"])]).map Prod.fst := by
  decide

/-- C13, amended: for default headers `D` and per-request headers `R` whose
keys are in canonical MIME form (as `Header.Set`, `Header.Add` and
`SetHeaders` write them) and single-valued, `RequestHeaders(R)` has exactly
the keys of `D` together with the keys of `R`; a key present in `R` carries
the value of `R`, and a key present only in `D` carries the value of `D`.
(A key that is not in canonical form is replaced by its canonical form.) -/
theorem C13_RequestHeaders_merge (c : httpClient) (D R : Header)
    (hD : c.b.headers.getD [] = D)
    (hDc : ∀ p ∈ D, CanonicalMIMEHeaderKey p.1 = p.1)
    (hDn : (D.map Prod.fst).Nodup)
    (hDs : ∀ p ∈ D, p.2.length = 1)
    (hRc : ∀ p ∈ R, CanonicalMIMEHeaderKey p.1 = p.1)
    (hRn : (R.map Prod.fst).Nodup)
    (hRs : ∀ p ∈ R, p.2.length = 1) :
    (∀ k, Header.lookup (c.RequestHeaders R) k =
      match Header.lookup R k with
      | some v => some v
      | none => Header.lookup D k) ∧
    (∀ k, k ∈ (c.RequestHeaders R).map Prod.fst ↔ k ∈ D.map Prod.fst ∨ k ∈ R.map Prod.fst) := by
  have hlookup : ∀ k, Header.lookup (c.RequestHeaders R) k =
      match Header.lookup R k with
      | some v => some v
      | none => Header.lookup D k := by
    intro k
    unfold httpClient.RequestHeaders
    rw [hD, setFirstValues_lookup R _ k hRc hRn hRs, setFirstValues_lookup D [] k hDc hDn hDs]
    cases Header.lookup D k <;> rfl
  refine ⟨hlookup, ?_⟩
  intro k
  rw [Header.mem_keys_iff, Header.mem_keys_iff, Header.mem_keys_iff, hlookup k]
  cases Header.lookup R k <;> cases Header.lookup D k <;> simp

/-- C13, witness: `D = {A: 1}` with `R = {B: 2}` gives `{A: 1, B: 2}`, and
`D = {A: 1}` with `R = {A: 9}` gives `{A: 9}`. -/
theorem C13_RequestHeaders_merge_witness :
    (clientWithA.b.headers.getD [] = [("A", ["1"])] ∧
      clientWithA.RequestHeaders [("B", ["2"])] = [("A", ["1"]), ("B", ["2"])] ∧
      clientWithA.RequestHeaders [("A", ["9"])] = [("A", ["9"])]) ∧
    (∀ k, Header.lookup (clientWithA.RequestHeaders [("B", ["2"])]) k =
      match Header.lookup [("B", ["2"])] k with
      | some v => some v
      | none => Header.lookup [("A", ["1"])] k) ∧
    (∀ k, Header.lookup (clientWithA.RequestHeaders [("A", ["9"])]) k =
      match Header.lookup [("A", ["9"])] k with
      | some v => some v
      | none => Header.lookup [("A", ["1"])] k) :=
  ⟨⟨by decide, by decide, by decide⟩,
    (C13_RequestHeaders_merge clientWithA [("A", ["1"])] [("B", ["2"])] (by decide)
      (by decide) (by decide) (by decide) (by decide) (by decide) (by decide)).1,
    (C13_RequestHeaders_merge clientWithA [("A", ["1"])] [("A", ["9"])] (by decide)
      (by decide) (by decide) (by decide) (by decide) (by decide) (by decide)).1⟩

/-! ## Lemmas: canonical header keys -/

/-- The lower-case letters, one by one. -/
theorem isLower_mem (c : Char) (h : c.isLower = true) :
    c ∈ "abcdefghijklmnopqrstuvwxyz".toList := by
  have hr : 97 ≤ c.toNat ∧ c.toNat ≤ 122 := by
    simp only [Char.isLower, Bool.and_eq_true, decide_eq_true_eq] at h
    exact ⟨h.1, h.2⟩
  obtain ⟨h1, h2⟩ := hr
  rw [← Char.ofNat_toNat c]
  generalize c.toNat = n at h1 h2
  interval_cases n <;> decide

/-- The upper-case letters, one by one. -/
theorem isUpper_mem (c : Char) (h : c.isUpper = true) :
    c ∈ "ABCDEFGHIJKLMNOPQRSTUVWXYZ".toList := by
  have hr : 65 ≤ c.toNat ∧ c.toNat ≤ 90 := by
    simp only [Char.isUpper, Bool.and_eq_true, decide_eq_true_eq] at h
    exact ⟨h.1, h.2⟩
  obtain ⟨h1, h2⟩ := hr
  rw [← Char.ofNat_toNat c]
  generalize c.toNat = n at h1 h2
  interval_cases n <;> decide

/-- The upper-case form of a lower-case letter is a token character that is
neither lower case nor a dash. -/
theorem toUpper_of_isLower (c : Char) (h : c.isLower = true) :
    c.toUpper.isLower = false ∧ isTokenChar c.toUpper = true := by
  have hall : ∀ x ∈ "abcdefghijklmnopqrstuvwxyz".toList,
      x.toUpper.isLower = false ∧ isTokenChar x.toUpper = true := by decide
  exact hall c (isLower_mem c h)

/-- The lower-case form of an upper-case letter is a token character that is
not upper case. -/
theorem toLower_of_isUpper (c : Char) (h : c.isUpper = true) :
    c.toLower.isUpper = false ∧ isTokenChar c.toLower = true := by
  have hall : ∀ x ∈ "ABCDEFGHIJKLMNOPQRSTUVWXYZ".toList,
      x.toLower.isUpper = false ∧ isTokenChar x.toLower = true := by decide
  exact hall c (isUpper_mem c h)

/-- The rewriting loop keeps token characters token characters. -/
theorem canonicalLetters_token (l : List Char) :
    ∀ b : Bool, l.all isTokenChar = true → (canonicalLetters b l).all isTokenChar = true := by
  induction l with
  | nil => intro b _; rfl
  | cons c cs ih =>
    intro b h
    simp only [List.all_cons, Bool.and_eq_true] at h
    simp only [canonicalLetters, List.all_cons, Bool.and_eq_true]
    refine ⟨?_, ih _ h.2⟩
    by_cases h1 : b = true ∧ c.isLower = true
    · rw [if_pos h1]
      exact (toUpper_of_isLower c h1.2).2
    · rw [if_neg h1]
      by_cases h2 : (!b) = true ∧ c.isUpper = true
      · rw [if_pos h2]
        exact (toLower_of_isUpper c h2.2).2
      · rw [if_neg h2]
        exact h.1

/-- The rewriting loop changes nothing in its own output. -/
theorem canonicalLetters_idem (l : List Char) :
    ∀ b : Bool, canonicalLetters b (canonicalLetters b l) = canonicalLetters b l := by
  induction l with
  | nil => intro b; rfl
  | cons c cs ih =>
    intro b
    have hfix : ∀ c1 : Char,
        c1 = (if (b && c.isLower) = true then c.toUpper
          else if (!b && c.isUpper) = true then c.toLower else c) →
        (if (b && c1.isLower) = true then c1.toUpper
          else if (!b && c1.isUpper) = true then c1.toLower else c1) = c1 := by
      intro c1 hc1
      cases b with
      | true =>
        by_cases hl : c.isLower = true
        · simp only [Bool.true_and, hl, if_true] at hc1
          have := (toUpper_of_isLower c hl).1
          rw [← hc1] at this
          simp [this]
        · simp only [Bool.true_and, hl, Bool.not_true, Bool.false_and, Bool.false_eq_true,
            if_false] at hc1
          subst hc1
          simp [hl]
      | false =>
        by_cases hu : c.isUpper = true
        · simp only [Bool.false_and, Bool.false_eq_true, if_false, Bool.not_false,
            Bool.true_and, hu, if_true] at hc1
          have := (toLower_of_isUpper c hu).1
          rw [← hc1] at this
          simp [this]
        · simp only [Bool.false_and, Bool.false_eq_true, if_false, Bool.not_false,
            Bool.true_and, hu] at hc1
          subst hc1
          simp [hu]
    simp only [canonicalLetters]
    rw [hfix _ rfl, ih]

/-- The canonical form of a header key is its own canonical form. -/
theorem CanonicalMIMEHeaderKey_idem (s : String) :
    CanonicalMIMEHeaderKey (CanonicalMIMEHeaderKey s) = CanonicalMIMEHeaderKey s := by
  unfold CanonicalMIMEHeaderKey
  by_cases h : s.toList.all isTokenChar = true
  · rw [if_pos h]
    have h2 : (String.mk (canonicalLetters true s.toList)).toList.all isTokenChar = true :=
      canonicalLetters_token s.toList true h
    rw [if_pos h2]
    show String.mk (canonicalLetters true (canonicalLetters true s.toList)) = _
    rw [canonicalLetters_idem]
  · rw [if_neg h, if_neg h]

/-! ## Theorems: repeated `SetHeaders` -/

/-- The map that `SetHeaders` leaves when it adds one more value to the only
key of a one-key map. -/
theorem SetHeaders_same_key (b : clientBuilder) (k v v1 : String) (ws : List String)
    (h : b.headers = some [(CanonicalMIMEHeaderKey k, v1 :: ws)]) :
    (b.SetHeaders [(k, [v])]).headers =
      some [(CanonicalMIMEHeaderKey k, v1 :: (ws ++ [v]))] := by
  simp [clientBuilder.SetHeaders, h, Header.Add, Header.store, Header.lookup]

/-- The map that `SetHeaders` creates for one key on a builder without
headers. -/
theorem SetHeaders_first_key (b : clientBuilder) (k v : String)
    (h : b.headers.getD [] = []) :
    (b.SetHeaders [(k, [v])]).headers = some [(CanonicalMIMEHeaderKey k, [v])] := by
  simp [clientBuilder.SetHeaders, h, Header.Add, Header.store, Header.lookup]

/-- Writing more values for the same key keeps the first one in front. -/
theorem SetHeaders_repeated (k v1 : String) (vs : List String) :
    ∀ (b : clientBuilder) (ws : List String),
      b.headers = some [(CanonicalMIMEHeaderKey k, v1 :: ws)] →
      ∃ ws1, (vs.foldl (fun acc v => acc.SetHeaders [(k, [v])]) b).headers =
        some [(CanonicalMIMEHeaderKey k, v1 :: ws1)] := by
  induction vs with
  | nil => intro b ws h; exact ⟨ws, h⟩
  | cons v vs ih =>
    intro b ws h
    exact ih (b.SetHeaders [(k, [v])]) (ws ++ [v]) (SetHeaders_same_key b k v v1 ws h)

/-- C14, counterexample: `SetHeaders` with `X-Env: staging` and then with
`X-Env: production` leaves both values on the key, and `RequestHeaders` puts
"staging", the value written first, on a request without override. -/
theorem C14_counterexample_first_value_is_sent :
    ((NewClientBuilder.SetHeaders [("X-Env", ["staging"])]).SetHeaders
        [("X-Env", ["production"])]).headers = some [("X-Env", ["staging", "production"])] ∧
    Header.Get (((NewClientBuilder.SetHeaders [("X-Env", ["staging"])]).SetHeaders
        [("X-Env", ["production"])]).Build.RequestHeaders []) "X-Env" = "staging" := by
  decide

/-- C14, amended: configured default headers are first-write-wins per key.
On a builder without headers, when `SetHeaders` is applied once per value with
the same key `k` and the values `v1, v2, ...` in this order, the value that
`RequestHeaders` puts under `k` on a request without per-request headers is
`v1`, the one written first: `SetHeaders` appends with `Add`, and
`RequestHeaders` sends the first value of each key only. -/
theorem C14_SetHeaders_first_write_wins (b : clientBuilder) (k v1 : String) (vs : List String)
    (hfresh : b.headers.getD [] = []) :
    Header.Get (((v1 :: vs).foldl (fun acc v => acc.SetHeaders [(k, [v])]) b).Build.RequestHeaders
      []) k = v1 := by
  obtain ⟨ws1, hws⟩ := SetHeaders_repeated k v1 vs (b.SetHeaders [(k, [v1])]) []
    (SetHeaders_first_key b k v1 hfresh)
  simp only [List.foldl_cons]
  simp only [httpClient.RequestHeaders, clientBuilder.Build, hws, Option.getD_some,
    setFirstValues, List.foldl_cons, List.foldl_nil, Header.Set, Header.Get,
    CanonicalMIMEHeaderKey_idem]
  simp [Header.store, Header.lookup]

/-- C14, witness: three writes of `x-env` on the builder of
`NewClientBuilder`. -/
theorem C14_SetHeaders_first_write_wins_witness :
    NewClientBuilder.headers.getD [] = [] ∧
    Header.Get ((("staging" :: ["production", "test"]).foldl
      (fun acc v => acc.SetHeaders [("x-env", [v])]) NewClientBuilder).Build.RequestHeaders [])
      "x-env" = "staging" :=
  ⟨rfl, C14_SetHeaders_first_write_wins NewClientBuilder "x-env" "staging"
    ["production", "test"] rfl⟩

/-! ## Lemmas: the heap of header maps -/

/-- An assignment to a map entry allocates nothing. -/
theorem MapHeap.set_length (h : MapHeap) (a : MapRef) (k v : String) :
    (h.set a k v).cells.length = h.cells.length := by
  simp [MapHeap.set]

/-- An assignment to an entry of the map at `a` leaves every other map as it
was. -/
theorem MapHeap.set_getD_ne (h : MapHeap) (a n : MapRef) (k v : String) (hne : n ≠ a) :
    (h.set a k v).cells.getD n [] = h.cells.getD n [] := by
  simp only [MapHeap.set, List.getD_eq_getElem?_getD]
  rw [List.getElem?_set_ne (fun h1 => hne h1.symm)]

/-- An assignment to an entry of an allocated map is `Header.Set` on its
content. -/
theorem MapHeap.set_getD_eq (h : MapHeap) (a : MapRef) (k v : String)
    (ha : a < h.cells.length) :
    (h.set a k v).cells.getD a [] = Header.Set (h.cells.getD a []) k v := by
  simp only [MapHeap.set, List.getD_eq_getElem?_getD]
  rw [List.getElem?_set_self ha]
  rfl

/-- One `range` loop writes the result map only, and writes to it what the
pure model computes. -/
theorem setFirstValuesOnHeap_frame (result : MapRef) (src : Header) :
    ∀ h : MapHeap, result < h.cells.length →
      (setFirstValuesOnHeap h result src).cells.length = h.cells.length ∧
      (∀ n, n ≠ result →
        (setFirstValuesOnHeap h result src).cells.getD n [] = h.cells.getD n []) ∧
      (setFirstValuesOnHeap h result src).cells.getD result [] =
        setFirstValues (h.cells.getD result []) src := by
  induction src with
  | nil => intro h _; exact ⟨rfl, fun _ _ => rfl, rfl⟩
  | cons p ps ih =>
    intro h hres
    cases hv : p.2 with
    | nil =>
      have hstep : setFirstValuesOnHeap h result (p :: ps) = setFirstValuesOnHeap h result ps := by
        simp [setFirstValuesOnHeap, hv]
      have hpure : ∀ r : Header, setFirstValues r (p :: ps) = setFirstValues r ps := by
        intro r; simp [setFirstValues, hv]
      rw [hstep, hpure]
      exact ih h hres
    | cons v0 vs =>
      have hstep : setFirstValuesOnHeap h result (p :: ps) =
          setFirstValuesOnHeap (h.set result p.1 v0) result ps := by
        simp [setFirstValuesOnHeap, hv]
      have hpure : ∀ r : Header, setFirstValues r (p :: ps) =
          setFirstValues (Header.Set r p.1 v0) ps := by
        intro r; simp [setFirstValues, hv]
      have hlen := MapHeap.set_length h result p.1 v0
      obtain ⟨h1, h2, h3⟩ := ih (h.set result p.1 v0) (by rw [hlen]; exact hres)
      rw [hstep, hpure]
      refine ⟨by rw [h1, hlen], ?_, ?_⟩
      · intro n hn
        rw [h2 n hn, MapHeap.set_getD_ne h result n p.1 v0 hn]
      · rw [h3, MapHeap.set_getD_eq h result p.1 v0 hres]

/-- Method `RequestHeaders` on the heap leaves every map that existed before
as it was, returns a reference that did not exist before, and fills the new
map with what the pure model computes from the two maps it reads. -/
theorem RequestHeadersOnHeap_frame (h : MapHeap) (dflt req : Option MapRef)
    (hD : ∀ a, dflt = some a → a < h.cells.length)
    (hR : ∀ a, req = some a → a < h.cells.length) :
    (RequestHeadersOnHeap h dflt req).2 = h.cells.length ∧
    (∀ a, a < h.cells.length →
      (RequestHeadersOnHeap h dflt req).1.read (some a) = h.read (some a)) ∧
    (RequestHeadersOnHeap h dflt req).1.read dflt = h.read dflt ∧
    (RequestHeadersOnHeap h dflt req).1.read req = h.read req ∧
    (RequestHeadersOnHeap h dflt req).1.read (some (RequestHeadersOnHeap h dflt req).2) =
      setFirstValues (setFirstValues [] (h.read dflt)) (h.read req) := by
  have hmakeLen : h.make.1.cells.length = h.cells.length + 1 := by simp [MapHeap.make]
  have hmakeOld : ∀ n, n < h.cells.length → h.make.1.cells.getD n [] = h.cells.getD n [] := by
    intro n hn
    simp only [MapHeap.make, List.getD_eq_getElem?_getD]
    rw [List.getElem?_append_left hn]
  have hmakeNew : h.make.1.cells.getD h.cells.length [] = [] := by
    simp [MapHeap.make, List.getD_eq_getElem?_getD]
  have hres : h.make.2 = h.cells.length := rfl
  have hreadOld : ∀ (r : Option MapRef), (∀ a, r = some a → a < h.cells.length) →
      h.make.1.read r = h.read r := by
    intro r hr
    cases r with
    | none => rfl
    | some a => exact hmakeOld a (hr a rfl)
  obtain ⟨a1, a2, a3⟩ := setFirstValuesOnHeap_frame h.make.2 (h.make.1.read dflt) h.make.1
    (by rw [hres, hmakeLen]; exact Nat.lt_succ_self _)
  obtain ⟨b1, b2, b3⟩ := setFirstValuesOnHeap_frame h.make.2
    ((setFirstValuesOnHeap h.make.1 h.make.2 (h.make.1.read dflt)).read req)
    (setFirstValuesOnHeap h.make.1 h.make.2 (h.make.1.read dflt))
    (by rw [a1, hres, hmakeLen]; exact Nat.lt_succ_self _)
  have hold : ∀ a, a < h.cells.length →
      (RequestHeadersOnHeap h dflt req).1.read (some a) = h.read (some a) := by
    intro a ha
    have hne : a ≠ h.make.2 := by rw [hres]; exact Nat.ne_of_lt ha
    show (setFirstValuesOnHeap _ _ _).cells.getD a [] = h.cells.getD a []
    rw [b2 a hne, a2 a hne, hmakeOld a ha]
  have holdRef : ∀ (r : Option MapRef), (∀ a, r = some a → a < h.cells.length) →
      (RequestHeadersOnHeap h dflt req).1.read r = h.read r := by
    intro r hr
    cases r with
    | none => rfl
    | some a => exact hold a (hr a rfl)
  have hmid : (setFirstValuesOnHeap h.make.1 h.make.2 (h.make.1.read dflt)).read req =
      h.read req := by
    cases req with
    | none => rfl
    | some a =>
      have ha := hR a rfl
      have hne : a ≠ h.make.2 := by rw [hres]; exact Nat.ne_of_lt ha
      show (setFirstValuesOnHeap _ _ _).cells.getD a [] = h.cells.getD a []
      rw [a2 a hne, hmakeOld a ha]
  refine ⟨rfl, hold, holdRef dflt hD, holdRef req hR, ?_⟩
  show (setFirstValuesOnHeap _ _ _).cells.getD h.make.2 [] = _
  rw [b3, a3, hmid, hreadOld dflt hD, hres, hmakeNew]

/-- What `DoReqOnMemory` changes at most: the heap, by `RequestHeaders`, and
the field `client`. -/
theorem DoReqOnMemory_fields (mem : Memory) (w : World) (rq : RequestAttributes)
    (reqHeaders : Option MapRef) :
    (DoReqOnMemory mem w rq reqHeaders).1.settings = mem.settings ∧
    (DoReqOnMemory mem w rq reqHeaders).1.headersRef = mem.headersRef ∧
    (DoReqOnMemory mem w rq reqHeaders).1.heap =
      (RequestHeadersOnHeap mem.heap mem.headersRef reqHeaders).1 ∧
    (DoReqOnMemory mem w rq reqHeaders).2.1 =
      (RequestHeadersOnHeap mem.heap mem.headersRef reqHeaders).2 := by
  unfold DoReqOnMemory
  simp only
  split
  · exact ⟨rfl, rfl, rfl, rfl⟩
  · exact ⟨rfl, rfl, rfl, rfl⟩
  · split
    · exact ⟨rfl, rfl, rfl, rfl⟩
    · exact ⟨rfl, rfl, rfl, rfl⟩

/-! ## Theorems: what `DoReq` writes -/

/-- C20: a call of `DoReq` on a memory whose two header-map references are
allocated leaves the settings of the builder (timeouts, retry bounds, policy,
backoff, logger) and its header-map reference as they were, leaves the
content of the default header map, of the caller's per-request map and of
every other map that existed before unchanged, and returns the merged headers
in a map at an address that did not exist before; that map holds what
`RequestHeaders` computes from the two maps it read. So the configuration the
client sees after the call is the one it saw before. -/
theorem C20_DoReq_only_reads_configuration (mem : Memory) (w : World) (rq : RequestAttributes)
    (reqHeaders : Option MapRef)
    (hD : ∀ a, mem.headersRef = some a → a < mem.heap.cells.length)
    (hR : ∀ a, reqHeaders = some a → a < mem.heap.cells.length) :
    (DoReqOnMemory mem w rq reqHeaders).1.settings = mem.settings ∧
    (DoReqOnMemory mem w rq reqHeaders).1.headersRef = mem.headersRef ∧
    (DoReqOnMemory mem w rq reqHeaders).1.heap.read mem.headersRef =
      mem.heap.read mem.headersRef ∧
    (DoReqOnMemory mem w rq reqHeaders).1.heap.read reqHeaders = mem.heap.read reqHeaders ∧
    (∀ a, a < mem.heap.cells.length →
      (DoReqOnMemory mem w rq reqHeaders).1.heap.read (some a) = mem.heap.read (some a)) ∧
    (DoReqOnMemory mem w rq reqHeaders).2.1 = mem.heap.cells.length ∧
    (DoReqOnMemory mem w rq reqHeaders).1.heap.read
        (some (DoReqOnMemory mem w rq reqHeaders).2.1) =
      mem.view.RequestHeaders (mem.heap.read reqHeaders) ∧
    (DoReqOnMemory mem w rq reqHeaders).1.view.b = mem.view.b := by
  obtain ⟨f1, f2, f3, f4⟩ := DoReqOnMemory_fields mem w rq reqHeaders
  obtain ⟨g1, g2, g3, g4, g5⟩ :=
    RequestHeadersOnHeap_frame mem.heap mem.headersRef reqHeaders hD hR
  have hview : mem.view.RequestHeaders (mem.heap.read reqHeaders) =
      setFirstValues (setFirstValues [] (mem.heap.read mem.headersRef))
        (mem.heap.read reqHeaders) := by
    unfold httpClient.RequestHeaders Memory.view
    cases mem.headersRef <;> rfl
  refine ⟨f1, f2, ?_, ?_, ?_, ?_, ?_, ?_⟩
  · rw [f3, g3]
  · rw [f3, g4]
  · intro a ha
    rw [f3, g2 a ha]
  · rw [f4, g1]
  · rw [f3, f4, g5, hview]
  · unfold Memory.view
    simp only [f1, f2, f3]
    cases href : mem.headersRef with
    | none => rfl
    | some a =>
      have := g2 a (hD a href)
      rw [href] at this
      simp only [Option.map_some', this]

/-- C20, witness: a call on the sample memory with the caller's map at
address 1 leaves both maps as they were and puts the merged headers into a
new map at address 2. -/
theorem C20_DoReq_only_reads_configuration_witness :
    ((∀ a, sampleMemory.headersRef = some a → a < sampleMemory.heap.cells.length) ∧
      (∀ a, (some 1 : Option MapRef) = some a → a < sampleMemory.heap.cells.length)) ∧
    ((DoReqOnMemory sampleMemory alwaysUnavailable sampleRequest (some 1)).1.heap.read (some 0) =
        [("A", ["1"])] ∧
      (DoReqOnMemory sampleMemory alwaysUnavailable sampleRequest (some 1)).1.heap.read (some 1) =
        [("B", ["2"])] ∧
      (DoReqOnMemory sampleMemory alwaysUnavailable sampleRequest (some 1)).2.1 = 2 ∧
      (DoReqOnMemory sampleMemory alwaysUnavailable sampleRequest (some 1)).1.heap.read (some 2) =
        [("A", ["1"]), ("B", ["2"])]) ∧
    (DoReqOnMemory sampleMemory alwaysUnavailable sampleRequest (some 1)).1.view.b =
      sampleMemory.view.b :=
  ⟨⟨fun a h => by cases h; decide, fun a h => by cases h; decide⟩,
    ⟨by decide, by decide, by decide, by decide⟩,
    (C20_DoReq_only_reads_configuration sampleMemory alwaysUnavailable sampleRequest (some 1)
      (fun a h => by cases h; decide) (fun a h => by cases h; decide)).2.2.2.2.2.2.2⟩

/-! ## Lemmas: validation in package `domain` -/

/-- The countries that `Country.Validate` accepts. -/
theorem Country_Validate_eq_none (m : String) :
    Domain.Country.Validate m = none ↔ m ∈ ["ES", "IT", "FR", "PT"] := by
  unfold Domain.Country.Validate Domain.CountryES Domain.CountryIT Domain.CountryFR
    Domain.CountryPT
  by_cases h : m = "ES" ∨ m = "IT" ∨ m = "FR" ∨ m = "PT"
  · rw [if_pos h]
    simp only [List.mem_cons, List.mem_singleton, true_iff]
    tauto
  · rw [if_neg h]
    simp only [List.mem_cons, List.mem_singleton, false_iff]
    constructor
    · intro h1; cases h1
    · intro h1; exact absurd (by tauto) h

/-- The only error of `Country.Validate`. -/
theorem Country_Validate_error (m : String) (e : GoError)
    (h : Domain.Country.Validate m = some e) : e = Domain.ErrUnsupportedCountry := by
  unfold Domain.Country.Validate at h
  split at h
  · cases h
  · cases h; rfl

/-- The instruction types that `InstructionType.Validate` accepts. -/
theorem InstructionType_Validate_eq_none (i : String) :
    Domain.InstructionType.Validate i = none ↔
      i ∈ ["DELIVERY_CUSTOMER", "DELIVERY_HOUSEHOLD", "DELIVERY_3RD_PARTY",
        "FAILED_DELIVERY_CUSTOMER", "FAILED_DELIVERY_WH", "PICKUP_WH", "FAILED_PICKUP_WH",
        "PICKUP_CUSTOMER", "FAILED_PICKUP_CUSTOMER"] := by
  unfold Domain.InstructionType.Validate Domain.DeliveryCustomerInstructionType
    Domain.DeliveryHouseHoldInstructionType Domain.Delivery3rdPartyInstructionType
    Domain.DeliveryCustomerFailedInstructionType Domain.DeliveryWHFailedInstructionType
    Domain.PickupWHInstructionType Domain.PickupWHFailedInstructionType
    Domain.PickupCustomerInstructionType Domain.PickupCustomerFailedInstructionType
  split
  · rename_i h
    simp only [List.mem_cons, List.mem_singleton, true_iff]
    tauto
  · rename_i h
    simp only [List.mem_cons, List.mem_singleton, false_iff]
    constructor
    · intro h1; cases h1
    · intro h1; exact absurd (by tauto) h

/-- The only error of `InstructionType.Validate`. -/
theorem InstructionType_Validate_error (i : String) (e : GoError)
    (h : Domain.InstructionType.Validate i = some e) :
    e = Domain.ErrUnsupportedInstructionType := by
  unfold Domain.InstructionType.Validate at h
  split at h
  · cases h
  · cases h; rfl

/-- The rule table returns an error in its `default` branch only, which a
validated instruction type does not reach. -/
theorem PrepareInstruction_no_error (i0 : Domain.Instruction) (iType country : String)
    (h : Domain.InstructionType.Validate iType = none) :
    (i0.PrepareInstructionBYTargetAndCountryFromSpreadsheet iType country).2.2 = none := by
  unfold Domain.InstructionType.Validate at h
  split at h
  · rename_i hv
    unfold Domain.Instruction.PrepareInstructionBYTargetAndCountryFromSpreadsheet
    simp only
    split_ifs <;> first | rfl | (exfalso; tauto)
  · cases h
/-! ## Theorems: constructing instructions -/

/-- C25: `NewInstructionByTypeAndCountry` succeeds exactly when the country is
one of ES, IT, FR, PT and the instruction type is one of the nine supported
types. For an unsupported country it returns no instruction and
`ErrUnsupportedCountry`, whatever the type (the country is checked first);
for a supported country and an unsupported type it returns no instruction and
`ErrUnsupportedInstructionType`. For a supported type the rule table returns
no error, on any instruction and for any country: its `default` branch is
not reached once the type has been validated. -/
theorem C25_NewInstructionByTypeAndCountry_succeeds_iff (countryStr typeStr : String) :
    ((∃ i, Domain.NewInstructionByTypeAndCountry countryStr typeStr = .ok i) ↔
      (countryStr ∈ ["ES", "IT", "FR", "PT"] ∧
        typeStr ∈ ["DELIVERY_CUSTOMER", "DELIVERY_HOUSEHOLD", "DELIVERY_3RD_PARTY",
          "FAILED_DELIVERY_CUSTOMER", "FAILED_DELIVERY_WH", "PICKUP_WH", "FAILED_PICKUP_WH",
          "PICKUP_CUSTOMER", "FAILED_PICKUP_CUSTOMER"])) ∧
    (countryStr ∉ ["ES", "IT", "FR", "PT"] →
      Domain.NewInstructionByTypeAndCountry countryStr typeStr =
        .error Domain.ErrUnsupportedCountry) ∧
    (countryStr ∈ ["ES", "IT", "FR", "PT"] →
      typeStr ∉ ["DELIVERY_CUSTOMER", "DELIVERY_HOUSEHOLD", "DELIVERY_3RD_PARTY",
        "FAILED_DELIVERY_CUSTOMER", "FAILED_DELIVERY_WH", "PICKUP_WH", "FAILED_PICKUP_WH",
        "PICKUP_CUSTOMER", "FAILED_PICKUP_CUSTOMER"] →
      Domain.NewInstructionByTypeAndCountry countryStr typeStr =
        .error Domain.ErrUnsupportedInstructionType) ∧
    (typeStr ∈ ["DELIVERY_CUSTOMER", "DELIVERY_HOUSEHOLD", "DELIVERY_3RD_PARTY",
        "FAILED_DELIVERY_CUSTOMER", "FAILED_DELIVERY_WH", "PICKUP_WH", "FAILED_PICKUP_WH",
        "PICKUP_CUSTOMER", "FAILED_PICKUP_CUSTOMER"] →
      ∀ (i0 : Domain.Instruction) (country : String),
        (i0.PrepareInstructionBYTargetAndCountryFromSpreadsheet typeStr country).2.2 = none) := by
  have hbadCountry : countryStr ∉ ["ES", "IT", "FR", "PT"] →
      Domain.NewInstructionByTypeAndCountry countryStr typeStr =
        .error Domain.ErrUnsupportedCountry := by
    intro hc
    unfold Domain.NewInstructionByTypeAndCountry
    cases hv : Domain.Country.Validate countryStr with
    | none => exact absurd ((Country_Validate_eq_none countryStr).mp hv) hc
    | some e => rw [Country_Validate_error countryStr e hv]
  have hbadType : countryStr ∈ ["ES", "IT", "FR", "PT"] →
      typeStr ∉ ["DELIVERY_CUSTOMER", "DELIVERY_HOUSEHOLD", "DELIVERY_3RD_PARTY",
        "FAILED_DELIVERY_CUSTOMER", "FAILED_DELIVERY_WH", "PICKUP_WH", "FAILED_PICKUP_WH",
        "PICKUP_CUSTOMER", "FAILED_PICKUP_CUSTOMER"] →
      Domain.NewInstructionByTypeAndCountry countryStr typeStr =
        .error Domain.ErrUnsupportedInstructionType := by
    intro hc ht
    unfold Domain.NewInstructionByTypeAndCountry
    rw [(Country_Validate_eq_none countryStr).mpr hc]
    cases hv : Domain.InstructionType.Validate typeStr with
    | none => exact absurd ((InstructionType_Validate_eq_none typeStr).mp hv) ht
    | some e => rw [InstructionType_Validate_error typeStr e hv]
  have hgood : countryStr ∈ ["ES", "IT", "FR", "PT"] →
      typeStr ∈ ["DELIVERY_CUSTOMER", "DELIVERY_HOUSEHOLD", "DELIVERY_3RD_PARTY",
        "FAILED_DELIVERY_CUSTOMER", "FAILED_DELIVERY_WH", "PICKUP_WH", "FAILED_PICKUP_WH",
        "PICKUP_CUSTOMER", "FAILED_PICKUP_CUSTOMER"] →
      ∃ i, Domain.NewInstructionByTypeAndCountry countryStr typeStr = .ok i := by
    intro hc ht
    have hv := (InstructionType_Validate_eq_none typeStr).mpr ht
    have hno := PrepareInstruction_no_error
      { Domain.Instruction.zero with Type_ := typeStr } typeStr countryStr hv
    unfold Domain.NewInstructionByTypeAndCountry
    rw [(Country_Validate_eq_none countryStr).mpr hc, hv]
    simp only
    cases hp : Domain.Instruction.PrepareInstructionBYTargetAndCountryFromSpreadsheet
        { Domain.Instruction.zero with Type_ := typeStr } typeStr countryStr with
    | mk prepared rest =>
      cases rest with
      | mk dt err =>
        rw [hp] at hno
        simp only at hno
        subst hno
        exact ⟨prepared, rfl⟩
  refine ⟨⟨?_, fun h => hgood h.1 h.2⟩, hbadCountry, hbadType, ?_⟩
  · rintro ⟨i, hi⟩
    by_cases hc : countryStr ∈ ["ES", "IT", "FR", "PT"]
    · refine ⟨hc, ?_⟩
      by_contra ht
      rw [hbadType hc ht] at hi
      cases hi
    · rw [hbadCountry hc] at hi
      cases hi
  · intro ht i0 country
    exact PrepareInstruction_no_error i0 typeStr country
      ((InstructionType_Validate_eq_none typeStr).mpr ht)

/-- C25, witness: Spain with `PICKUP_WH` gives an instruction; Germany gives
`ErrUnsupportedCountry` also with an unsupported type; Spain with the type
`RETURN` gives `ErrUnsupportedInstructionType`. -/
theorem C25_NewInstructionByTypeAndCountry_succeeds_iff_witness :
    (∃ i, Domain.NewInstructionByTypeAndCountry "ES" "PICKUP_WH" = .ok i) ∧
    ("DE" ∉ ["ES", "IT", "FR", "PT"] ∧
      Domain.NewInstructionByTypeAndCountry "DE" "RETURN" =
        .error Domain.ErrUnsupportedCountry) ∧
    Domain.NewInstructionByTypeAndCountry "ES" "RETURN" =
      .error Domain.ErrUnsupportedInstructionType ∧
    Domain.NewInstructionByTypeAndCountry "ES" "PICKUP_WH" =
      .ok { ID := Domain.UUID.Nil, Type_ := "PICKUP_WH", Priority := 5, Target := "warehouse",
            Steps := [{ Name := "SCAN", Mandatory := true, Attempts := 1, Priority := 1,
                        ExtraInfo := [], Fallback := { Name := "" } }] } :=
  ⟨(C25_NewInstructionByTypeAndCountry_succeeds_iff "ES" "PICKUP_WH").1.mpr
      ⟨by decide, by decide⟩,
    ⟨by decide, (C25_NewInstructionByTypeAndCountry_succeeds_iff "DE" "RETURN").2.1 (by decide)⟩,
    (C25_NewInstructionByTypeAndCountry_succeeds_iff "ES" "RETURN").2.2.1 (by decide)
      (by decide),
    by decide⟩

/-- C30: `NewInstruction(type, stepNames)` fails, with
`ErrUnsupportedInstructionType`, exactly when the type is not one of the nine
supported types. Otherwise it returns an instruction with that type, the
target `type.Target()`, the priority of that target, and exactly one step per
given name in the given order, each mandatory, with one attempt and the
priority `Priority()` of its name. -/
theorem C30_NewInstruction_result (typeStr : String) (stepNames : List String) :
    (typeStr ∉ ["DELIVERY_CUSTOMER", "DELIVERY_HOUSEHOLD", "DELIVERY_3RD_PARTY",
        "FAILED_DELIVERY_CUSTOMER", "FAILED_DELIVERY_WH", "PICKUP_WH", "FAILED_PICKUP_WH",
        "PICKUP_CUSTOMER", "FAILED_PICKUP_CUSTOMER"] →
      Domain.NewInstruction typeStr stepNames = .error Domain.ErrUnsupportedInstructionType) ∧
    (typeStr ∈ ["DELIVERY_CUSTOMER", "DELIVERY_HOUSEHOLD", "DELIVERY_3RD_PARTY",
        "FAILED_DELIVERY_CUSTOMER", "FAILED_DELIVERY_WH", "PICKUP_WH", "FAILED_PICKUP_WH",
        "PICKUP_CUSTOMER", "FAILED_PICKUP_CUSTOMER"] →
      ∃ i, Domain.NewInstruction typeStr stepNames = .ok i ∧
        i.Type_ = typeStr ∧
        i.Target = Domain.InstructionType.Target typeStr ∧
        i.Priority = Domain.InstructionTarget.Priority (Domain.InstructionType.Target typeStr) ∧
        i.Steps.length = stepNames.length ∧
        i.Steps.map (fun s => s.Name) = stepNames ∧
        (∀ s ∈ i.Steps, s.Mandatory = true ∧ s.Attempts = 1 ∧
          s.Priority = Domain.StepName.Priority s.Name) ∧
        i.Steps = stepNames.map (fun name =>
          { Name := name, Mandatory := true, Attempts := 1,
            Priority := Domain.StepName.Priority name, ExtraInfo := [],
            Fallback := { Name := "" } })) := by
  refine ⟨?_, ?_⟩
  · intro ht
    unfold Domain.NewInstruction
    cases hv : Domain.InstructionType.Validate typeStr with
    | none => exact absurd ((InstructionType_Validate_eq_none typeStr).mp hv) ht
    | some e => rw [InstructionType_Validate_error typeStr e hv]
  · intro ht
    refine ⟨(Domain.Instruction.zero.PrepareInstructionByType typeStr).PrepareSteps stepNames,
      ?_, rfl, rfl, rfl, ?_, ?_, ?_, rfl⟩
    · unfold Domain.NewInstruction
      rw [(InstructionType_Validate_eq_none typeStr).mpr ht]
    · simp [Domain.Instruction.PrepareSteps]
    · simp [Domain.Instruction.PrepareSteps, List.map_map, Function.comp_def]
    · intro s hs
      simp only [Domain.Instruction.PrepareSteps, List.mem_map] at hs
      obtain ⟨name, _, rfl⟩ := hs
      exact ⟨rfl, rfl, rfl⟩

/-- C30, witness: `DELIVERY_HOUSEHOLD` with the steps PHOTO, SCAN gives the
target `household` of priority 4 and the two steps in this order, with the
priorities 3 and 1; the type `RETURN` gives `ErrUnsupportedInstructionType`. -/
theorem C30_NewInstruction_result_witness :
    ("RETURN" ∉ ["DELIVERY_CUSTOMER", "DELIVERY_HOUSEHOLD", "DELIVERY_3RD_PARTY",
        "FAILED_DELIVERY_CUSTOMER", "FAILED_DELIVERY_WH", "PICKUP_WH", "FAILED_PICKUP_WH",
        "PICKUP_CUSTOMER", "FAILED_PICKUP_CUSTOMER"] ∧
      Domain.NewInstruction "RETURN" ["PHOTO"] = .error Domain.ErrUnsupportedInstructionType) ∧
    (∃ i, Domain.NewInstruction "DELIVERY_HOUSEHOLD" ["PHOTO", "SCAN"] = .ok i ∧
      i.Type_ = "DELIVERY_HOUSEHOLD") ∧
    Domain.NewInstruction "DELIVERY_HOUSEHOLD" ["PHOTO", "SCAN"] =
      .ok { ID := Domain.UUID.Nil, Type_ := "DELIVERY_HOUSEHOLD", Priority := 4,
            Target := "household",
            Steps := [{ Name := "PHOTO", Mandatory := true, Attempts := 1, Priority := 3,
                        ExtraInfo := [], Fallback := { Name := "" } },
                      { Name := "SCAN", Mandatory := true, Attempts := 1, Priority := 1,
                        ExtraInfo := [], Fallback := { Name := "" } }] } :=
  ⟨⟨by decide, (C30_NewInstruction_result "RETURN" ["PHOTO"]).1 (by decide)⟩,
    (let ⟨i, h1, h2, _⟩ :=
      (C30_NewInstruction_result "DELIVERY_HOUSEHOLD" ["PHOTO", "SCAN"]).2 (by decide)
     ⟨i, h1, h2⟩),
    by decide⟩

/-! ## Theorems: default configurations -/

/-- C29: `AddDefaultConfigurations` appends exactly three configurations to
any `RetailerConfiguration` and keeps its `RetailerID`; the configurations
already present stay unchanged and in front. The three are the defaults for
`PICKUP_WH`, `FAILED_PICKUP_WH` and `FAILED_DELIVERY_WH`, in that order; each
carries the `RetailerID` of the aggregate, the operational model `WAREHOUSE`
and a single instruction, whose target is the warehouse. -/
theorem C29_AddDefaultConfigurations_appends_three (c : Domain.RetailerConfiguration) :
    c.AddDefaultConfigurations.RetailerID = c.RetailerID ∧
    c.AddDefaultConfigurations.Configurations.length = c.Configurations.length + 3 ∧
    c.AddDefaultConfigurations.Configurations.take c.Configurations.length =
      c.Configurations ∧
    ∃ d1 d2 d3 i1 i2 i3,
      c.AddDefaultConfigurations.Configurations = c.Configurations ++ [d1, d2, d3] ∧
      d1 = Domain.NewDefaultPickUPWarehouse c.RetailerID ∧
      d2 = Domain.NewDefaultFailedPickUPWarehouse c.RetailerID ∧
      d3 = Domain.NewDefaultFailedDeliveryWarehouse c.RetailerID ∧
      d1.Instructions = [i1] ∧ d2.Instructions = [i2] ∧ d3.Instructions = [i3] ∧
      i1.Type_ = "PICKUP_WH" ∧ i2.Type_ = "FAILED_PICKUP_WH" ∧
      i3.Type_ = "FAILED_DELIVERY_WH" ∧
      (∀ d ∈ [d1, d2, d3], d.RetailerID = c.RetailerID ∧ d.OperationalModel = "WAREHOUSE") ∧
      (∀ i ∈ [i1, i2, i3], i.Target = "warehouse" ∧ i.Priority = 5) := by
  refine ⟨rfl, ?_, ?_, _, _, _, _, _, _, rfl, rfl, rfl, rfl, rfl, rfl, rfl, rfl, rfl, rfl, ?_, ?_⟩
  · simp [Domain.RetailerConfiguration.AddDefaultConfigurations]
  · simp [Domain.RetailerConfiguration.AddDefaultConfigurations]
  · intro d hd
    simp only [List.mem_cons, List.mem_singleton, List.not_mem_nil, or_false] at hd
    rcases hd with h | h | h <;> subst h <;> exact ⟨rfl, rfl⟩
  · intro i hi
    simp only [List.mem_cons, List.mem_singleton, List.not_mem_nil, or_false] at hi
    rcases hi with h | h | h <;> subst h <;> exact ⟨rfl, by decide⟩

/-- C29, witness: an aggregate of retailer `r-1` with one configuration gets
the three defaults behind it, each for retailer `r-1`. -/
theorem C29_AddDefaultConfigurations_appends_three_witness :
    (({ RetailerID := "r-1",
        Configurations := [{ RetailerID := "r-1", OperationalModel := "STORE",
                             ServiceType := "express", DeliveryType := "DIRECT",
                             Country := "ES", Instructions := [] }] } :
      Domain.RetailerConfiguration).AddDefaultConfigurations).Configurations.length = 1 + 3 ∧
    (({ RetailerID := "r-1",
        Configurations := [{ RetailerID := "r-1", OperationalModel := "STORE",
                             ServiceType := "express", DeliveryType := "DIRECT",
                             Country := "ES", Instructions := [] }] } :
      Domain.RetailerConfiguration).AddDefaultConfigurations).Configurations =
      [{ RetailerID := "r-1", OperationalModel := "STORE", ServiceType := "express",
         DeliveryType := "DIRECT", Country := "ES", Instructions := [] },
       Domain.NewDefaultPickUPWarehouse "r-1", Domain.NewDefaultFailedPickUPWarehouse "r-1",
       Domain.NewDefaultFailedDeliveryWarehouse "r-1"] :=
  ⟨(C29_AddDefaultConfigurations_appends_three
      { RetailerID := "r-1",
        Configurations := [{ RetailerID := "r-1", OperationalModel := "STORE",
                             ServiceType := "express", DeliveryType := "DIRECT",
                             Country := "ES", Instructions := [] }] }).2.1,
    by decide⟩

/-! ## Theorems: the use case -/

/-- C26: `ApplyNewRetailerInstruction` first calls
`DeleteConfigurationsByRetailerID` with the retailer ID of the configuration
and the caller's token. If that call returns an error, the same error is
returned and `Create` is not called. Otherwise `Create` is called next, with
the configuration (to which the defaults have been added) and the caller's
token, and what it returns is returned unchanged. The result is nil exactly
when both calls return nil. -/
theorem C26_ApplyNewRetailerInstruction_delete_then_create
    (adapter : Usecase.RetailerInstructionsManager) (config : Domain.RetailerConfiguration)
    (auth0token : String) :
    (∃ rest, (Usecase.ApplyNewRetailerInstruction adapter config auth0token).calls =
      .DeleteConfigurationsByRetailerID config.RetailerID auth0token :: rest) ∧
    (∀ err, adapter.DeleteConfigurationsByRetailerID config.RetailerID auth0token =
        .ok (some err) →
      (Usecase.ApplyNewRetailerInstruction adapter config auth0token).outcome =
        .ok (some err) ∧
      (Usecase.ApplyNewRetailerInstruction adapter config auth0token).calls =
        [.DeleteConfigurationsByRetailerID config.RetailerID auth0token]) ∧
    (adapter.DeleteConfigurationsByRetailerID config.RetailerID auth0token = .ok none →
      (Usecase.ApplyNewRetailerInstruction adapter config auth0token).calls =
        [.DeleteConfigurationsByRetailerID config.RetailerID auth0token,
          .Create config.AddDefaultConfigurations auth0token] ∧
      (Usecase.ApplyNewRetailerInstruction adapter config auth0token).outcome =
        adapter.Create config.AddDefaultConfigurations auth0token) ∧
    ((Usecase.ApplyNewRetailerInstruction adapter config auth0token).outcome = .ok none ↔
      (adapter.DeleteConfigurationsByRetailerID config.RetailerID auth0token = .ok none ∧
        adapter.Create config.AddDefaultConfigurations auth0token = .ok none)) ∧
    (Usecase.ApplyNewRetailerInstruction adapter config auth0token).config =
      config.AddDefaultConfigurations := by
  have hid : config.AddDefaultConfigurations.RetailerID = config.RetailerID := rfl
  unfold Usecase.ApplyNewRetailerInstruction
  simp only [hid]
  cases hdel : adapter.DeleteConfigurationsByRetailerID config.RetailerID auth0token with
  | error p => simp
  | ok r =>
    cases r with
    | some e => simp
    | none =>
      cases hcr : adapter.Create config.AddDefaultConfigurations auth0token with
      | error p => simp
      | ok r2 =>
        cases r2 with
        | some e => simp
        | none => simp

/-- C26, witness: an adapter whose delete succeeds and whose create answers
with a conflict error; and an adapter whose delete fails. -/
theorem C26_ApplyNewRetailerInstruction_delete_then_create_witness :
    (Usecase.ApplyNewRetailerInstruction
        { Create := fun _ _ => .ok (some (.errorx (Errorx.NewErrorf "LMO-ERR-0014"))),
          DeleteConfigurationsByRetailerID := fun _ _ => .ok none }
        { RetailerID := "r-1", Configurations := [] } "token").outcome =
      .ok (some (.errorx (Errorx.NewErrorf "LMO-ERR-0014"))) ∧
    (Usecase.ApplyNewRetailerInstruction
        { Create := fun _ _ => .ok none,
          DeleteConfigurationsByRetailerID := fun _ _ => .ok (some (.other (.other "down"))) }
        { RetailerID := "r-1", Configurations := [] } "token").calls =
      [.DeleteConfigurationsByRetailerID "r-1" "token"] :=
  ⟨((C26_ApplyNewRetailerInstruction_delete_then_create
      { Create := fun _ _ => .ok (some (.errorx (Errorx.NewErrorf "LMO-ERR-0014"))),
        DeleteConfigurationsByRetailerID := fun _ _ => .ok none }
      { RetailerID := "r-1", Configurations := [] } "token").2.2.1 rfl).2,
    ((C26_ApplyNewRetailerInstruction_delete_then_create
      { Create := fun _ _ => .ok none,
        DeleteConfigurationsByRetailerID := fun _ _ => .ok (some (.other (.other "down"))) }
      { RetailerID := "r-1", Configurations := [] } "token").2.1
        (.other (.other "down")) rfl).2⟩

/-! ## Theorems: HTTP statuses of errors -/

/-- C27: `renderErrResponse` gives an `*errorx.Error` the status of its code:
404 for `ErrCodeRetailerNotExist`, 401 for `ErrCodeAuth0AuthMalformed`, 400
for `ErrorCodeInputValidation`, 409 for
`ErrCodeRetailerConfigurationAlreadyExist` and 500 for every other code; an
error of any other type gets 500. -/
theorem C27_renderErrResponse_status (e : Errorx.Error) (g : GoError) :
    (e.code = Errorx.ErrCodeRetailerNotExist →
      (Controller.renderErrResponse (.errorx e)).Status = 404) ∧
    (e.code = Errorx.ErrCodeAuth0AuthMalformed →
      (Controller.renderErrResponse (.errorx e)).Status = 401) ∧
    (e.code = Errorx.ErrorCodeInputValidation →
      (Controller.renderErrResponse (.errorx e)).Status = 400) ∧
    (e.code = Errorx.ErrCodeRetailerConfigurationAlreadyExist →
      (Controller.renderErrResponse (.errorx e)).Status = 409) ∧
    (e.code ∉ [Errorx.ErrCodeRetailerNotExist, Errorx.ErrCodeAuth0AuthMalformed,
        Errorx.ErrorCodeInputValidation, Errorx.ErrCodeRetailerConfigurationAlreadyExist] →
      (Controller.renderErrResponse (.errorx e)).Status = 500) ∧
    (Controller.renderErrResponse (.other g)).Status = 500 := by
  refine ⟨?_, ?_, ?_, ?_, ?_, rfl⟩
  · intro h
    simp only [Controller.renderErrResponse, Errorx.Error.Code, h, if_true]
  · intro h
    rw [Controller.renderErrResponse, Errorx.Error.Code, h, if_neg (by decide), if_pos rfl]
  · intro h
    rw [Controller.renderErrResponse, Errorx.Error.Code, h, if_neg (by decide),
      if_neg (by decide), if_pos rfl]
  · intro h
    rw [Controller.renderErrResponse, Errorx.Error.Code, h, if_neg (by decide),
      if_neg (by decide), if_neg (by decide), if_pos rfl]
  · intro h
    simp only [List.mem_cons, List.mem_singleton, List.not_mem_nil, or_false, not_or] at h
    rw [Controller.renderErrResponse, Errorx.Error.Code, if_neg h.1, if_neg h.2.1,
      if_neg h.2.2.1, if_neg h.2.2.2]

/-- C27, witness: the code `LMO-ERR-0011` gives 404 and the code
`LMO-ERR-0053`, which the function does not name, gives 500. -/
theorem C27_renderErrResponse_status_witness :
    (Controller.renderErrResponse (.errorx { orig := none, code := "LMO-ERR-0011" })).Status =
      404 ∧
    (Controller.renderErrResponse (.errorx { orig := none, code := "LMO-ERR-0053" })).Status =
      500 :=
  ⟨(C27_renderErrResponse_status { orig := none, code := "LMO-ERR-0011" } (.other "")).1 rfl,
    (C27_renderErrResponse_status { orig := none, code := "LMO-ERR-0053" }
      (.other "")).2.2.2.2.1 (by decide)⟩
/-- C28, counterexample: the downstream answers 409 to the delete request.
`DeleteConfigurationsByRetailerID` returns an error with the code
`ErrorCodeInputValidation`, not with the conflict code
`ErrCodeRetailerConfigurationAlreadyExist`. -/
theorem C28_counterexample_delete_conflict :
    ((answeringAdapter 409).DeleteConfigurationsByRetailerID "r-1" "token").outcome =
      .ok (some (.errorx (Errorx.WrapErrorf (some Configurationlmo.ErrValidationLMORequest)
        Errorx.ErrorCodeInputValidation))) ∧
    Errorx.ErrorCodeInputValidation ≠ Errorx.ErrCodeRetailerConfigurationAlreadyExist := by
  decide

/-- C28, amended: when the HTTP client returns a response, its status code
decides the outcome of both adapter operations. The success status (201 for
`Create`, 204 for `DeleteConfigurationsByRetailerID`) gives nil; 401 and 403
give an error with the code `ErrCodeAuth0AuthMalformed`; 400 and 404 give
`ErrorCodeInputValidation`; 409 gives `ErrCodeRetailerConfigurationAlreadyExist`
for `Create` and `ErrorCodeInputValidation` for
`DeleteConfigurationsByRetailerID`; every other status gives
`ErrCodeInternalError`. (`Create` gets as far as the request when the
configuration converts without error.) -/
theorem C28_adapter_status_classification (u : Configurationlmo.configurationManagerLMOAdapter)
    (config : Domain.RetailerConfiguration) (retailerID auth0token : String)
    (reqStruct : Configurationlmo.RetailerConfigurationCreateReq) (resp : ResponseAttributes)
    (hresp : ∀ req, u.httpClient req = (some resp, none))
    (hprep : Configurationlmo.NewRetailerConfigurationCreateReq config = .ok reqStruct) :
    ((resp.statusCode = 201 → (u.Create config auth0token).outcome = .ok none) ∧
      (resp.statusCode = 401 ∨ resp.statusCode = 403 →
        (u.Create config auth0token).outcome =
          .ok (some (.errorx (Errorx.NewErrorf Errorx.ErrCodeAuth0AuthMalformed)))) ∧
      (resp.statusCode = 400 ∨ resp.statusCode = 404 →
        (u.Create config auth0token).outcome =
          .ok (some (.errorx (Errorx.WrapErrorf (some Configurationlmo.ErrValidationLMORequest)
            Errorx.ErrorCodeInputValidation)))) ∧
      (resp.statusCode = 409 →
        (u.Create config auth0token).outcome =
          .ok (some (.errorx
            (Errorx.NewErrorf Errorx.ErrCodeRetailerConfigurationAlreadyExist)))) ∧
      (resp.statusCode ∉ [201, 401, 403, 400, 404, 409] →
        (u.Create config auth0token).outcome =
          .ok (some (.errorx (Errorx.WrapErrorf (some Configurationlmo.ErrConnectionLMOEndpoint)
            Errorx.ErrCodeInternalError))))) ∧
    ((resp.statusCode = 204 →
        (u.DeleteConfigurationsByRetailerID retailerID auth0token).outcome = .ok none) ∧
      (resp.statusCode = 401 ∨ resp.statusCode = 403 →
        (u.DeleteConfigurationsByRetailerID retailerID auth0token).outcome =
          .ok (some (.errorx (Errorx.NewErrorf Errorx.ErrCodeAuth0AuthMalformed)))) ∧
      (resp.statusCode = 400 ∨ resp.statusCode = 404 ∨ resp.statusCode = 409 →
        (u.DeleteConfigurationsByRetailerID retailerID auth0token).outcome =
          .ok (some (.errorx (Errorx.WrapErrorf (some Configurationlmo.ErrValidationLMORequest)
            Errorx.ErrorCodeInputValidation)))) ∧
      (resp.statusCode ∉ [204, 401, 403, 400, 404, 409] →
        (u.DeleteConfigurationsByRetailerID retailerID auth0token).outcome =
          .ok (some (.errorx (Errorx.WrapErrorf (some Configurationlmo.ErrConnectionLMOEndpoint)
            Errorx.ErrCodeInternalError))))) := by
  have hc : (u.Create config auth0token).outcome = .ok (
      if resp.statusCode = 201 then none
      else if resp.statusCode = 401 ∨ resp.statusCode = 403 then
        some (.errorx (Errorx.NewErrorf Errorx.ErrCodeAuth0AuthMalformed))
      else if resp.statusCode = 409 then
        some (.errorx (Errorx.NewErrorf Errorx.ErrCodeRetailerConfigurationAlreadyExist))
      else if resp.statusCode = 400 ∨ resp.statusCode = 404 then
        some (.errorx (Errorx.WrapErrorf (some Configurationlmo.ErrValidationLMORequest)
          Errorx.ErrorCodeInputValidation))
      else
        some (.errorx (Errorx.WrapErrorf (some Configurationlmo.ErrConnectionLMOEndpoint)
          Errorx.ErrCodeInternalError))) := by
    simp only [Configurationlmo.configurationManagerLMOAdapter.Create, hprep, hresp]
  have hd : (u.DeleteConfigurationsByRetailerID retailerID auth0token).outcome = .ok (
      if resp.statusCode = 204 then none
      else if resp.statusCode = 401 ∨ resp.statusCode = 403 then
        some (.errorx (Errorx.NewErrorf Errorx.ErrCodeAuth0AuthMalformed))
      else if resp.statusCode = 400 ∨ resp.statusCode = 404 ∨ resp.statusCode = 409 then
        some (.errorx (Errorx.WrapErrorf (some Configurationlmo.ErrValidationLMORequest)
          Errorx.ErrorCodeInputValidation))
      else
        some (.errorx (Errorx.WrapErrorf (some Configurationlmo.ErrConnectionLMOEndpoint)
          Errorx.ErrCodeInternalError))) := by
    simp only [Configurationlmo.configurationManagerLMOAdapter.DeleteConfigurationsByRetailerID,
      hresp]
  rw [hc, hd]
  refine ⟨⟨?_, ?_, ?_, ?_, ?_⟩, ⟨?_, ?_, ?_, ?_⟩⟩
  · intro h; rw [if_pos h]
  · intro h
    rw [if_neg (by omega), if_pos h]
  · intro h
    rw [if_neg (by omega), if_neg (by omega), if_neg (by omega), if_pos h]
  · intro h
    rw [if_neg (by omega), if_neg (by omega), if_pos h]
  · intro h
    simp only [List.mem_cons, List.mem_singleton, List.not_mem_nil, or_false, not_or] at h
    rw [if_neg h.1, if_neg (by omega), if_neg (by omega), if_neg (by omega)]
  · intro h; rw [if_pos h]
  · intro h
    rw [if_neg (by omega), if_pos h]
  · intro h
    rw [if_neg (by omega), if_neg (by omega), if_pos h]
  · intro h
    simp only [List.mem_cons, List.mem_singleton, List.not_mem_nil, or_false, not_or] at h
    rw [if_neg h.1, if_neg (by omega), if_neg (by omega)]

/-- C28, witness: a downstream that answers 409 to every request, for a
configuration without instructions: `Create` reports the conflict code. -/
theorem C28_adapter_status_classification_witness :
    ((∀ req, (answeringAdapter 409).httpClient req =
        (some { status := "", statusCode := 409, headers := [], body := [] }, none)) ∧
      Configurationlmo.NewRetailerConfigurationCreateReq
        { RetailerID := "r-1", Configurations := [] } = .ok { Instructions := [] }) ∧
    ((answeringAdapter 409).Create { RetailerID := "r-1", Configurations := [] }
        "token").outcome =
      .ok (some (.errorx (Errorx.NewErrorf Errorx.ErrCodeRetailerConfigurationAlreadyExist))) :=
  ⟨⟨fun _ => rfl, rfl⟩,
    (C28_adapter_status_classification (answeringAdapter 409)
      { RetailerID := "r-1", Configurations := [] } "r-1" "token" { Instructions := [] }
      { status := "", statusCode := 409, headers := [], body := [] } (fun _ => rfl) rfl).1.2.2.2.1
      rfl⟩

/-! ## Lemmas: runs without their log events -/

@[simp] theorem withoutLogs_logTo (l : Option Logger) (e : LogEntry) :
    withoutLogs (logTo l e) = [] := by
  cases l <;> rfl

@[simp] theorem withoutLogs_failLog (c : httpClient) (m u : String) (doErr : Option GoError) :
    withoutLogs (failLog c m u doErr) = [] := by
  unfold failLog
  split <;> simp [withoutLogs]

@[simp] theorem withoutLogs_retryLog (c : httpClient) (m u : String) (resp : Option Response)
    (wait : Duration) (remain : Int) :
    withoutLogs (retryLog c m u resp wait remain) = [] := by
  simp [retryLog]

/-- The runs of the theorem on the logger do differ: against the server that
answers 503, 503, 200 the client with a logger writes two log entries, the
client without one writes none, and the other events are the same. -/
theorem DoReq_logging_example :
    (loggingClient.DoReq twoFailuresThenOK sampleRequest).events =
      [.send 0,
        .log sampleLogger (.retrying "GET" sampleRequest.URL (some 503) (1 * Second) 2),
        .wait 0 (1 * Second), .send 1,
        .log sampleLogger (.retrying "GET" sampleRequest.URL (some 503) (2 * Second) 1),
        .wait 1 (2 * Second), .send 2, .closeIdleConnections] ∧
    ((defaultClient 3).DoReq twoFailuresThenOK sampleRequest).events =
      [.send 0, .wait 0 (1 * Second), .send 1, .wait 1 (2 * Second), .send 2,
        .closeIdleConnections] := by
  decide

/-! ## Theorems: the standard client -/

/-- C22: the first `Client()` of a client built from the builder `b`. If the
builder was given a standard client, that client is returned as it is, with
its own timeouts, whatever connection and response timeouts are configured.
Otherwise the client that is constructed has the dial timeout
`ConnectionTimeout()`, the response-header timeout `ResponseTimeout()` and as
overall timeout their sum (the Go sum of two durations, which is their exact
sum whenever that fits 64 bits). Each getter returns the configured value
when that is positive; otherwise 0 when timeouts are disabled and else the
default, 2s for the connection and 5s for the response header. -/
theorem C22_Client_realizes_transport (b : clientBuilder) :
    (∀ given, b.client = some given → b.Build.Client.2 = given) ∧
    (b.client = none →
      b.Build.Client.2.DialTimeout = b.Build.ConnectionTimeout ∧
      b.Build.Client.2.ResponseHeaderTimeout = b.Build.ResponseTimeout ∧
      b.Build.Client.2.Timeout =
        wrapInt64 (b.Build.ConnectionTimeout + b.Build.ResponseTimeout) ∧
      (b.Build.ConnectionTimeout + b.Build.ResponseTimeout < 2 ^ 63 →
        b.Build.Client.2.Timeout = b.Build.ConnectionTimeout + b.Build.ResponseTimeout)) ∧
    (0 < b.connectionTimeout → b.Build.ConnectionTimeout = b.connectionTimeout) ∧
    (0 < b.responseHeaderTimeOut → b.Build.ResponseTimeout = b.responseHeaderTimeOut) ∧
    (b.connectionTimeout ≤ 0 → b.disableTimeouts = false →
      b.Build.ConnectionTimeout = 2 * Second) ∧
    (b.responseHeaderTimeOut ≤ 0 → b.disableTimeouts = false →
      b.Build.ResponseTimeout = 5 * Second) ∧
    (b.connectionTimeout ≤ 0 → b.disableTimeouts = true → b.Build.ConnectionTimeout = 0) ∧
    (b.responseHeaderTimeOut ≤ 0 → b.disableTimeouts = true → b.Build.ResponseTimeout = 0) := by
  have hc0 : 0 ≤ b.Build.ConnectionTimeout := by
    unfold httpClient.ConnectionTimeout clientBuilder.Build DefaultConnectionTimeout Second
    simp only
    split_ifs with h1 h2
    · exact le_of_lt h1
    · exact le_refl _
    · norm_num
  have hr0 : 0 ≤ b.Build.ResponseTimeout := by
    unfold httpClient.ResponseTimeout clientBuilder.Build DefaultResponseHeaderTimeout Second
    simp only
    split_ifs with h1 h2
    · exact le_of_lt h1
    · exact le_refl _
    · norm_num
  refine ⟨?_, ?_, ?_, ?_, ?_, ?_, ?_, ?_⟩
  · intro given h
    simp [httpClient.Client, clientBuilder.Build, h]
  · intro h
    have hT : b.Build.Client.2.Timeout =
        wrapInt64 (b.Build.ConnectionTimeout + b.Build.ResponseTimeout) := by
      simp [httpClient.Client, clientBuilder.Build, h]
    refine ⟨?_, ?_, hT, ?_⟩
    · simp [httpClient.Client, clientBuilder.Build, h]
    · simp [httpClient.Client, clientBuilder.Build, h]
    · intro hlt
      rw [hT]
      exact wrapInt64_of_range (le_trans (by norm_num) (add_nonneg hc0 hr0)) hlt
  · intro h
    simp [httpClient.ConnectionTimeout, clientBuilder.Build, h]
  · intro h
    simp [httpClient.ResponseTimeout, clientBuilder.Build, h]
  · intro h hd
    have : ¬ b.connectionTimeout > 0 := not_lt.mpr h
    simp [httpClient.ConnectionTimeout, clientBuilder.Build, this, hd, DefaultConnectionTimeout]
  · intro h hd
    have : ¬ b.responseHeaderTimeOut > 0 := not_lt.mpr h
    simp [httpClient.ResponseTimeout, clientBuilder.Build, this, hd,
      DefaultResponseHeaderTimeout]
  · intro h hd
    have : ¬ b.connectionTimeout > 0 := not_lt.mpr h
    simp [httpClient.ConnectionTimeout, clientBuilder.Build, this, hd]
  · intro h hd
    have : ¬ b.responseHeaderTimeOut > 0 := not_lt.mpr h
    simp [httpClient.ResponseTimeout, clientBuilder.Build, this, hd]

/-- C22, witness: the three builders of `Test_clientBuilder_Build`. Without
options the client has the timeouts 2s, 5s and 7s; with both timeouts set to
5s it has 5s, 5s and 10s; with a given client whose timeouts are 10s and both
timeouts set to 12s, the given client is returned with its 10s. -/
theorem C22_Client_realizes_transport_witness :
    (NewClientBuilder.client = none ∧
      NewClientBuilder.Build.Client.2 =
        { Timeout := 7 * Second, DialTimeout := 2 * Second,
          ResponseHeaderTimeout := 5 * Second } ∧
      NewClientBuilder.Build.Client.2.Timeout =
        wrapInt64 (NewClientBuilder.Build.ConnectionTimeout +
          NewClientBuilder.Build.ResponseTimeout)) ∧
    ((NewClientBuilder.SetConnectionTimeOut (5 * Second)).SetResponseHeaderTimeout
        (5 * Second)).Build.Client.2 =
      { Timeout := 10 * Second, DialTimeout := 5 * Second,
        ResponseHeaderTimeout := 5 * Second } ∧
    ((((NewClientBuilder.SetHTTPClient (some myHTTPClient)).SetConnectionTimeOut
        (12 * Second)).SetResponseHeaderTimeout (12 * Second)).client = some myHTTPClient ∧
      (((NewClientBuilder.SetHTTPClient (some myHTTPClient)).SetConnectionTimeOut
        (12 * Second)).SetResponseHeaderTimeout (12 * Second)).Build.Client.2 = myHTTPClient) :=
  ⟨⟨rfl, by decide, ((C22_Client_realizes_transport NewClientBuilder).2.1 rfl).2.2.1⟩,
    by decide,
    ⟨rfl, (C22_Client_realizes_transport
      (((NewClientBuilder.SetHTTPClient (some myHTTPClient)).SetConnectionTimeOut
        (12 * Second)).SetResponseHeaderTimeout (12 * Second))).1 myHTTPClient rfl⟩⟩

/-! ## Lemmas: concurrent callers of `Client()` -/

@[simp] theorem Shared.goto_pc_self (s : Shared) (t : Nat) (p : Pc) : (s.goto t p).pc t = p := by
  simp [Shared.goto]

theorem Shared.goto_pc_other (s : Shared) (t : Nat) (p : Pc) {u : Nat} (h : u ≠ t) :
    (s.goto t p).pc u = s.pc u := by
  simp [Shared.goto, h]

/-- Two goroutines inside the critical section are the same goroutine. -/
theorem Shared.Inv.unique {g : Bool} {s : Shared} (inv : s.Inv g) {t u : Nat}
    (ht : (s.pc t).inCriticalSection = true) (hu : (s.pc u).inCriticalSection = true) :
    u = t := by
  have h1 := (inv.mutex t).mp ht
  have h2 := (inv.mutex u).mp hu
  rw [h1] at h2
  exact (Option.some.inj h2).symm

theorem Shared.Inv.init (g : Bool) : Shared.init.Inv g := by
  refine ⟨?_, ?_, ?_, ?_, ?_, ?_, ?_, ?_⟩ <;>
    simp [Shared.init, Pc.inCriticalSection]

/-- A step of a goroutine outside the critical section to a place outside
it, which writes no shared variable. -/
theorem Shared.Inv.move_outside {g : Bool} {s : Shared} (inv : s.Inv g) (t : Nat) (p : Pc)
    (hfrom : (s.pc t).inCriticalSection = false) (hto : p.inCriticalSection = false)
    (hlate : (p = .read ∨ ∃ x, p = .returned x) → s.done = true)
    (hret : ∀ x, p = .returned x → x = some (expectedHandle g)) :
    (s.goto t p).Inv g := by
  have hp1 : ∀ h, p ≠ .assign h := fun h e => by subst e; simp [Pc.inCriticalSection] at hto
  have hp2 : p ≠ .store := fun e => by subst e; simp [Pc.inCriticalSection] at hto
  have hp3 : p ≠ .body := fun e => by subst e; simp [Pc.inCriticalSection] at hto
  have hp4 : p ≠ .unlock := fun e => by subst e; simp [Pc.inCriticalSection] at hto
  have hown : s.owner ≠ some t := fun e => by
    have := (inv.mutex t).mpr e
    rw [hfrom] at this
    cases this
  have hs1 : ∀ h, s.pc t ≠ .assign h := fun h e => by
    rw [e] at hfrom; simp [Pc.inCriticalSection] at hfrom
  have hs2 : s.pc t ≠ .store := fun e => by
    rw [e] at hfrom; simp [Pc.inCriticalSection] at hfrom
  refine ⟨?_, ?_, ?_, ?_, ?_, ?_, ?_, ?_⟩
  · intro u
    by_cases hu : u = t
    · subst hu
      simp [Shared.goto, hto, hown]
    · simpa [Shared.goto, hu] using inv.mutex u
  · intro hd hall
    refine inv.fresh hd (fun u => ?_)
    by_cases hu : u = t
    · subst hu
      exact ⟨hs1, hs2⟩
    · simpa [Shared.goto, hu] using hall u
  · intro u h hu
    by_cases hut : u = t
    · subst hut
      simp only [Shared.goto_pc_self] at hu
      exact absurd hu (hp1 h)
    · rw [Shared.goto_pc_other s t p hut] at hu
      exact inv.atAssign u h hu
  · intro u hu
    by_cases hut : u = t
    · subst hut
      simp only [Shared.goto_pc_self] at hu
      exact absurd hu hp2
    · rw [Shared.goto_pc_other s t p hut] at hu
      exact inv.atStore u hu
  · exact inv.afterDone
  · intro u hu
    by_cases hut : u = t
    · subst hut
      simp only [Shared.goto_pc_self] at hu
      exact absurd hu hp3
    · rw [Shared.goto_pc_other s t p hut] at hu
      exact inv.atBody u hu
  · intro u hu
    by_cases hut : u = t
    · subst hut
      simp only [Shared.goto_pc_self] at hu
      rcases hu with h | h | h
      · exact absurd h hp4
      · exact hlate (Or.inl h)
      · exact hlate (Or.inr h)
    · rw [Shared.goto_pc_other s t p hut] at hu
      exact inv.late u hu
  · intro u x hu
    by_cases hut : u = t
    · subst hut
      simp only [Shared.goto_pc_self] at hu
      exact hret x hu
    · rw [Shared.goto_pc_other s t p hut] at hu
      exact inv.atReturned u x hu

/-- A step of the goroutine `t` while no other goroutine is inside the
critical section: the invariant holds again when the shared variables and the
new place of `t` fit together. -/
theorem Shared.Inv.move_alone {g : Bool} {s : Shared} (inv : s.Inv g) (t : Nat) (p : Pc)
    (s1 : Shared)
    (hothers : ∀ u, u ≠ t → (s.pc u).inCriticalSection = false)
    (hpc : ∀ u, s1.pc u = if u = t then p else s.pc u)
    (hown : s1.owner = if p.inCriticalSection = true then some t else none)
    (hdone : s.done = true → s1.done = true)
    (hfresh : s1.done = false → (∀ h, p ≠ .assign h) → p ≠ .store →
      s1.bodyRuns = 0 ∧ s1.built = 0 ∧ s1.client = none)
    (hassign : ∀ h, p = .assign h →
      s1.done = false ∧ h = expectedHandle g ∧ s1.bodyRuns = 1 ∧
        s1.built = (if g then 0 else 1) ∧ s1.client = none)
    (hstore : p = .store →
      s1.done = false ∧ s1.bodyRuns = 1 ∧ s1.built = (if g then 0 else 1) ∧
        s1.client = some (expectedHandle g))
    (hafter : s1.done = true →
      s1.bodyRuns = 1 ∧ s1.built = (if g then 0 else 1) ∧
        s1.client = some (expectedHandle g))
    (hbody : p = .body → s1.done = false)
    (hlate : (p = .unlock ∨ p = .read ∨ ∃ x, p = .returned x) → s1.done = true)
    (hret : ∀ x, p = .returned x → x = some (expectedHandle g)) :
    s1.Inv g := by
  have hnot : ∀ u, u ≠ t → ∀ q, q.inCriticalSection = true → s.pc u ≠ q := by
    intro u hu q hq e
    have := hothers u hu
    rw [e, hq] at this
    cases this
  refine ⟨?_, ?_, ?_, ?_, hafter, ?_, ?_, ?_⟩
  · intro u
    rw [hpc u, hown]
    by_cases hu : u = t
    · subst hu
      by_cases hp : p.inCriticalSection = true
      · simp [hp]
      · simp [hp]
    · rw [if_neg hu, hothers u hu]
      by_cases hp : p.inCriticalSection = true
      · simp [hp]
        exact fun e => hu e.symm
      · simp [hp]
  · intro hd hall
    have ht := hall t
    rw [hpc t, if_pos rfl] at ht
    exact hfresh hd ht.1 ht.2
  · intro u h hu
    rw [hpc u] at hu
    by_cases hut : u = t
    · rw [if_pos hut] at hu
      exact hassign h hu
    · rw [if_neg hut] at hu
      exact absurd hu (hnot u hut _ rfl)
  · intro u hu
    rw [hpc u] at hu
    by_cases hut : u = t
    · rw [if_pos hut] at hu
      exact hstore hu
    · rw [if_neg hut] at hu
      exact absurd hu (hnot u hut _ rfl)
  · intro u hu
    rw [hpc u] at hu
    by_cases hut : u = t
    · rw [if_pos hut] at hu
      exact hbody hu
    · rw [if_neg hut] at hu
      exact absurd hu (hnot u hut _ rfl)
  · intro u hu
    rw [hpc u] at hu
    by_cases hut : u = t
    · rw [if_pos hut] at hu
      exact hlate hu
    · rw [if_neg hut] at hu
      exact hdone (inv.late u hu)
  · intro u x hu
    rw [hpc u] at hu
    by_cases hut : u = t
    · rw [if_pos hut] at hu
      exact hret x hu
    · rw [if_neg hut] at hu
      exact inv.atReturned u x hu

/-- While a goroutine is inside the critical section, no other one is. -/
theorem Shared.Inv.others_outside {g : Bool} {s : Shared} (inv : s.Inv g) {t : Nat}
    (ht : (s.pc t).inCriticalSection = true) (u : Nat) (hu : u ≠ t) :
    (s.pc u).inCriticalSection = false := by
  cases h : (s.pc u).inCriticalSection with
  | false => rfl
  | true => exact absurd (inv.unique ht h) hu

/-- While the lock holder is not inside `f` nor behind it, and `done` is
not set, `f` has not run. -/
theorem Shared.Inv.fresh_of_holder {g : Bool} {s : Shared} (inv : s.Inv g) {t : Nat}
    (ht : (s.pc t).inCriticalSection = true) (hd : s.done = false)
    (h1 : ∀ h, s.pc t ≠ .assign h) (h2 : s.pc t ≠ .store) :
    s.bodyRuns = 0 ∧ s.built = 0 ∧ s.client = none := by
  refine inv.fresh hd (fun u => ?_)
  by_cases hu : u = t
  · subst hu
    exact ⟨h1, h2⟩
  · have := inv.others_outside ht u hu
    refine ⟨fun h e => ?_, fun e => ?_⟩
    · rw [e] at this; cases this
    · rw [e] at this; cases this

/-- The invariant survives every step of every goroutine. -/
theorem Shared.Inv.step {g : Bool} {s : Shared} (inv : s.Inv g) (t : Nat) :
    (s.step g t).Inv g := by
  unfold Shared.step
  cases hpc : s.pc t with
  | start =>
    simp only
    by_cases hd : s.done = true
    · rw [if_pos hd]
      exact inv.move_outside t .read (by rw [hpc]; rfl) rfl (fun _ => hd)
        (fun x e => by cases e)
    · rw [if_neg hd]
      exact inv.move_outside t .lock (by rw [hpc]; rfl) rfl
        (fun e => by rcases e with e | ⟨x, e⟩ <;> cases e) (fun x e => by cases e)
  | lock =>
    simp only
    cases ho : s.owner with
    | some v => exact inv
    | none =>
      simp only
      have hothers : ∀ u, u ≠ t → (s.pc u).inCriticalSection = false := by
        intro u _
        cases h : (s.pc u).inCriticalSection with
        | false => rfl
        | true =>
          have := (inv.mutex u).mp h
          rw [ho] at this
          cases this
      have hall : ∀ u, (∀ h, s.pc u ≠ .assign h) ∧ s.pc u ≠ .store := by
        intro u
        by_cases hu : u = t
        · subst hu
          rw [hpc]
          exact ⟨fun h e => (by cases e), fun e => (by cases e)⟩
        · have := hothers u hu
          refine ⟨fun h e => ?_, fun e => ?_⟩
          · rw [e] at this; cases this
          · rw [e] at this; cases this
      refine inv.move_alone t .check _ hothers (fun u => rfl) rfl (fun h => h)
        (fun hd _ _ => inv.fresh hd hall) (fun h e => by cases e) (fun e => by cases e)
        inv.afterDone (fun e => by cases e)
        (fun e => by rcases e with e | e | ⟨x, e⟩ <;> cases e) (fun x e => by cases e)
  | check =>
    have hcs : (s.pc t).inCriticalSection = true := congrArg Pc.inCriticalSection hpc
    simp only
    by_cases hd : s.done = true
    · rw [if_pos hd]
      refine inv.move_alone t .unlock _ (inv.others_outside hcs) (fun u => rfl)
        ((inv.mutex t).mp hcs) (fun h => h)
        (fun hd1 _ _ => by rw [Shared.goto] at hd1; simp [hd] at hd1)
        (fun h e => by cases e) (fun e => by cases e)
        inv.afterDone (fun e => by cases e) (fun _ => hd) (fun x e => by cases e)
    · rw [if_neg hd]
      have hd0 : s.done = false := by simpa using hd
      refine inv.move_alone t .body _ (inv.others_outside hcs) (fun u => rfl)
        ((inv.mutex t).mp hcs) (fun h => h)
        (fun _ _ _ => inv.fresh_of_holder hcs hd0 (fun h e => Pc.noConfusion (hpc.symm.trans e))
          (fun e => Pc.noConfusion (hpc.symm.trans e)))
        (fun h e => by cases e) (fun e => by cases e)
        inv.afterDone (fun _ => hd0)
        (fun e => by rcases e with e | e | ⟨x, e⟩ <;> cases e) (fun x e => by cases e)
  | body =>
    have hcs : (s.pc t).inCriticalSection = true := congrArg Pc.inCriticalSection hpc
    have hd0 : s.done = false := inv.atBody t hpc
    obtain ⟨f1, f2, f3⟩ := inv.fresh_of_holder hcs hd0 (fun h e => Pc.noConfusion (hpc.symm.trans e))
      (fun e => Pc.noConfusion (hpc.symm.trans e))
    simp only
    cases g with
    | true =>
      simp only [if_true]
      refine inv.move_alone t (.assign .given) _ (inv.others_outside hcs) (fun u => rfl)
        ((inv.mutex t).mp hcs) (fun h => h)
        (fun _ hne _ => absurd rfl (hne .given))
        (fun h e => ?_) (fun e => by cases e)
        (fun hd1 => by rw [Shared.goto] at hd1; simp [hd0] at hd1) (fun e => by cases e)
        (fun e => by rcases e with e | e | ⟨x, e⟩ <;> cases e) (fun x e => by cases e)
      cases e
      exact ⟨hd0, rfl, by simp [Shared.goto, f1], by simp [Shared.goto, f2],
        by simp [Shared.goto, f3]⟩
    | false =>
      simp only [Bool.false_eq_true, if_false]
      refine inv.move_alone t (.assign (.made s.built)) _ (inv.others_outside hcs)
        (fun u => rfl) ((inv.mutex t).mp hcs) (fun h => h)
        (fun _ hne _ => absurd rfl (hne (.made s.built)))
        (fun h e => ?_) (fun e => by cases e)
        (fun hd1 => by rw [Shared.goto] at hd1; simp [hd0] at hd1) (fun e => by cases e)
        (fun e => by rcases e with e | e | ⟨x, e⟩ <;> cases e) (fun x e => by cases e)
      cases e
      exact ⟨hd0, by rw [f2]; rfl, by simp [Shared.goto, f1], by simp [Shared.goto, f2],
        by simp [Shared.goto, f3]⟩
  | assign h =>
    have hcs : (s.pc t).inCriticalSection = true := congrArg Pc.inCriticalSection hpc
    obtain ⟨a1, a2, a3, a4, a5⟩ := inv.atAssign t h hpc
    simp only
    refine inv.move_alone t .store _ (inv.others_outside hcs) (fun u => rfl)
      ((inv.mutex t).mp hcs) (fun h => h)
      (fun _ _ hne => absurd rfl hne)
      (fun h e => by cases e)
      (fun _ => ⟨a1, a3, a4, by simp [Shared.goto, a2]⟩)
      (fun hd1 => by rw [Shared.goto] at hd1; simp [a1] at hd1) (fun e => by cases e)
      (fun e => by rcases e with e | e | ⟨x, e⟩ <;> cases e) (fun x e => by cases e)
  | store =>
    have hcs : (s.pc t).inCriticalSection = true := congrArg Pc.inCriticalSection hpc
    obtain ⟨a1, a3, a4, a5⟩ := inv.atStore t hpc
    simp only
    refine inv.move_alone t .unlock _ (inv.others_outside hcs) (fun u => rfl)
      ((inv.mutex t).mp hcs) (fun _ => rfl)
      (fun hd1 _ _ => by rw [Shared.goto] at hd1; simp at hd1)
      (fun h e => by cases e) (fun e => by cases e)
      (fun _ => ⟨a3, a4, a5⟩) (fun e => by cases e) (fun _ => rfl) (fun x e => by cases e)
  | unlock =>
    have hcs : (s.pc t).inCriticalSection = true := congrArg Pc.inCriticalSection hpc
    have hd : s.done = true := inv.late t (Or.inl hpc)
    simp only
    refine inv.move_alone t .read _ (inv.others_outside hcs) (fun u => rfl)
      rfl (fun h => h)
      (fun hd1 _ _ => by rw [Shared.goto] at hd1; simp [hd] at hd1)
      (fun h e => by cases e) (fun e => by cases e)
      inv.afterDone (fun e => by cases e) (fun _ => hd) (fun x e => by cases e)
  | read =>
    have hd : s.done = true := inv.late t (Or.inr (Or.inl hpc))
    simp only
    exact inv.move_outside t (.returned s.client) (by rw [hpc]; rfl) rfl (fun _ => hd)
      (fun x e => by cases e; exact (inv.afterDone hd).2.2)
  | returned x => exact inv

/-- The invariant holds after every schedule. -/
theorem Shared.Inv.run {g : Bool} {s : Shared} (inv : s.Inv g) (schedule : List Nat) :
    (s.run g schedule).Inv g := by
  induction schedule generalizing s with
  | nil => exact inv
  | cons t ts ih => exact ih (inv.step t)

/-- At most one `http.Client` has been constructed and `f` has run at most
once. -/
theorem Shared.Inv.at_most_once {g : Bool} {s : Shared} (inv : s.Inv g) :
    s.built ≤ 1 ∧ s.bodyRuns ≤ 1 := by
  have hb : (if g = true then 0 else 1) ≤ 1 := by split <;> decide
  cases hd : s.done with
  | true =>
    obtain ⟨h1, h2, _⟩ := inv.afterDone hd
    rw [h1, h2]
    exact ⟨hb, le_refl _⟩
  | false =>
    by_cases hex : ∃ t, (∃ h, s.pc t = .assign h) ∨ s.pc t = .store
    · obtain ⟨t, ht⟩ := hex
      rcases ht with ⟨h, ht⟩ | ht
      · obtain ⟨_, _, h1, h2, _⟩ := inv.atAssign t h ht
        rw [h1, h2]
        exact ⟨hb, le_refl _⟩
      · obtain ⟨_, h1, h2, _⟩ := inv.atStore t ht
        rw [h1, h2]
        exact ⟨hb, le_refl _⟩
    · have hall : ∀ t, (∀ h, s.pc t ≠ .assign h) ∧ s.pc t ≠ .store := by
        intro t
        refine ⟨fun h e => hex ⟨t, Or.inl ⟨h, e⟩⟩, fun e => hex ⟨t, Or.inr e⟩⟩
      obtain ⟨h1, h2, _⟩ := inv.fresh hd hall
      rw [h1, h2]
      exact ⟨Nat.zero_le _, Nat.zero_le _⟩

/-- A step of the goroutine that holds the mutex moves it. -/
theorem Shared.step_holder_moves (g : Bool) (s : Shared) (u : Nat)
    (hu : (s.pc u).inCriticalSection = true) : (s.step g u).pc u ≠ s.pc u := by
  unfold Shared.step
  cases hpc : s.pc u with
  | start => rw [hpc] at hu; cases hu
  | lock => rw [hpc] at hu; cases hu
  | read => rw [hpc] at hu; cases hu
  | returned x => rw [hpc] at hu; cases hu
  | check =>
    simp only
    split <;> simp
  | body =>
    simp only
    split <;> simp
  | assign h => simp
  | store => simp
  | unlock => simp

/-- No deadlock: a goroutine that has not returned can take a step, unless
it waits for the mutex, and then the goroutine that holds the mutex can take
a step. -/
theorem Shared.Inv.progress {g : Bool} {s : Shared} (inv : s.Inv g) (t : Nat)
    (ht : ∀ x, s.pc t ≠ .returned x) :
    (s.step g t).pc t ≠ s.pc t ∨
      ∃ u, s.owner = some u ∧ (s.step g u).pc u ≠ s.pc u := by
  cases hpc : s.pc t with
  | returned x => exact absurd hpc (ht x)
  | start =>
    left
    unfold Shared.step
    rw [hpc]
    simp only
    split <;> simp
  | read =>
    left
    unfold Shared.step
    rw [hpc]
    simp
  | lock =>
    cases ho : s.owner with
    | none =>
      left
      unfold Shared.step
      rw [hpc]
      simp [ho]
    | some u =>
      right
      exact ⟨u, rfl, Shared.step_holder_moves g s u ((inv.mutex u).mpr ho)⟩
  | check => rw [← hpc]; exact Or.inl (Shared.step_holder_moves g s t (by rw [hpc]; rfl))
  | body => rw [← hpc]; exact Or.inl (Shared.step_holder_moves g s t (by rw [hpc]; rfl))
  | assign h => rw [← hpc]; exact Or.inl (Shared.step_holder_moves g s t (by rw [hpc]; rfl))
  | store => rw [← hpc]; exact Or.inl (Shared.step_holder_moves g s t (by rw [hpc]; rfl))
  | unlock => rw [← hpc]; exact Or.inl (Shared.step_holder_moves g s t (by rw [hpc]; rfl))

/-- Every step that moves a goroutine brings it closer to its return. -/
theorem Shared.step_remaining (g : Bool) (s : Shared) (t : Nat)
    (h : (s.step g t).pc t ≠ s.pc t) :
    ((s.step g t).pc t).remaining < (s.pc t).remaining := by
  unfold Shared.step at h ⊢
  cases hpc : s.pc t with
  | start =>
    simp only
    split <;> simp [Pc.remaining]
  | lock =>
    rw [hpc] at h
    simp only at h ⊢
    cases ho : s.owner with
    | none => simp [Pc.remaining]
    | some v =>
      rw [ho] at h
      simp only at h
      exact absurd hpc h
  | check =>
    simp only
    split <;> simp [Pc.remaining]
  | body =>
    simp only
    split <;> simp [Pc.remaining]
  | assign x => simp [Pc.remaining]
  | store => simp [Pc.remaining]
  | unlock => simp [Pc.remaining]
  | read => simp [Pc.remaining]
  | returned x =>
    rw [hpc] at h
    simp only at h
    exact absurd hpc h

/-! ## Theorems: one standard client under concurrent first use -/

/-- C23: goroutines call `Client()` on one `httpClient` concurrently, in any
number and interleaved by any schedule. In every state they reach, at most one
`http.Client` has been constructed and the function given to `clientOnce.Do`
has run at most once; every caller that has returned got the same non-nil
client (the one given to the builder, or else the one constructed), the field
`client` holds it, and by then the function has run exactly once; so any two
callers that have returned got the same handle. No caller is stuck: one that
has not returned can take a step or waits for the mutex whose holder can take
a step, and every step brings the goroutine that takes it closer to its
return (at most 8 steps). -/
theorem C23_Client_constructed_once (givenClient : Bool) (schedule : List Nat) :
    (Shared.init.run givenClient schedule).built ≤ 1 ∧
    (Shared.init.run givenClient schedule).bodyRuns ≤ 1 ∧
    (∀ t x, (Shared.init.run givenClient schedule).pc t = .returned x →
      x = some (expectedHandle givenClient) ∧
      (Shared.init.run givenClient schedule).client = some (expectedHandle givenClient) ∧
      (Shared.init.run givenClient schedule).bodyRuns = 1 ∧
      (Shared.init.run givenClient schedule).built = (if givenClient then 0 else 1)) ∧
    (∀ t u x y, (Shared.init.run givenClient schedule).pc t = .returned x →
      (Shared.init.run givenClient schedule).pc u = .returned y → x = y) ∧
    (∀ t, (∀ x, (Shared.init.run givenClient schedule).pc t ≠ .returned x) →
      (((Shared.init.run givenClient schedule).step givenClient t).pc t ≠
          (Shared.init.run givenClient schedule).pc t ∨
        ∃ u, (Shared.init.run givenClient schedule).owner = some u ∧
          ((Shared.init.run givenClient schedule).step givenClient u).pc u ≠
            (Shared.init.run givenClient schedule).pc u)) ∧
    (∀ t, ((Shared.init.run givenClient schedule).step givenClient t).pc t ≠
        (Shared.init.run givenClient schedule).pc t →
      (((Shared.init.run givenClient schedule).step givenClient t).pc t).remaining <
        ((Shared.init.run givenClient schedule).pc t).remaining) := by
  have inv := (Shared.Inv.init givenClient).run schedule
  refine ⟨inv.at_most_once.1, inv.at_most_once.2, ?_, ?_, ?_, ?_⟩
  · intro t x hx
    have hd := inv.late t (Or.inr (Or.inr ⟨x, hx⟩))
    obtain ⟨h1, h2, h3⟩ := inv.afterDone hd
    exact ⟨inv.atReturned t x hx, h3, h1, h2⟩
  · intro t u x y hx hy
    rw [inv.atReturned t x hx, inv.atReturned u y hy]
  · intro t ht
    exact inv.progress t ht
  · intro t ht
    exact Shared.step_remaining givenClient _ t ht

/-- C23, witness: four goroutines on a client without a given standard
client. Goroutines 0, 1 and 2 all find `done` unset; 1 takes the mutex and
constructs the client while 0 and 2 wait; 0 and 2 then take the mutex in turn
and find `done` set; 3 arrives afterwards. All four return the client of the
one construction. -/
theorem C23_Client_constructed_once_witness :
    (Shared.init.run false
        [0, 1, 2, 1, 0, 1, 1, 1, 2, 1, 1, 0, 0, 0, 0, 2, 2, 2, 2, 1, 3, 3]).pc 0 =
      .returned (some (.made 0)) ∧
    (Shared.init.run false
        [0, 1, 2, 1, 0, 1, 1, 1, 2, 1, 1, 0, 0, 0, 0, 2, 2, 2, 2, 1, 3, 3]).pc 1 =
      .returned (some (.made 0)) ∧
    (Shared.init.run false
        [0, 1, 2, 1, 0, 1, 1, 1, 2, 1, 1, 0, 0, 0, 0, 2, 2, 2, 2, 1, 3, 3]).pc 2 =
      .returned (some (.made 0)) ∧
    (Shared.init.run false
        [0, 1, 2, 1, 0, 1, 1, 1, 2, 1, 1, 0, 0, 0, 0, 2, 2, 2, 2, 1, 3, 3]).pc 3 =
      .returned (some (.made 0)) ∧
    (Shared.init.run false
        [0, 1, 2, 1, 0, 1, 1, 1, 2, 1, 1, 0, 0, 0, 0, 2, 2, 2, 2, 1, 3, 3]).built = 1 ∧
    (Shared.init.run false
        [0, 1, 2, 1, 0, 1, 1, 1, 2, 1, 1, 0, 0, 0, 0, 2, 2, 2, 2, 1, 3, 3]).bodyRuns = 1 :=
  ⟨by decide, by decide, by decide, by decide,
    ((C23_Client_constructed_once false
      [0, 1, 2, 1, 0, 1, 1, 1, 2, 1, 1, 0, 0, 0, 0, 2, 2, 2, 2, 1, 3, 3]).2.2.1 0
      (some (.made 0)) (by decide)).2.2.2,
    ((C23_Client_constructed_once false
      [0, 1, 2, 1, 0, 1, 1, 1, 2, 1, 1, 0, 0, 0, 0, 2, 2, 2, 2, 1, 3, 3]).2.2.1 0
      (some (.made 0)) (by decide)).2.2.1⟩

/-! ## Lemmas: rounding to a 53-bit significand -/

/-- The binary logarithm of a number between two consecutive powers of two. -/
theorem log2_of_bounds {x k : Nat} (h1 : 2 ^ k ≤ x) (h2 : x < 2 ^ (k + 1)) :
    Nat.log2 x = k := by
  have hx : x ≠ 0 := by
    have : 0 < 2 ^ k := Nat.pos_pow_of_pos _ (by decide)
    omega
  have ha : k ≤ Nat.log2 x := (Nat.le_log2 hx).mpr h1
  have hb : Nat.log2 x < k + 1 := (Nat.log2_lt hx).mpr h2
  omega

/-- The value of `roundNat53` on a number given by its 53 leading bits `q`
and the `e` bits `r` behind them. -/
theorem roundNat53_eq {a e q r : Nat} (he : 1 ≤ e) (hq1 : 2 ^ 52 ≤ q) (hq2 : q < 2 ^ 53)
    (hr : r < 2 ^ e) (ha : a = q * 2 ^ e + r) :
    roundNat53 a =
      if r > 2 ^ (e - 1) ∨ (r = 2 ^ (e - 1) ∧ q % 2 = 1) then (q + 1) * 2 ^ e else q * 2 ^ e := by
  have hpos : 0 < 2 ^ e := Nat.pos_pow_of_pos _ (by decide)
  have hlow : 2 ^ (52 + e) ≤ a := by
    rw [ha, pow_add]
    have := Nat.mul_le_mul_right (2 ^ e) hq1
    omega
  have hhigh : a < 2 ^ (52 + e + 1) := by
    have h53 : 2 ^ (52 + e + 1) = 2 ^ 53 * 2 ^ e := by
      rw [show 52 + e + 1 = 53 + e by omega, pow_add]
    rw [ha, h53]
    have : (q + 1) * 2 ^ e ≤ 2 ^ 53 * 2 ^ e := Nat.mul_le_mul_right (2 ^ e) hq2
    have h2 : (q + 1) * 2 ^ e = q * 2 ^ e + 2 ^ e := by ring
    omega
  have hlog : Nat.log2 a = 52 + e := log2_of_bounds hlow hhigh
  have hbig : ¬ a < 2 ^ 53 := by
    have h1 : 2 ^ 53 ≤ 2 ^ (52 + e) := Nat.pow_le_pow_right (by decide) (by omega)
    omega
  have hdiv : a / 2 ^ e = q := by
    rw [ha, Nat.mul_comm q, Nat.mul_add_div hpos, Nat.div_eq_of_lt hr, Nat.add_zero]
  have hmod : a % 2 ^ e = r := by
    rw [ha, Nat.mul_comm q, Nat.mul_add_mod, Nat.mod_eq_of_lt hr]
  unfold roundNat53
  rw [if_neg hbig]
  simp only [hlog, Nat.add_sub_cancel_left, hdiv, hmod]
  split <;> rfl

/-- Every number from 2^53 on has such a decomposition. -/
theorem roundNat53_decompose {a : Nat} (h : 2 ^ 53 ≤ a) :
    ∃ e q r, 1 ≤ e ∧ 2 ^ 52 ≤ q ∧ q < 2 ^ 53 ∧ r < 2 ^ e ∧ a = q * 2 ^ e + r := by
  have ha : a ≠ 0 := by
    have : 0 < 2 ^ 53 := by norm_num
    omega
  have hL : 53 ≤ Nat.log2 a := (Nat.le_log2 ha).mpr h
  have h1 : 2 ^ Nat.log2 a ≤ a := Nat.log2_self_le ha
  have h2 : a < 2 ^ (Nat.log2 a + 1) := Nat.lt_log2_self
  obtain ⟨e, he⟩ : ∃ e, Nat.log2 a = 52 + e := ⟨Nat.log2 a - 52, by omega⟩
  have hpos : 0 < 2 ^ e := Nat.pos_pow_of_pos _ (by decide)
  rw [he] at h1 h2
  refine ⟨e, a / 2 ^ e, a % 2 ^ e, by omega, ?_, ?_, Nat.mod_lt _ hpos, ?_⟩
  · rw [Nat.le_div_iff_mul_le hpos, ← pow_add]
    exact h1
  · rw [Nat.div_lt_iff_lt_mul hpos, ← pow_add, show 53 + e = 52 + e + 1 by omega]
    exact h2
  · rw [Nat.mul_comm]
    exact (Nat.div_add_mod a (2 ^ e)).symm

/-- Comparing exponents: a number with at least 53 bits before `e` further
bits that is below a number with at most 53 bits before `k` further bits. -/
theorem exponent_le_of_lt {e k x : Nat} (h1 : 2 ^ (52 + e) ≤ x) (h2 : x < 2 ^ (53 + k)) :
    e ≤ k := by
  have h : 2 ^ (52 + e) < 2 ^ (53 + k) := lt_of_le_of_lt h1 h2
  have := (Nat.pow_lt_pow_iff_right (by decide : 1 < 2)).mp h
  omega

/-- A number with a significand of at most 53 bits is its own rounding. -/
theorem roundNat53_of_rep {m k : Nat} (hm : m < 2 ^ 53) :
    roundNat53 (m * 2 ^ k) = m * 2 ^ k := by
  by_cases hs : m * 2 ^ k < 2 ^ 53
  · unfold roundNat53
    rw [if_pos hs]
  · obtain ⟨e, q, r, he, hq1, hq2, hr, ha⟩ := roundNat53_decompose (not_lt.mp hs)
    have hpe : 0 < 2 ^ e := Nat.pos_pow_of_pos _ (by decide)
    have hlow : 2 ^ (52 + e) ≤ m * 2 ^ k := by
      rw [ha, pow_add]
      have := Nat.mul_le_mul_right (2 ^ e) hq1
      omega
    have hhigh : m * 2 ^ k < 2 ^ (53 + k) := by
      rw [pow_add]
      exact Nat.mul_lt_mul_of_pos_right hm (Nat.pos_pow_of_pos _ (by decide))
    have hek : e ≤ k := exponent_le_of_lt hlow hhigh
    have hdvd : 2 ^ e ∣ m * 2 ^ k := Dvd.dvd.mul_left (pow_dvd_pow 2 hek) m
    have hr0 : r = 0 := by
      have hmod : (m * 2 ^ k) % 2 ^ e = r := by
        rw [ha, Nat.mul_comm q, Nat.mul_add_mod, Nat.mod_eq_of_lt hr]
      rw [← hmod]
      exact Nat.mod_eq_zero_of_dvd hdvd
    have hhalf : 0 < 2 ^ (e - 1) := Nat.pos_pow_of_pos _ (by decide)
    rw [roundNat53_eq he hq1 hq2 hr ha, if_neg, ha, hr0, Nat.add_zero]
    rw [hr0]
    intro h
    rcases h with h | ⟨h, _⟩ <;> omega

/-- Every rounded number has a significand of at most 53 bits. -/
theorem roundNat53_rep (a : Nat) : ∃ m k, m < 2 ^ 53 ∧ roundNat53 a = m * 2 ^ k := by
  by_cases hs : a < 2 ^ 53
  · refine ⟨a, 0, hs, ?_⟩
    unfold roundNat53
    rw [if_pos hs, pow_zero, Nat.mul_one]
  · obtain ⟨e, q, r, he, hq1, hq2, hr, ha⟩ := roundNat53_decompose (not_lt.mp hs)
    rw [roundNat53_eq he hq1 hq2 hr ha]
    split
    · by_cases hq : q + 1 < 2 ^ 53
      · exact ⟨q + 1, e, hq, rfl⟩
      · refine ⟨1, 53 + e, by norm_num, ?_⟩
        have : q + 1 = 2 ^ 53 := by omega
        rw [this, pow_add, Nat.one_mul]
    · exact ⟨q, e, hq2, rfl⟩

/-- Rounding does not pass a number with a significand of at most 53 bits. -/
theorem roundNat53_le_of_le_rep {x m k : Nat} (hm : m < 2 ^ 53) (hx : x ≤ m * 2 ^ k) :
    roundNat53 x ≤ m * 2 ^ k := by
  by_cases hs : x < 2 ^ 53
  · unfold roundNat53
    rw [if_pos hs]
    exact hx
  · obtain ⟨e, q, r, he, hq1, hq2, hr, ha⟩ := roundNat53_decompose (not_lt.mp hs)
    have hpe : 0 < 2 ^ e := Nat.pos_pow_of_pos _ (by decide)
    rw [roundNat53_eq he hq1 hq2 hr ha]
    split
    · rename_i hup
      have hhalf : 0 < 2 ^ (e - 1) := Nat.pos_pow_of_pos _ (by decide)
      have hr1 : 1 ≤ r := by rcases hup with h | ⟨h, _⟩ <;> omega
      have hlow : 2 ^ (52 + e) ≤ m * 2 ^ k := by
        rw [pow_add]
        have := Nat.mul_le_mul_right (2 ^ e) hq1
        omega
      have hhigh : m * 2 ^ k < 2 ^ (53 + k) := by
        rw [pow_add]
        exact Nat.mul_lt_mul_of_pos_right hm (Nat.pos_pow_of_pos _ (by decide))
      have hek : e ≤ k := exponent_le_of_lt hlow hhigh
      obtain ⟨j, hj⟩ : ∃ j, k = e + j := ⟨k - e, by omega⟩
      have hy : m * 2 ^ k = (m * 2 ^ j) * 2 ^ e := by rw [hj, pow_add]; ring
      rw [hy] at hx ⊢
      have hlt : q * 2 ^ e < (m * 2 ^ j) * 2 ^ e := by omega
      have hq : q < m * 2 ^ j := Nat.lt_of_mul_lt_mul_right hlt
      exact Nat.mul_le_mul_right (2 ^ e) hq
    · omega

/-- Rounding goes down below the middle between two neighbours. -/
theorem roundNat53_le_of_lt_mid {x q e : Nat} (he : 1 ≤ e) (hq1 : 2 ^ 52 ≤ q)
    (hq2 : q < 2 ^ 53) (hx : x < q * 2 ^ e + 2 ^ (e - 1)) : roundNat53 x ≤ q * 2 ^ e := by
  by_cases hle : x ≤ q * 2 ^ e
  · exact roundNat53_le_of_le_rep hq2 hle
  · obtain ⟨r, hr⟩ : ∃ r, x = q * 2 ^ e + r := ⟨x - q * 2 ^ e, by omega⟩
    have hhalf : 2 ^ (e - 1) ≤ 2 ^ e := Nat.pow_le_pow_right (by decide) (by omega)
    have hr2 : r < 2 ^ e := by omega
    rw [roundNat53_eq he hq1 hq2 hr2 hr, if_neg]
    intro h
    rcases h with h | ⟨h, _⟩ <;> omega

/-- The largest value of `float64(u)` below 2^63. -/
theorem roundNat53_draw_le {u : Nat} (hu : u < 2 ^ 63) (h : roundNat53 u < 2 ^ 63) :
    roundNat53 u ≤ 2 ^ 63 - 2 ^ 10 := by
  by_cases hs : u < 2 ^ 62
  · have := roundNat53_le_of_le_rep (x := u) (m := 1) (k := 62) (by norm_num) (by omega)
    omega
  · obtain ⟨e, q, r, he, hq1, hq2, hr, ha⟩ := roundNat53_decompose (a := u) (by omega)
    have hlow : 2 ^ (52 + e) ≤ u := by
      rw [ha, pow_add]
      have := Nat.mul_le_mul_right (2 ^ e) hq1
      omega
    have hek : e ≤ 10 := exponent_le_of_lt (k := 10) hlow (by norm_num; omega)
    have hke : 10 ≤ e := by
      by_contra hne
      have hlt : u < 2 ^ (53 + 9) := by
        have h53 : q * 2 ^ e + r < (q + 1) * 2 ^ e := by
          have : (q + 1) * 2 ^ e = q * 2 ^ e + 2 ^ e := by ring
          omega
        have h2 : (q + 1) * 2 ^ e ≤ 2 ^ 53 * 2 ^ 9 :=
          Nat.mul_le_mul hq2 (Nat.pow_le_pow_right (by decide) (by omega))
        rw [pow_add]
        omega
      norm_num at hlt hs
      omega
    have he10 : e = 10 := by omega
    subst he10
    have hup : (q + 1) * 2 ^ 10 = q * 2 ^ 10 + 2 ^ 10 := by ring
    rw [roundNat53_eq he hq1 hq2 hr ha] at h ⊢
    by_cases hc : r > 2 ^ (10 - 1) ∨ (r = 2 ^ (10 - 1) ∧ q % 2 = 1)
    · rw [if_pos hc] at h ⊢
      rw [hup] at h ⊢
      omega
    · rw [if_neg hc]
      omega

/-- The jitter never exceeds the span: for a span `d` and a factor
`u / 2^63` below 1, the product of the two float64 values, rounded and cut to
an integer, is at most `d`. -/
theorem jitter_le_span {d u : Nat} (hu : u ≤ 2 ^ 63 - 2 ^ 10) :
    roundNat53 (u * roundNat53 d) / 2 ^ 63 ≤ d := by
  have h63 : 0 < 2 ^ 63 := by norm_num
  by_cases hs : d < 2 ^ 53
  · have hD : roundNat53 d = d := by
      unfold roundNat53
      rw [if_pos hs]
    rw [hD]
    have hx : u * d ≤ d * 2 ^ 63 := by
      rw [Nat.mul_comm u d]
      exact Nat.mul_le_mul_left d (by omega)
    have := roundNat53_le_of_le_rep hs hx
    exact (Nat.div_le_iff_le_mul_add_pred h63).mpr (by omega)
  · obtain ⟨e, q, r, he, hq1, hq2, hr, ha⟩ := roundNat53_decompose (not_lt.mp hs)
    have hpe : 0 < 2 ^ e := Nat.pos_pow_of_pos _ (by decide)
    have hgoal : roundNat53 (u * roundNat53 d) ≤ q * 2 ^ (e + 63) := by
      rw [roundNat53_eq he hq1 hq2 hr ha]
      split
      · apply roundNat53_le_of_lt_mid (by omega) hq1 hq2
        have hE : e + 63 - 1 = e + 62 := by omega
        rw [hE, pow_add, pow_add]
        have hA : (q + 1) * 2 ^ e = q * 2 ^ e + 2 ^ e := by ring
        have h1 : u * (q * 2 ^ e + 2 ^ e) ≤ (2 ^ 63 - 2 ^ 10) * (q * 2 ^ e + 2 ^ e) :=
          Nat.mul_le_mul_right _ hu
        have h2 : 2 ^ 52 * 2 ^ e ≤ q * 2 ^ e := Nat.mul_le_mul_right _ hq1
        have h4 : q * (2 ^ e * 2 ^ 63) + 2 ^ e * 2 ^ 62 =
            2 ^ 63 * (q * 2 ^ e) + 2 ^ 62 * 2 ^ e := by ring
        rw [hA, h4]
        omega
      · apply roundNat53_le_of_le_rep hq2
        rw [pow_add]
        have h1 : u * (q * 2 ^ e) ≤ 2 ^ 63 * (q * 2 ^ e) := Nat.mul_le_mul_right _ (by omega)
        have h4 : q * (2 ^ e * 2 ^ 63) = 2 ^ 63 * (q * 2 ^ e) := by ring
        rw [h4]
        exact h1
    have hq : q * 2 ^ (e + 63) = (q * 2 ^ e) * 2 ^ 63 := by rw [pow_add]; ring
    rw [hq] at hgoal
    have : roundNat53 (u * roundNat53 d) / 2 ^ 63 ≤ q * 2 ^ e :=
      (Nat.div_le_iff_le_mul_add_pred h63).mpr (by omega)
    omega

/-- The draw 2^62, for which `Float64()` is one half, is a float64. -/
theorem roundNat53_half : roundNat53 (2 ^ 62) = 2 ^ 62 := by
  have := roundNat53_of_rep (m := 2 ^ 52) (k := 10) (by norm_num)
  norm_num at this ⊢
  exact this

/-- One half of two seconds: the jitter for the draw 2^62 and the span 2s. -/
theorem jitter_half_of_two_seconds :
    roundNat53 (roundNat53 (2 ^ 62) * 2000000000) / 2 ^ 63 = 1000000000 := by
  rw [roundNat53_half]
  have := roundNat53_of_rep (m := 2000000000) (k := 62) (by norm_num)
  rw [Nat.mul_comm] at this
  rw [this]
  norm_num

/-- The value of `LinearJitterBackoff` for `lo < hi` when nothing overflows:
`lo` plus a jitter between 0 and `hi - lo`, times `n + 1`. -/
theorem LinearJitterBackoff_jitter (lo hi n : Int) (resp : Option Response) (draw : Nat)
    (hn : 0 ≤ n) (hn2 : n + 1 < 2 ^ 63) (hlt : lo < hi) (hlo : -(2 ^ 63) ≤ lo)
    (hhi : hi < 2 ^ 63) (hspan : hi - lo < 2 ^ 63) (hdraw : draw < 2 ^ 63)
    (hone : roundNat53 draw < 2 ^ 63)
    (hmin : -(2 ^ 63) ≤ lo * (n + 1)) (hmax : hi * (n + 1) < 2 ^ 63) :
    ∃ j : Nat, (j : Int) ≤ hi - lo ∧
      LinearJitterBackoff lo hi n resp draw = (lo + j) * (n + 1) := by
  have h1 : wrapInt64 (n + 1) = n + 1 := wrapInt64_of_range (by omega) hn2
  have hd : wrapInt64 (hi - lo) = hi - lo := wrapInt64_of_range (by omega) hspan
  have hf : float64OfInt (hi - lo) = ((roundNat53 (hi - lo).natAbs : Nat) : Int) := by
    unfold float64OfInt
    rw [if_neg (by omega)]
  have hnn : ¬ (((roundNat53 (hi - lo).natAbs : Nat) : Int) < 0) := by omega
  have hmag : roundNat53 (roundNat53 draw * roundNat53 (hi - lo).natAbs) / 2 ^ 63 ≤
      (hi - lo).natAbs := jitter_le_span (roundNat53_draw_le hdraw hone)
  have habs : (((hi - lo).natAbs : Nat) : Int) = hi - lo := Int.natAbs_of_nonneg (by omega)
  suffices hs : ∀ j : Nat,
      j = roundNat53 (roundNat53 draw * roundNat53 (hi - lo).natAbs) / 2 ^ 63 →
      (j : Int) ≤ hi - lo ∧ LinearJitterBackoff lo hi n resp draw = (lo + j) * (n + 1) from
    ⟨_, (hs _ rfl).1, (hs _ rfl).2⟩
  intro j hj
  rw [← hj] at hmag
  have hjle : (j : Int) ≤ hi - lo := by omega
  refine ⟨hjle, ?_⟩
  have hj0 : (0 : Int) ≤ j := Int.ofNat_nonneg j
  have hwrap : wrapInt64 ((j : Int) + lo) = j + lo :=
    wrapInt64_of_range (by omega) (by omega)
  have hn1 : (0 : Int) ≤ n + 1 := by omega
  have hb1 : lo * (n + 1) ≤ ((j : Int) + lo) * (n + 1) :=
    mul_le_mul_of_nonneg_right (by omega) hn1
  have hb2 : ((j : Int) + lo) * (n + 1) ≤ hi * (n + 1) :=
    mul_le_mul_of_nonneg_right (by omega) hn1
  have hres : wrapInt64 (((j : Int) + lo) * (n + 1)) = ((j : Int) + lo) * (n + 1) :=
    wrapInt64_of_range (le_trans hmin hb1) (lt_of_le_of_lt hb2 hmax)
  unfold LinearJitterBackoff
  simp only [h1, hd, hf, if_neg (not_le.mpr hlt), if_neg hnn, Int.natAbs_ofNat, ← hj, hwrap,
    hres]
  ring

/-- The value of `LinearJitterBackoff` for `lo < hi` and a span below 2^53,
which `float64` represents exactly. -/
theorem LinearJitterBackoff_of_lt (lo hi n : Int) (resp : Option Response) (draw span : Nat)
    (hlt : lo < hi) (hspan : wrapInt64 (hi - lo) = span) (hsmall : span < 2 ^ 53) :
    LinearJitterBackoff lo hi n resp draw =
      wrapInt64 (wrapInt64 (((roundNat53 (roundNat53 draw * span) / 2 ^ 63 : Nat) : Int) + lo) *
        wrapInt64 (n + 1)) := by
  have hf : float64OfInt (span : Int) = (span : Int) :=
    float64OfInt_small (Int.ofNat_nonneg span) (by exact_mod_cast hsmall)
  have hnn : ¬ ((span : Int) < 0) := not_lt.mpr (Int.ofNat_nonneg span)
  unfold LinearJitterBackoff
  simp only [hspan, hf, if_neg (not_le.mpr hlt), if_neg hnn, Int.natAbs_ofNat]

/-! ## Theorems: the linear backoff with jitter -/

/-- C24, counterexample: `lo` = 1s, `hi` = 3s, the attempt number
4999999999 and the draw for which `Float64()` is one half. The jitter is 1s
and the product 2s * 5000000000 wraps around: the result is negative, below
`lo * (n + 1)` and below `hi * (n + 1)`, also when these two are computed in
64-bit arithmetic. -/
theorem C24_counterexample_product_wraps :
    ((2 : Nat) ^ 62 < 2 ^ 63 ∧ roundNat53 (2 ^ 62) < 2 ^ 63) ∧
    LinearJitterBackoff Second (3 * Second) 4999999999 none (2 ^ 62) =
      -8446744073709551616 ∧
    Second * (4999999999 + 1) = 5000000000000000000 ∧
    wrapInt64 (Second * (4999999999 + 1)) = 5000000000000000000 ∧
    3 * Second * (4999999999 + 1) = 15000000000000000000 ∧
    wrapInt64 (3 * Second * (4999999999 + 1)) = -3446744073709551616 := by
  refine ⟨⟨by norm_num, by rw [roundNat53_half]; norm_num⟩, ?_, by norm_num [Second],
    by norm_num [Second, wrapInt64], by norm_num [Second], by norm_num [Second, wrapInt64]⟩
  rw [LinearJitterBackoff_of_lt Second (3 * Second) 4999999999 none (2 ^ 62) 2000000000
    (by norm_num [Second]) (by norm_num [wrapInt64, Second]) (by norm_num),
    jitter_half_of_two_seconds]
  norm_num [wrapInt64, Second]

/-- C24, amended: for every attempt number `0 <= n < 2^63 - 1`. When
`hi <= lo`, `LinearJitterBackoff` returns `lo * (n + 1)` computed in 64-bit
arithmetic, whatever the response and the random draw; that is exactly
`lo * (n + 1)` when the product fits a duration. When `lo < hi`, the span
`hi - lo` and the two bounds `lo * (n + 1)` and `hi * (n + 1)` fit a duration,
the result lies between `lo * (n + 1)` and `hi * (n + 1)`, for every draw of
`Float64()`. -/
theorem C24_LinearJitterBackoff_bounds (lo hi n : Int) (resp : Option Response) (draw : Nat)
    (hn : 0 ≤ n) (hn2 : n + 1 < 2 ^ 63) :
    (hi ≤ lo →
      LinearJitterBackoff lo hi n resp draw = wrapInt64 (lo * (n + 1)) ∧
      (∀ resp1 draw1, LinearJitterBackoff lo hi n resp1 draw1 =
        LinearJitterBackoff lo hi n resp draw) ∧
      (-(2 ^ 63) ≤ lo * (n + 1) → lo * (n + 1) < 2 ^ 63 →
        LinearJitterBackoff lo hi n resp draw = lo * (n + 1))) ∧
    (lo < hi → -(2 ^ 63) ≤ lo → hi < 2 ^ 63 → hi - lo < 2 ^ 63 →
      draw < 2 ^ 63 → roundNat53 draw < 2 ^ 63 →
      -(2 ^ 63) ≤ lo * (n + 1) → hi * (n + 1) < 2 ^ 63 →
      lo * (n + 1) ≤ LinearJitterBackoff lo hi n resp draw ∧
      LinearJitterBackoff lo hi n resp draw ≤ hi * (n + 1)) := by
  have h1 : wrapInt64 (n + 1) = n + 1 := wrapInt64_of_range (by omega) hn2
  have hn1 : (0 : Int) ≤ n + 1 := by omega
  refine ⟨?_, ?_⟩
  · intro hle
    have hval : ∀ r d, LinearJitterBackoff lo hi n r d = wrapInt64 (lo * (n + 1)) := by
      intro r d
      unfold LinearJitterBackoff
      simp only [h1, if_pos hle]
    refine ⟨hval resp draw, fun r d => by rw [hval r d, hval resp draw], ?_⟩
    intro ha hb
    rw [hval resp draw, wrapInt64_of_range ha hb]
  · intro hlt hlo hhi hspan hdraw hone hmin hmax
    obtain ⟨j, hj, hval⟩ := LinearJitterBackoff_jitter lo hi n resp draw hn hn2 hlt hlo hhi
      hspan hdraw hone hmin hmax
    have hj0 : (0 : Int) ≤ j := Int.ofNat_nonneg j
    rw [hval]
    have hb1 : lo ≤ lo + (j : Int) := by omega
    have hb2 : lo + (j : Int) ≤ hi := by omega
    exact ⟨mul_le_mul_of_nonneg_right hb1 hn1, mul_le_mul_of_nonneg_right hb2 hn1⟩

/-- C24, witness: with `lo` = `hi` = 1s the third wait (`n` = 2) is 3s; with
`lo` = 1s, `hi` = 3s and the draw for which `Float64()` is one half it lies
between 3s and 9s. -/
theorem C24_LinearJitterBackoff_bounds_witness :
    (LinearJitterBackoff Second Second 2 none 0 = Second * (2 + 1)) ∧
    (Second * (2 + 1) ≤ LinearJitterBackoff Second (3 * Second) 2 none (2 ^ 62) ∧
      LinearJitterBackoff Second (3 * Second) 2 none (2 ^ 62) ≤ 3 * Second * (2 + 1)) :=
  ⟨((C24_LinearJitterBackoff_bounds Second Second 2 none 0 (by decide) (by decide)).1
      (le_refl _)).2.2 (by decide) (by decide),
    (C24_LinearJitterBackoff_bounds Second (3 * Second) 2 none (2 ^ 62) (by decide)
      (by decide)).2 (by decide) (by decide) (by decide) (by decide) (by norm_num)
      (by rw [roundNat53_half]; norm_num) (by decide) (by decide)⟩

/-! ## Theorems: disabled timeouts -/

/-- C31: what the getters return after `DisableTimeouts(true)`. A connection
or response-header timeout that is configured and positive is returned as it
is, whether it was set before or after `DisableTimeouts`: the getters test
the configured value first and the flag `disableTimeouts` only when that
value is not positive. Only a timeout that is not configured (or not
positive) becomes 0. -/
theorem C31_DisableTimeouts_keeps_configured_timeouts (b : clientBuilder) (conn resp : Int)
    (hconn : 0 < conn) (hresp : 0 < resp) :
    (((b.SetConnectionTimeOut conn).SetResponseHeaderTimeout resp).DisableTimeouts
        true).Build.ConnectionTimeout = conn ∧
    (((b.SetConnectionTimeOut conn).SetResponseHeaderTimeout resp).DisableTimeouts
        true).Build.ResponseTimeout = resp ∧
    (((b.DisableTimeouts true).SetConnectionTimeOut conn).SetResponseHeaderTimeout
        resp).Build.ConnectionTimeout = conn ∧
    (((b.DisableTimeouts true).SetConnectionTimeOut conn).SetResponseHeaderTimeout
        resp).Build.ResponseTimeout = resp ∧
    (b.connectionTimeout ≤ 0 → (b.DisableTimeouts true).Build.ConnectionTimeout = 0) ∧
    (b.responseHeaderTimeOut ≤ 0 → (b.DisableTimeouts true).Build.ResponseTimeout = 0) := by
  refine ⟨?_, ?_, ?_, ?_, ?_, ?_⟩
  · simp [httpClient.ConnectionTimeout, clientBuilder.Build, clientBuilder.DisableTimeouts,
      clientBuilder.SetResponseHeaderTimeout, clientBuilder.SetConnectionTimeOut, hconn]
  · simp [httpClient.ResponseTimeout, clientBuilder.Build, clientBuilder.DisableTimeouts,
      clientBuilder.SetResponseHeaderTimeout, clientBuilder.SetConnectionTimeOut, hresp]
  · simp [httpClient.ConnectionTimeout, clientBuilder.Build, clientBuilder.DisableTimeouts,
      clientBuilder.SetResponseHeaderTimeout, clientBuilder.SetConnectionTimeOut, hconn]
  · simp [httpClient.ResponseTimeout, clientBuilder.Build, clientBuilder.DisableTimeouts,
      clientBuilder.SetResponseHeaderTimeout, clientBuilder.SetConnectionTimeOut, hresp]
  · intro h
    have : ¬ b.connectionTimeout > 0 := not_lt.mpr h
    simp [httpClient.ConnectionTimeout, clientBuilder.Build, clientBuilder.DisableTimeouts, this]
  · intro h
    have : ¬ b.responseHeaderTimeOut > 0 := not_lt.mpr h
    simp [httpClient.ResponseTimeout, clientBuilder.Build, clientBuilder.DisableTimeouts, this]

/-- C31, witness: both timeouts set to 5s and then `DisableTimeouts(true)`:
the getters return 5s, not 0, and the client that is constructed has the
overall timeout 10s. -/
theorem C31_DisableTimeouts_keeps_configured_timeouts_witness :
    (((NewClientBuilder.SetConnectionTimeOut (5 * Second)).SetResponseHeaderTimeout
        (5 * Second)).DisableTimeouts true).Build.ConnectionTimeout = 5 * Second ∧
    (((NewClientBuilder.SetConnectionTimeOut (5 * Second)).SetResponseHeaderTimeout
        (5 * Second)).DisableTimeouts true).Build.ResponseTimeout = 5 * Second ∧
    (((NewClientBuilder.SetConnectionTimeOut (5 * Second)).SetResponseHeaderTimeout
        (5 * Second)).DisableTimeouts true).Build.Client.2.Timeout = 10 * Second ∧
    (5 * Second ≠ 0) :=
  ⟨(C31_DisableTimeouts_keeps_configured_timeouts NewClientBuilder (5 * Second) (5 * Second)
      (by decide) (by decide)).1,
    (C31_DisableTimeouts_keeps_configured_timeouts NewClientBuilder (5 * Second) (5 * Second)
      (by decide) (by decide)).2.1,
    by decide, by decide⟩

/-! ## Theorems: the panic of the default backoff -/

/-- C33: `DefaultBackoff` is not total. It panics, indexing `s[0]` out of
range, exactly for a response with status 429 or 503 whose header map holds
the key `Retry-After` with an empty list of values; for every other input it
returns a duration. -/
theorem C33_DefaultBackoff_panics_on_empty_retry_after (lo hi : Duration) (n : Int)
    (resp : Option Response) :
    (DefaultBackoff lo hi n resp = .error .indexOutOfRange ↔
      ∃ r, resp = some r ∧ (r.StatusCode = 429 ∨ r.StatusCode = 503) ∧
        r.Header.lookup "Retry-After" = some []) ∧
    ((¬ ∃ r, resp = some r ∧ (r.StatusCode = 429 ∨ r.StatusCode = 503) ∧
        r.Header.lookup "Retry-After" = some []) →
      ∃ d, DefaultBackoff lo hi n resp = .ok d) := by
  have hpanic : ∀ r : Response, (r.StatusCode = 429 ∨ r.StatusCode = 503) →
      r.Header.lookup "Retry-After" = some [] →
      DefaultBackoff lo hi n (some r) = .error .indexOutOfRange := by
    intro r hs hl
    simp only [DefaultBackoff, if_pos hs, hl]
  have hok : (¬ ∃ r, resp = some r ∧ (r.StatusCode = 429 ∨ r.StatusCode = 503) ∧
        r.Header.lookup "Retry-After" = some []) →
      ∃ d, DefaultBackoff lo hi n resp = .ok d := by
    intro hno
    cases resp with
    | none => exact ⟨_, rfl⟩
    | some r =>
      by_cases hs : r.StatusCode = 429 ∨ r.StatusCode = 503
      · exact DefaultBackoff_ok lo hi n r (fun hl => hno ⟨r, rfl, hs, hl⟩)
      · exact ⟨exponentialSleep lo hi n, by simp only [DefaultBackoff, if_neg hs]⟩
  refine ⟨⟨?_, ?_⟩, hok⟩
  · intro h
    by_contra hno
    obtain ⟨d, hd⟩ := hok hno
    rw [hd] at h
    cases h
  · rintro ⟨r, rfl, hs, hl⟩
    exact hpanic r hs hl

/-- C33, witness: a 429 response with `Retry-After` mapped to an empty list
makes `DefaultBackoff(1s, 30s, 0, resp)` panic. -/
theorem C33_DefaultBackoff_panics_on_empty_retry_after_witness :
    DefaultBackoff Second (30 * Second) 0 (some emptyRetryAfter) = .error .indexOutOfRange :=
  (C33_DefaultBackoff_panics_on_empty_retry_after Second (30 * Second) 0
    (some emptyRetryAfter)).1.mpr ⟨emptyRetryAfter, rfl, Or.inl rfl, by decide⟩

/-! ## Theorems: the request of `Create` -/

/-- C34: for a configuration that converts without error, `Create` hands
exactly one request to the HTTP client. Its method is GET, not POST; its URL
is the one `PrepareEndpoint` returns for POST,
`{baseURL}/retailers/{retailerID}/configurations`; its only header is
`X-Forwarded-Authorization` with the caller's token; its body is the
converted configuration. -/
theorem C34_Create_sends_GET (u : Configurationlmo.configurationManagerLMOAdapter)
    (config : Domain.RetailerConfiguration) (auth0token : String)
    (reqStruct : Configurationlmo.RetailerConfigurationCreateReq)
    (hprep : Configurationlmo.NewRetailerConfigurationCreateReq config = .ok reqStruct) :
    (u.Create config auth0token).requests =
      [{ Method := "GET",
         URL := u.baseURL ++ "/retailers/" ++ config.RetailerID ++ "/configurations",
         Headers := [("X-Forwarded-Authorization", [auth0token])],
         Body := some reqStruct, Retry := false }] ∧
    u.PrepareEndpoint "POST" config.RetailerID =
      u.baseURL ++ "/retailers/" ++ config.RetailerID ++ "/configurations" := by
  have hurl : u.PrepareEndpoint "POST" config.RetailerID =
      u.baseURL ++ "/retailers/" ++ config.RetailerID ++ "/configurations" := by
    unfold Configurationlmo.configurationManagerLMOAdapter.PrepareEndpoint
    rw [if_pos (Or.inr rfl)]
  have hkey : CanonicalMIMEHeaderKey Configurationlmo.HeaderAuthorizationForwarded =
      "X-Forwarded-Authorization" := by decide
  have hhdr : Header.Add [] Configurationlmo.HeaderAuthorizationForwarded auth0token =
      [("X-Forwarded-Authorization", [auth0token])] := by
    simp [Header.Add, hkey, Header.store, Header.lookup]
  refine ⟨?_, hurl⟩
  unfold Configurationlmo.configurationManagerLMOAdapter.Create
  rw [hprep]
  simp only [hurl, hhdr]
  split <;> rfl

/-- C34, witness: the configuration of retailer `r-1` without instructions,
sent with the token `token` to the adapter for `https://lmo.example`. -/
theorem C34_Create_sends_GET_witness :
    ((answeringAdapter 201).Create { RetailerID := "r-1", Configurations := [] }
        "token").requests =
      [{ Method := "GET", URL := "https://lmo.example/retailers/r-1/configurations",
         Headers := [("X-Forwarded-Authorization", ["token"])],
         Body := some { Instructions := [] }, Retry := false }] :=
  (C34_Create_sends_GET (answeringAdapter 201) { RetailerID := "r-1", Configurations := [] }
    "token" { Instructions := [] } rfl).1

/-! ## Lemmas: the rule table -/

/-- The countries and instruction types that are supported, and the outcome
of `NewInstructionByTypeAndCountry` on each pair of them, checked pair by
pair: it succeeds; the instruction has the requested type; its target is
`Target()` of the type, a valid target, with the priority `Priority()` of that
target, which is not 0; it has no step exactly for `FAILED_DELIVERY_WH` in FR
and IT and for `PICKUP_CUSTOMER` in FR, IT and PT; and a step name occurs
twice exactly for `DELIVERY_CUSTOMER` in FR. -/
theorem ruleTable_checked :
    ∀ c ∈ ["ES", "IT", "FR", "PT"],
      ∀ t ∈ ["DELIVERY_CUSTOMER", "DELIVERY_HOUSEHOLD", "DELIVERY_3RD_PARTY",
        "FAILED_DELIVERY_CUSTOMER", "FAILED_DELIVERY_WH", "PICKUP_WH", "FAILED_PICKUP_WH",
        "PICKUP_CUSTOMER", "FAILED_PICKUP_CUSTOMER"],
      (match Domain.NewInstructionByTypeAndCountry c t with
        | .ok i =>
          decide (i.Type_ = t ∧
            i.Target = Domain.InstructionType.Target t ∧
            Domain.InstructionTarget.IsActionTargetValid i.Target = none ∧
            i.Priority = Domain.InstructionTarget.Priority i.Target ∧
            i.Priority ≠ 0 ∧
            (i.Steps = [] ↔
              (t = "FAILED_DELIVERY_WH" ∧ (c = "FR" ∨ c = "IT")) ∨
                (t = "PICKUP_CUSTOMER" ∧ (c = "FR" ∨ c = "IT" ∨ c = "PT"))) ∧
            ((i.Steps.map (fun s => s.Name)).Nodup ↔ ¬ (c = "FR" ∧ t = "DELIVERY_CUSTOMER")) ∧
            ((i.Steps.map (fun s => s.Priority)).Nodup ↔
              ¬ (c = "FR" ∧ t = "DELIVERY_CUSTOMER")))
        | .error _ => false) = true := by
  decide

/-- The facts of `ruleTable_checked` for one supported pair. -/
theorem ruleTable_facts (c t : String) (hc : c ∈ ["ES", "IT", "FR", "PT"])
    (ht : t ∈ ["DELIVERY_CUSTOMER", "DELIVERY_HOUSEHOLD", "DELIVERY_3RD_PARTY",
      "FAILED_DELIVERY_CUSTOMER", "FAILED_DELIVERY_WH", "PICKUP_WH", "FAILED_PICKUP_WH",
      "PICKUP_CUSTOMER", "FAILED_PICKUP_CUSTOMER"]) :
    ∃ i, Domain.NewInstructionByTypeAndCountry c t = .ok i ∧
      i.Type_ = t ∧
      i.Target = Domain.InstructionType.Target t ∧
      Domain.InstructionTarget.IsActionTargetValid i.Target = none ∧
      i.Priority = Domain.InstructionTarget.Priority i.Target ∧
      i.Priority ≠ 0 ∧
      (i.Steps = [] ↔
        (t = "FAILED_DELIVERY_WH" ∧ (c = "FR" ∨ c = "IT")) ∨
          (t = "PICKUP_CUSTOMER" ∧ (c = "FR" ∨ c = "IT" ∨ c = "PT"))) ∧
      ((i.Steps.map (fun s => s.Name)).Nodup ↔ ¬ (c = "FR" ∧ t = "DELIVERY_CUSTOMER")) ∧
      ((i.Steps.map (fun s => s.Priority)).Nodup ↔ ¬ (c = "FR" ∧ t = "DELIVERY_CUSTOMER")) := by
  have key := ruleTable_checked c hc t ht
  cases hnew : Domain.NewInstructionByTypeAndCountry c t with
  | error e =>
    rw [hnew] at key
    cases key
  | ok i =>
    rw [hnew] at key
    exact ⟨i, rfl, of_decide_eq_true key⟩

/-- A pair for which `NewInstructionByTypeAndCountry` succeeds is supported. -/
theorem NewInstructionByTypeAndCountry_supported {c t : String} {i : Domain.Instruction}
    (h : Domain.NewInstructionByTypeAndCountry c t = .ok i) :
    c ∈ ["ES", "IT", "FR", "PT"] ∧
    t ∈ ["DELIVERY_CUSTOMER", "DELIVERY_HOUSEHOLD", "DELIVERY_3RD_PARTY",
      "FAILED_DELIVERY_CUSTOMER", "FAILED_DELIVERY_WH", "PICKUP_WH", "FAILED_PICKUP_WH",
      "PICKUP_CUSTOMER", "FAILED_PICKUP_CUSTOMER"] := by
  unfold Domain.NewInstructionByTypeAndCountry at h
  cases hv : Domain.Country.Validate c with
  | some e => rw [hv] at h; cases h
  | none =>
    cases hw : Domain.InstructionType.Validate t with
    | some e => rw [hv, hw] at h; cases h
    | none =>
      exact ⟨(Country_Validate_eq_none c).mp hv, (InstructionType_Validate_eq_none t).mp hw⟩

/-- The instruction that `NewInstructionByTypeAndCountry` builds has the type
that was asked for. -/
theorem NewInstructionByTypeAndCountry_type {c t : String} {i : Domain.Instruction}
    (h : Domain.NewInstructionByTypeAndCountry c t = .ok i) : i.Type_ = t := by
  obtain ⟨hc, ht⟩ := NewInstructionByTypeAndCountry_supported h
  obtain ⟨j, hj, hty, _⟩ := ruleTable_facts c t hc ht
  rw [hj] at h
  cases h
  exact hty

/-- A successful `AddInstructionTypes` appends one instruction per type, in
the order of the types, whatever the list holds already. -/
theorem AddInstructionTypes_types (types : List String) :
    ∀ (i : Domain.Instructions) (country : String),
      (Domain.Instructions.AddInstructionTypes i country types).2 = none →
      (Domain.Instructions.AddInstructionTypes i country types).1.map (fun x => x.Type_) =
        i.map (fun x => x.Type_) ++ types ∧
      ∃ added, (Domain.Instructions.AddInstructionTypes i country types).1 = i ++ added := by
  induction types with
  | nil =>
    intro i country _
    exact ⟨by simp [Domain.Instructions.AddInstructionTypes],
      [], by simp [Domain.Instructions.AddInstructionTypes]⟩
  | cons t ts ih =>
    intro i country h
    unfold Domain.Instructions.AddInstructionTypes at h ⊢
    cases hnew : Domain.NewInstructionByTypeAndCountry country t with
    | error e =>
      rw [hnew] at h
      cases h
    | ok instr =>
      rw [hnew] at h
      simp only at h ⊢
      obtain ⟨h1, added, h2⟩ := ih (i ++ [instr]) country h
      refine ⟨?_, instr :: added, ?_⟩
      · rw [h1, List.map_append, List.map_cons, List.map_nil,
          NewInstructionByTypeAndCountry_type hnew, List.append_assoc]
        rfl
      · rw [h2, List.append_assoc]
        rfl

/-! ## Theorems: the list of instructions -/

/-- C35: a successful `AddInstructionTypes` appends one instruction for every
given type, also for a type that the list holds already: the types of the
list afterwards are its types before followed by the given types, and the
list is longer by as many instructions as types were given. So whenever one of
the given types was present before, two instructions share that type
afterwards. -/
theorem C35_AddInstructionTypes_adds_present_types (i : Domain.Instructions)
    (country : String) (types : List String)
    (h : (Domain.Instructions.AddInstructionTypes i country types).2 = none) :
    (Domain.Instructions.AddInstructionTypes i country types).1.map (fun x => x.Type_) =
      i.map (fun x => x.Type_) ++ types ∧
    (Domain.Instructions.AddInstructionTypes i country types).1.length =
      i.length + types.length ∧
    (∀ t ∈ types, t ∈ i.map (fun x => x.Type_) →
      ¬ ((Domain.Instructions.AddInstructionTypes i country types).1.map
        (fun x => x.Type_)).Nodup) := by
  obtain ⟨h1, _⟩ := AddInstructionTypes_types types i country h
  refine ⟨h1, ?_, ?_⟩
  · have := congrArg List.length h1
    simpa using this
  · intro t ht hi hnodup
    rw [h1] at hnodup
    exact (List.nodup_append.mp hnodup).2.2 hi ht

/-- C35, witness: the list holds one `DELIVERY_CUSTOMER` instruction and the
call adds the types `DELIVERY_CUSTOMER` and `DELIVERY_HOUSEHOLD` for ES (the
input of `TestInstructions_AddInstructionTypes`): the call succeeds and the
list then holds two `DELIVERY_CUSTOMER` instructions. -/
theorem C35_AddInstructionTypes_adds_present_types_witness :
    (Domain.Instructions.AddInstructionTypes
        [{ ID := Domain.UUID.Nil, Type_ := "DELIVERY_CUSTOMER", Priority := 1,
           Target := "customer", Steps := [] }]
        "ES" ["DELIVERY_CUSTOMER", "DELIVERY_HOUSEHOLD"]).2 = none ∧
    (Domain.Instructions.AddInstructionTypes
        [{ ID := Domain.UUID.Nil, Type_ := "DELIVERY_CUSTOMER", Priority := 1,
           Target := "customer", Steps := [] }]
        "ES" ["DELIVERY_CUSTOMER", "DELIVERY_HOUSEHOLD"]).1.map (fun x => x.Type_) =
      ["DELIVERY_CUSTOMER"] ++ ["DELIVERY_CUSTOMER", "DELIVERY_HOUSEHOLD"] :=
  ⟨by decide,
    (C35_AddInstructionTypes_adds_present_types
      [{ ID := Domain.UUID.Nil, Type_ := "DELIVERY_CUSTOMER", Priority := 1,
         Target := "customer", Steps := [] }]
      "ES" ["DELIVERY_CUSTOMER", "DELIVERY_HOUSEHOLD"] (by decide)).1⟩

/-! ## Theorems: the steps of the rule table -/

/-- C37: for every supported country and instruction type, the steps of the
instruction that `NewInstructionByTypeAndCountry` builds have pairwise
distinct names, and pairwise distinct priorities, except in one case:
`DELIVERY_CUSTOMER` in FR, whose two steps are both `SIGNATURE`. -/
theorem C37_step_names_distinct_except_one (c t : String)
    (hc : c ∈ ["ES", "IT", "FR", "PT"])
    (ht : t ∈ ["DELIVERY_CUSTOMER", "DELIVERY_HOUSEHOLD", "DELIVERY_3RD_PARTY",
      "FAILED_DELIVERY_CUSTOMER", "FAILED_DELIVERY_WH", "PICKUP_WH", "FAILED_PICKUP_WH",
      "PICKUP_CUSTOMER", "FAILED_PICKUP_CUSTOMER"]) :
    ∃ i, Domain.NewInstructionByTypeAndCountry c t = .ok i ∧
      ((i.Steps.map (fun s => s.Name)).Nodup ↔ ¬ (c = "FR" ∧ t = "DELIVERY_CUSTOMER")) ∧
      ((i.Steps.map (fun s => s.Priority)).Nodup ↔ ¬ (c = "FR" ∧ t = "DELIVERY_CUSTOMER")) := by
  obtain ⟨i, hi, _, _, _, _, _, _, hnames, hprios⟩ := ruleTable_facts c t hc ht
  exact ⟨i, hi, hnames, hprios⟩

/-- C37, witness: `DELIVERY_CUSTOMER` in FR gives the steps `SIGNATURE`,
`SIGNATURE`, both of priority 5. -/
theorem C37_step_names_distinct_except_one_witness :
    Domain.NewInstructionByTypeAndCountry "FR" "DELIVERY_CUSTOMER" =
      .ok { ID := Domain.UUID.Nil, Type_ := "DELIVERY_CUSTOMER", Priority := 1,
            Target := "customer",
            Steps := [{ Name := "SIGNATURE", Mandatory := true, Attempts := 1, Priority := 5,
                        ExtraInfo := [], Fallback := { Name := "" } },
                      { Name := "SIGNATURE", Mandatory := true, Attempts := 1, Priority := 5,
                        ExtraInfo := [], Fallback := { Name := "" } }] } ∧
    ∃ i, Domain.NewInstructionByTypeAndCountry "FR" "DELIVERY_CUSTOMER" = .ok i ∧
      ¬ (i.Steps.map (fun s => s.Name)).Nodup :=
  ⟨by decide,
    (let ⟨i, h1, h2, _⟩ :=
      C37_step_names_distinct_except_one "FR" "DELIVERY_CUSTOMER" (by decide) (by decide)
     ⟨i, h1, fun hn => h2.mp hn ⟨rfl, rfl⟩⟩)⟩

/-! ## Theorems: targets and delivery types -/

/-- C39: for every supported country and instruction type, the instruction
that `NewInstructionByTypeAndCountry` builds has the target `Target()` of its
type, that target is a valid instruction target, and the priority of the
instruction is `Priority()` of that target, which is not 0. -/
theorem C39_rule_table_agrees_with_Target (c t : String) (hc : c ∈ ["ES", "IT", "FR", "PT"])
    (ht : t ∈ ["DELIVERY_CUSTOMER", "DELIVERY_HOUSEHOLD", "DELIVERY_3RD_PARTY",
      "FAILED_DELIVERY_CUSTOMER", "FAILED_DELIVERY_WH", "PICKUP_WH", "FAILED_PICKUP_WH",
      "PICKUP_CUSTOMER", "FAILED_PICKUP_CUSTOMER"]) :
    ∃ i, Domain.NewInstructionByTypeAndCountry c t = .ok i ∧
      i.Type_ = t ∧
      i.Target = Domain.InstructionType.Target i.Type_ ∧
      Domain.InstructionTarget.IsActionTargetValid i.Target = none ∧
      i.Priority = Domain.InstructionTarget.Priority i.Target ∧
      i.Priority ≠ 0 := by
  obtain ⟨i, hi, hty, htarget, hvalid, hprio, hne, _⟩ := ruleTable_facts c t hc ht
  exact ⟨i, hi, hty, by rw [hty]; exact htarget, hvalid, hprio, hne⟩

/-- C39, witness: `DELIVERY_HOUSEHOLD` in IT has the target `household` with
priority 4. -/
theorem C39_rule_table_agrees_with_Target_witness :
    ∃ i, Domain.NewInstructionByTypeAndCountry "IT" "DELIVERY_HOUSEHOLD" = .ok i ∧
      i.Target = "household" ∧ i.Priority = 4 :=
  (let ⟨i, h1, h2, h3, _, h5, _⟩ :=
    C39_rule_table_agrees_with_Target "IT" "DELIVERY_HOUSEHOLD" (by decide) (by decide)
   ⟨i, h1, by rw [h3, h2]; decide, by rw [h5, h3, h2]; decide⟩)

/-- C38: the delivery types of the three default configurations and of the
rule table. `NewDefaultPickUPWarehouse` carries `DIRECT`, which the rule table
returns for `PICKUP_WH`. `NewDefaultFailedPickUPWarehouse` carries `REVERSE`,
but the rule table returns `DIRECT` for `FAILED_PICKUP_WH`;
`NewDefaultFailedDeliveryWarehouse` carries `DIRECT`, but the rule table
returns `REVERSE` for `FAILED_DELIVERY_WH`. The rule table returns these for
every country and every instruction it is applied to. -/
theorem C38_default_delivery_types_against_rule_table (retailerID country : String)
    (i0 : Domain.Instruction) :
    ((Domain.NewDefaultPickUPWarehouse retailerID).Instructions.map (fun i => i.Type_) =
        ["PICKUP_WH"] ∧
      (Domain.NewDefaultPickUPWarehouse retailerID).DeliveryType = "DIRECT" ∧
      (i0.PrepareInstructionBYTargetAndCountryFromSpreadsheet "PICKUP_WH" country).2.1 =
        "DIRECT") ∧
    ((Domain.NewDefaultFailedPickUPWarehouse retailerID).Instructions.map (fun i => i.Type_) =
        ["FAILED_PICKUP_WH"] ∧
      (Domain.NewDefaultFailedPickUPWarehouse retailerID).DeliveryType = "REVERSE" ∧
      (i0.PrepareInstructionBYTargetAndCountryFromSpreadsheet "FAILED_PICKUP_WH" country).2.1 =
        "DIRECT") ∧
    ((Domain.NewDefaultFailedDeliveryWarehouse retailerID).Instructions.map
        (fun i => i.Type_) = ["FAILED_DELIVERY_WH"] ∧
      (Domain.NewDefaultFailedDeliveryWarehouse retailerID).DeliveryType = "DIRECT" ∧
      (i0.PrepareInstructionBYTargetAndCountryFromSpreadsheet "FAILED_DELIVERY_WH"
        country).2.1 = "REVERSE") :=
  ⟨⟨rfl, rfl, rfl⟩, ⟨rfl, rfl, rfl⟩, ⟨rfl, rfl, rfl⟩⟩

/-! ## Theorems: the User-Agent of the builder -/

/-- C32: `SetUserAgent(ua)` on a builder whose header map is nil, as it is
until `SetHeaders` has been called, panics on the assignment to an entry of
the nil map. On a builder with a header map that has no `User-Agent` value it
returns the builder with `User-Agent` set to `ua`; on one that has such a
value it returns the builder unchanged. -/
theorem C32_SetUserAgent_panics_on_nil_map (b : clientBuilder) (ua : String) :
    (b.headers = none → b.SetUserAgent ua = .error .nilMapAssignment) ∧
    (∀ h, b.headers = some h → Header.Get h HeaderUserAgent = "" →
      b.SetUserAgent ua = .ok { b with headers := some (Header.Set h HeaderUserAgent ua) } ∧
      Header.Get (Header.Set h HeaderUserAgent ua) HeaderUserAgent = ua) ∧
    (∀ h, b.headers = some h → Header.Get h HeaderUserAgent ≠ "" →
      b.SetUserAgent ua = .ok b) := by
  refine ⟨?_, ?_, ?_⟩
  · intro h
    have hget : Header.Get ([] : Header) HeaderUserAgent = "" := rfl
    simp only [clientBuilder.SetUserAgent, h, Option.getD_none, hget, ne_eq, not_true,
      if_false]
  · intro h hb hget
    refine ⟨?_, ?_⟩
    · simp only [clientBuilder.SetUserAgent, hb, Option.getD_some, hget, ne_eq, not_true,
        if_false]
    · unfold Header.Get Header.Set
      rw [Header.lookup_store, if_pos rfl]
  · intro h hb hget
    simp only [clientBuilder.SetUserAgent, hb, Option.getD_some, ne_eq, hget, not_false_eq_true,
      if_true]

/-- C32, witness: on the builder of `NewClientBuilder()` the call panics;
after `SetHeaders` it sets the header, and a request carries it. -/
theorem C32_SetUserAgent_panics_on_nil_map_witness :
    (NewClientBuilder.headers = none ∧
      NewClientBuilder.SetUserAgent "agent/1.0" = .error .nilMapAssignment) ∧
    (∃ b1, (NewClientBuilder.SetHeaders [("Accept", ["*/*"])]).SetUserAgent "agent/1.0" =
        .ok b1 ∧
      Header.Get (b1.Build.RequestHeaders [("Authorization", ["Bearer x"])]) "User-Agent" =
        "agent/1.0") :=
  ⟨⟨rfl, (C32_SetUserAgent_panics_on_nil_map NewClientBuilder "agent/1.0").1 rfl⟩,
    ⟨_, ((C32_SetUserAgent_panics_on_nil_map (NewClientBuilder.SetHeaders [("Accept", ["*/*"])])
      "agent/1.0").2.1 [("Accept", ["*/*"])] (by decide) (by decide)).1, by decide⟩⟩

/-! ## Theorems: the default backoff as a function of the attempt number -/

/-- C40, counterexample: `lo` = `hi` = 2^53 + 1 ns. Without a response,
`DefaultBackoff(lo, hi, 0)` is 2^53 ns, below `lo`: the conversion
`float64(lo)` rounds down. -/
theorem C40_counterexample_below_min :
    (0 : Int) < 9007199254740993 ∧
    DefaultBackoff 9007199254740993 9007199254740993 0 none = .ok 9007199254740992 ∧
    (9007199254740992 : Int) < 9007199254740993 := by
  refine ⟨by norm_num, ?_, by norm_num⟩
  have hf : float64OfInt 9007199254740993 = 9007199254740992 := by
    unfold float64OfInt
    rw [if_neg (by norm_num)]
    have hn : Int.natAbs 9007199254740993 = 9007199254740993 := rfl
    rw [hn, roundNat53_example]
    rfl
  show Except.ok (exponentialSleep 9007199254740993 9007199254740993 0) = _
  unfold exponentialSleep
  rw [hf]
  decide

/-- C40, amended: for a nil response, `0 < lo <= hi` and attempt numbers
`0 <= n <= m`, `DefaultBackoff` returns a duration for both, the one for `n`
is at most the one for `m`, and each result is at most `hi` and at least the
smaller of `float64(lo)` and `hi`; so it lies between `lo` and `hi` whenever
`float64(lo)` is `lo`, as it is for every `lo` below 2^53 ns. -/
theorem C40_DefaultBackoff_monotone_and_bounded (lo hi : Int) (n m : Nat) (h0 : 0 < lo)
    (hle : lo ≤ hi) (hhi : hi < 2 ^ 63) (hnm : n ≤ m) :
    ∃ a b, DefaultBackoff lo hi (n : Int) none = .ok a ∧
      DefaultBackoff lo hi (m : Int) none = .ok b ∧
      a ≤ b ∧ a ≤ hi ∧ b ≤ hi ∧
      min (float64OfInt lo) hi ≤ a ∧
      (float64OfInt lo = lo → lo ≤ a ∧ lo ≤ b) ∧
      (lo < 2 ^ 53 → lo ≤ a ∧ lo ≤ b) := by
  have hf1 : 1 ≤ float64OfInt lo := float64OfInt_pos (by omega)
  have hval : ∀ k : Nat, exponentialSleep lo hi (k : Int) = min (float64OfInt lo * 2 ^ k) hi := by
    intro k
    rw [exponentialSleep_of_nonneg lo hi k (le_of_lt h0) hhi, if_neg]
    intro h
    omega
  have hpow : ∀ k : Nat, (1 : Int) ≤ 2 ^ k := fun k => one_le_pow₀ (by norm_num)
  have hmono : float64OfInt lo * 2 ^ n ≤ float64OfInt lo * 2 ^ m :=
    mul_le_mul_of_nonneg_left (pow_le_pow_right₀ (by norm_num) hnm) (by omega)
  have hlow : ∀ k : Nat, float64OfInt lo ≤ float64OfInt lo * 2 ^ k := by
    intro k
    have := mul_le_mul_of_nonneg_left (hpow k) (show (0 : Int) ≤ float64OfInt lo by omega)
    rwa [mul_one] at this
  have hexact : float64OfInt lo = lo →
      lo ≤ min (float64OfInt lo * 2 ^ n) hi ∧ lo ≤ min (float64OfInt lo * 2 ^ m) hi := by
    intro he
    have h1 := hlow n
    have h2 := hlow m
    rw [he] at h1 h2 ⊢
    exact ⟨le_min h1 hle, le_min h2 hle⟩
  refine ⟨min (float64OfInt lo * 2 ^ n) hi, min (float64OfInt lo * 2 ^ m) hi, ?_, ?_,
    min_le_min hmono (le_refl _), min_le_right _ _, min_le_right _ _,
    min_le_min (hlow n) (le_refl _), hexact,
    fun hs => hexact (float64OfInt_small (le_of_lt h0) hs)⟩
  · show Except.ok (exponentialSleep lo hi (n : Int)) = _
    rw [hval n]
  · show Except.ok (exponentialSleep lo hi (m : Int)) = _
    rw [hval m]

/-- C40, witness: `lo` = 1s and `hi` = 30s at the attempt numbers 1 and 2:
the waits are 2s and 4s. -/
theorem C40_DefaultBackoff_monotone_and_bounded_witness :
    ∃ a b, DefaultBackoff Second (30 * Second) ((1 : Nat) : Int) none = .ok a ∧
      DefaultBackoff Second (30 * Second) ((2 : Nat) : Int) none = .ok b ∧
      a ≤ b ∧ Second ≤ a ∧ b ≤ 30 * Second :=
  (let ⟨a, b, h1, h2, h3, _, h5, _, _, h8⟩ :=
    C40_DefaultBackoff_monotone_and_bounded Second (30 * Second) 1 2 (by decide) (by decide)
      (by decide) (by decide)
   ⟨a, b, h1, h2, h3, (h8 (by decide)).1, h5⟩)

end Gohttp
